import Mathlib

/-!
# AAP simulator and disassembler: a shallow embedding

The executor `AAPSimulator::exec`, the step driver `AAPSimulator::step`
(lib/Target/AAPSimulator/AAPSimulator.cpp) and the decoder entry point
`AAPDisassembler::getInstruction` (lib/Target/AAP/Disassembler/AAPDisassembler.cpp)
are embedded as pure functions.  C++ machine integers are modelled by `Nat`
and `Int` with the reduction modulo the width written out at every
conversion.  Operand accesses that would trip an assertion in the C++
(`getReg` on an immediate, `getImm` on a register, a missing operand,
`llvm_unreachable` in `getLLVMReg`) make the embedded function return `none`.
-/

set_option maxRecDepth 4000

namespace AAP

/-- Modelled from the spec: the generated register enumeration
(AAPGenRegisterInfo.inc is not among the sources).  `NoRegister` is the
value that names no physical register; `R0` .. `R63` are the 64
general-purpose registers. -/
inductive Reg where
  | NoRegister
  | R0 | R1 | R2 | R3 | R4 | R5 | R6 | R7
  | R8 | R9 | R10 | R11 | R12 | R13 | R14 | R15
  | R16 | R17 | R18 | R19 | R20 | R21 | R22 | R23
  | R24 | R25 | R26 | R27 | R28 | R29 | R30 | R31
  | R32 | R33 | R34 | R35 | R36 | R37 | R38 | R39
  | R40 | R41 | R42 | R43 | R44 | R45 | R46 | R47
  | R48 | R49 | R50 | R51 | R52 | R53 | R54 | R55
  | R56 | R57 | R58 | R59 | R60 | R61 | R62 | R63
  deriving DecidableEq, Repr

/-- Modelled from the spec: the generated opcode enumeration
(AAPGenInstrInfo.inc is not among the sources).  Every opcode that
`AAPSimulator::exec` has a case for is listed by name; `other` stands
for any further opcode of the enumeration (pseudo-instructions, generic
opcodes), all of which `exec` sends to its `default` case. -/
inductive Opcode where
  | NOP | NOP_short
  | MOV_r | MOV_r_short | MOVI_i16 | MOVI_i6_short
  | ADD_r | ADD_r_short | ADDC_r | ADDI_i10 | ADDI_i3_short
  | SUB_r | SUB_r_short | SUBC_r | SUBI_i10 | SUBI_i3_short
  | AND_r | AND_r_short | ANDI_i9
  | OR_r | OR_r_short | ORI_i9
  | XOR_r | XOR_r_short | XORI_i9
  | ASR_r | ASR_r_short | ASRI_i6 | ASRI_i3_short
  | LSL_r | LSL_r_short | LSLI_i6 | LSLI_i3_short
  | LSR_r | LSR_r_short | LSRI_i6 | LSRI_i3_short
  | LDB | LDB_short | LDW | LDW_short
  | LDB_postinc | LDB_postinc_short | LDW_postinc | LDW_postinc_short
  | LDB_predec | LDB_predec_short | LDW_predec | LDW_predec_short
  | STB | STB_short | STW | STW_short
  | STB_postinc | STB_postinc_short | STW_postinc | STW_postinc_short
  | STB_predec | STB_predec_short | STW_predec | STW_predec_short
  | BAL | BAL_short | JAL | JAL_short
  | BEQ_ | BEQ_short | BNE_ | BNE_short
  | BLTS_ | BLTS_short | BGTS_ | BGTS_short
  | BLTU_ | BLTU_short | BGTU_ | BGTU_short
  | BRA | BRA_short | JMP | JMP_short
  | other
  deriving DecidableEq, Repr

end AAP

namespace AAPSim

/-! ## Machine-integer conversions -/

/-- Conversion of a mathematical integer to `uint16_t`. -/
def toUInt16 (x : Int) : Nat := (x % 65536).toNat

/-- Conversion of a mathematical integer to `uint32_t`. -/
def toUInt32 (x : Int) : Nat := (x % 4294967296).toNat

/-- Conversion of a mathematical integer to `int16_t` (two's complement). -/
def toInt16 (x : Int) : Int :=
  let m := x % 65536
  if m < 32768 then m else m - 65536

/-- Conversion of a mathematical integer to `int32_t` (two's complement). -/
def toInt32 (x : Int) : Int :=
  let m := x % 4294967296
  if m < 2147483648 then m else m - 4294967296

/-! ## MC layer: operands and instructions -/

/-- Modelled from the spec: an instruction operand (`MCOperand`), either a
register id or an immediate (`int64_t`, here an unbounded integer). -/
inductive MCOperand where
  | createReg (Reg : AAP.Reg)
  | createImm (Val : Int)
  deriving DecidableEq, Repr

/-- The register of a register operand; `none` models the failed assertion. -/
def MCOperand.getReg : MCOperand → Option AAP.Reg
  | .createReg r => some r
  | .createImm _ => none

/-- The value of an immediate operand; `none` models the failed assertion. -/
def MCOperand.getImm : MCOperand → Option Int
  | .createImm v => some v
  | .createReg _ => none

/-- Modelled from the spec: a decoded instruction (`MCInst`), an opcode tag
with an ordered operand list. -/
structure MCInst where
  Opcode : AAP.Opcode
  Operands : List MCOperand
  deriving DecidableEq, Repr

/-- The operand in slot `i`; `none` when the slot does not exist. -/
def MCInst.getOperand (Inst : MCInst) (i : Nat) : Option MCOperand :=
  Inst.Operands.get? i

/-- Appends an operand. -/
def MCInst.addOperand (Inst : MCInst) (Op : MCOperand) : MCInst :=
  { Inst with Operands := Inst.Operands ++ [Op] }

/-- The opcode tag. -/
def MCInst.getOpcode (Inst : MCInst) : AAP.Opcode := Inst.Opcode

/-- A freshly constructed `MCInst`: opcode 0 (not an opcode `exec` has a
case for) and no operands. -/
def MCInst.fresh : MCInst := { Opcode := .other, Operands := [] }

/-! ## Architectural state -/

/-- Modelled from the spec: the architectural state `AAPSimState` (its
declaration is not among the sources): 64 registers of 16 bits, a word
program counter, the captured exit code, the one-bit overflow flag, and
the code and data memories of bytes.  The accessors below reduce every
value to the width of its field, on writing and on reading, and every
data-memory address to the 16-bit address space (the executor passes
`Address + 1` as an `int`; the byte after 0xFFFF is the byte at 0). -/
structure AAPSimState where
  base_regs : Nat → Nat
  pc_w : Nat
  exitcode : Nat
  overflow : Nat
  code_memory : List Nat
  data_memory : Nat → Nat

namespace AAPSimState

/-- Reads register `reg` as a `uint16_t`. -/
def getReg (s : AAPSimState) (reg : Nat) : Nat := s.base_regs reg % 65536

/-- Writes the `uint16_t` value `val` to register `reg`. -/
def setReg (s : AAPSimState) (reg : Nat) (val : Nat) : AAPSimState :=
  { s with base_regs := Function.update s.base_regs reg (val % 65536) }

/-- Reads the program counter (word units, `uint32_t`). -/
def getPC (s : AAPSimState) : Nat := s.pc_w % 4294967296

/-- Writes the program counter. -/
def setPC (s : AAPSimState) (val : Nat) : AAPSimState :=
  { s with pc_w := val % 4294967296 }

/-- Reads the overflow bit. -/
def getOverflow (s : AAPSimState) : Nat := s.overflow % 2

/-- Writes the overflow bit. -/
def setOverflow (s : AAPSimState) (o : Nat) : AAPSimState :=
  { s with overflow := o % 2 }

/-- Reads the captured exit code. -/
def getExitCode (s : AAPSimState) : Nat := s.exitcode % 65536

/-- Captures the exit code. -/
def setExitCode (s : AAPSimState) (val : Nat) : AAPSimState :=
  { s with exitcode := val % 65536 }

/-- Reads one byte of data memory (16-bit address space). -/
def getDataMem (s : AAPSimState) (address : Nat) : Nat :=
  s.data_memory (address % 65536) % 256

/-- Writes one byte of data memory (16-bit address space). -/
def setDataMem (s : AAPSimState) (address : Nat) (val : Nat) : AAPSimState :=
  { s with data_memory := Function.update s.data_memory (address % 65536) (val % 256) }

/-- Reads one byte of code memory (0 outside the array). -/
def getCodeMem (s : AAPSimState) (address : Nat) : Nat :=
  (s.code_memory.getD address 0) % 256

/-- Writes one byte of code memory. -/
def setCodeMem (s : AAPSimState) (address : Nat) (val : Nat) : AAPSimState :=
  { s with code_memory := s.code_memory.set address (val % 256) }

/-- The code memory as an array of bytes. -/
def getCodeArray (s : AAPSimState) : List Nat := s.code_memory.map (· % 256)

end AAPSimState

/-- The simulator object: the architectural state together with the
characters written so far to the standard output and standard error
streams (each character is recorded as its byte value). -/
structure AAPSimulator where
  State : AAPSimState
  outs : List Nat
  errs : List Nat

/-- Status returned by one simulated instruction. -/
inductive SimStatus where
  | SIM_OK
  | SIM_INVALID_INSN
  | SIM_BREAKPOINT
  | SIM_TRAP
  | SIM_QUIT
  deriving DecidableEq, Repr

/-! ## Helpers of the executor -/

/-- Maps a register id to its index; `none` models `llvm_unreachable`. -/
def getLLVMReg : AAP.Reg → Option Nat
  | .NoRegister => none
  | .R0 => some 0 | .R1 => some 1 | .R2 => some 2 | .R3 => some 3
  | .R4 => some 4 | .R5 => some 5 | .R6 => some 6 | .R7 => some 7
  | .R8 => some 8 | .R9 => some 9 | .R10 => some 10 | .R11 => some 11
  | .R12 => some 12 | .R13 => some 13 | .R14 => some 14 | .R15 => some 15
  | .R16 => some 16 | .R17 => some 17 | .R18 => some 18 | .R19 => some 19
  | .R20 => some 20 | .R21 => some 21 | .R22 => some 22 | .R23 => some 23
  | .R24 => some 24 | .R25 => some 25 | .R26 => some 26 | .R27 => some 27
  | .R28 => some 28 | .R29 => some 29 | .R30 => some 30 | .R31 => some 31
  | .R32 => some 32 | .R33 => some 33 | .R34 => some 34 | .R35 => some 35
  | .R36 => some 36 | .R37 => some 37 | .R38 => some 38 | .R39 => some 39
  | .R40 => some 40 | .R41 => some 41 | .R42 => some 42 | .R43 => some 43
  | .R44 => some 44 | .R45 => some 45 | .R46 => some 46 | .R47 => some 47
  | .R48 => some 48 | .R49 => some 49 | .R50 => some 50 | .R51 => some 51
  | .R52 => some 52 | .R53 => some 53 | .R54 => some 54 | .R55 => some 55
  | .R56 => some 56 | .R57 => some 57 | .R58 => some 58 | .R59 => some 59
  | .R60 => some 60 | .R61 => some 61 | .R62 => some 62 | .R63 => some 63

/-- Sign extension of a `uint16_t` register value to 32 bits, for
detecting overflow; the result is a `uint32_t`. -/
def signExtend16 (val : Nat) : Nat :=
  let newval := val % 65536
  let sign := newval &&& 0x8000
  if sign ≠ 0 then newval ||| 0xffff0000 else newval

/-- Sign extension of a conditional-branch target (long form). -/
def signExtendBranchCC (val : Nat) : Int :=
  let val := val % 65536
  let val := if val &&& 0x0200 ≠ 0 then val ||| 0xfe00 else val
  toInt16 val

/-- Sign extension of a branch target (long form, 18 bits). -/
def signExtendBranch (val : Nat) : Int :=
  let val := val % 4294967296
  let val := if val &&& 0x00020000 ≠ 0 then val ||| 0xfffe0000 else val
  toInt32 val

/-- Sign extension of a branch target (short form). -/
def signExtendBranchS (val : Nat) : Int :=
  let val := val % 65536
  let val := if val &&& 0x200 ≠ 0 then val ||| 0xfc00 else val
  toInt16 val

/-- The register index named by operand slot `i` of `Inst`. -/
def regOperand (Inst : MCInst) (i : Nat) : Option Nat :=
  (Inst.getOperand i).bind MCOperand.getReg |>.bind getLLVMReg

/-- The immediate held by operand slot `i` of `Inst`. -/
def immOperand (Inst : MCInst) (i : Nat) : Option Int :=
  (Inst.getOperand i).bind MCOperand.getImm

/-- What `exec` hands back: the status, the simulator after the
instruction, and the value left in the reference parameter `newpc_w`. -/
structure ExecResult where
  status : SimStatus
  sim : AAPSimulator
  newpc_w : Nat

/-- Finishes a case of `exec` that leaves the switch by `break`: the
status is `SIM_OK`. -/
def execOk (sim : AAPSimulator) (State : AAPSimState) (newpc_w : Nat) : Option ExecResult :=
  some ⟨.SIM_OK, { sim with State := State }, newpc_w⟩

/-- Recomputes the overflow flag from the 32-bit result `Res` of an
add/sub-family instruction: `static_cast<int16_t>(Res_s) != Res_s ? 1 : 0`. -/
def overflowOf (Res : Nat) : Nat :=
  let Res_s := toInt32 Res
  if toInt16 Res_s ≠ Res_s then 1 else 0

/-- The load cases of `exec` (LDB, LDW and their post-increment,
pre-decrement and short forms). -/
def execLoad (sim : AAPSimulator) (Inst : MCInst) (newpc_w : Nat) : Option ExecResult := do
  let Op := Inst.getOpcode
  let postinc : Bool := Op == .LDB_postinc || Op == .LDB_postinc_short ||
                        Op == .LDW_postinc || Op == .LDW_postinc_short
  let predec : Bool := Op == .LDB_predec || Op == .LDB_predec_short ||
                       Op == .LDW_predec || Op == .LDW_predec_short
  let word : Bool := Op == .LDW || Op == .LDW_short ||
                     Op == .LDW_postinc || Op == .LDW_postinc_short ||
                     Op == .LDW_predec || Op == .LDW_predec_short
  -- Initial register values
  let RegDst ← regOperand Inst 0
  let RegMem ← regOperand Inst 1
  let Offset := toInt32 (← immOperand Inst 2)
  let State := sim.State
  let BaseAddress := State.getReg RegMem
  -- Handle pre-dec
  let BaseAddress := if predec then toUInt16 ((BaseAddress : Int) - (if word then 2 else 1))
                     else BaseAddress
  let State := if predec then State.setReg RegMem BaseAddress else State
  let State := State.setReg RegMem BaseAddress
  -- Load
  let Address := toUInt16 ((BaseAddress : Int) + Offset)
  let Val := State.getDataMem Address
  let Val := if word then (Val ||| (State.getDataMem (Address + 1) <<< 8)) % 65536 else Val
  let State := State.setReg RegDst Val
  -- Handle post-inc
  let BaseAddress := if postinc then toUInt16 ((BaseAddress : Int) + (if word then 2 else 1))
                     else BaseAddress
  let State := if postinc then State.setReg RegMem BaseAddress else State
  execOk sim State newpc_w

/-- The store cases of `exec` (STB, STW and their post-increment,
pre-decrement and short forms).  Both `RegMem` and `RegSrc` are read from
operand slot 0, as in the source. -/
def execStore (sim : AAPSimulator) (Inst : MCInst) (newpc_w : Nat) : Option ExecResult := do
  let Op := Inst.getOpcode
  let postinc : Bool := Op == .STB_postinc || Op == .STB_postinc_short ||
                        Op == .STW_postinc || Op == .STW_postinc_short
  let predec : Bool := Op == .STB_predec || Op == .STB_predec_short ||
                       Op == .STW_predec || Op == .STW_predec_short
  let word : Bool := Op == .STW || Op == .STW_short ||
                     Op == .STW_postinc || Op == .STW_postinc_short ||
                     Op == .STW_predec || Op == .STW_predec_short
  -- Initial register values
  let RegMem ← regOperand Inst 0
  let Offset := toInt32 (← immOperand Inst 1)
  let RegSrc ← regOperand Inst 0
  let State := sim.State
  let BaseAddress := State.getReg RegMem
  let Val := State.getReg RegSrc
  -- Handle pre-dec
  let BaseAddress := if predec then toUInt16 ((BaseAddress : Int) - (if word then 2 else 1))
                     else BaseAddress
  let State := if predec then State.setReg RegMem BaseAddress else State
  let State := State.setReg RegMem BaseAddress
  -- Store
  let Address := toUInt16 ((BaseAddress : Int) + Offset)
  let State := State.setDataMem Address (Val &&& 0xff)
  let State := if word then State.setDataMem (Address + 1) (Val >>> 8) else State
  -- Handle post-inc
  let BaseAddress := if postinc then toUInt16 ((BaseAddress : Int) + (if word then 2 else 1))
                     else BaseAddress
  let State := if postinc then State.setReg RegMem BaseAddress else State
  execOk sim State newpc_w

/-- The branch-and-link and jump-and-link cases of `exec`
(BAL, BAL_short, JAL, JAL_short). -/
def execLink (sim : AAPSimulator) (Inst : MCInst) (pc_w : Nat) (newpc_w : Nat) :
    Option ExecResult := do
  let Op := Inst.getOpcode
  let Reg ← regOperand Inst 1
  let State := sim.State.setReg Reg newpc_w
  let Imm := toUInt16 (← immOperand Inst 0)
  let SImm : Int := if Op == .BAL then toInt16 Imm else signExtendBranchS Imm
  let newpc_w := if Op == .BAL || Op == .BAL_short then toUInt32 ((pc_w : Int) + SImm)
                 else Imm
  execOk sim State newpc_w

/-- The conditional-branch cases of `exec` (BEQ, BNE, BLTS, BGTS, BLTU,
BGTU, long and short forms). -/
def execBranchCC (sim : AAPSimulator) (Inst : MCInst) (pc_w : Nat) (newpc_w : Nat) :
    Option ExecResult := do
  let Op := Inst.getOpcode
  let State := sim.State
  let Imm := toUInt16 (← immOperand Inst 0)
  let ValA := State.getReg (← regOperand Inst 1)
  let SValA := toInt16 ValA
  let ValB := State.getReg (← regOperand Inst 2)
  let SValB := toInt16 ValB
  let longbr : Bool := Op == .BEQ_ || Op == .BNE_ || Op == .BLTS_ ||
                       Op == .BGTS_ || Op == .BLTU_ || Op == .BGTU_
  -- FIXME: Long should use signExtendBranch
  let SImm : Int := if longbr then signExtendBranchCC Imm else signExtendBranchS Imm
  let branch : Bool := false
  -- Decide whether to branch based on instruction type
  let branch := if Op == .BEQ_ || Op == .BEQ_short then decide (ValA = ValB) else branch
  let branch := if Op == .BNE_ || Op == .BNE_short then decide (ValA ≠ ValB) else branch
  let branch := if Op == .BLTS_ || Op == .BLTS_short then decide (SValA < SValB) else branch
  let branch := if Op == .BGTS_ || Op == .BGTS_short then decide (SValA > SValB) else branch
  let branch := if Op == .BLTU_ || Op == .BLTU_short then decide (ValA < ValB) else branch
  let branch := if Op == .BGTU_ || Op == .BGTU_short then decide (ValA > ValB) else branch
  -- Branch if needed
  let newpc_w := if branch then toUInt32 ((pc_w : Int) + SImm) else newpc_w
  execOk sim State newpc_w

/-- The executor `AAPSimulator::exec(Inst, pc_w, newpc_w)`.  `pc_w` and
`newpc_w` are `uint32_t` values; the result carries the value left in the
reference parameter `newpc_w`.  Built with `UNKNOWN_SHOULD_UNREACHABLE 0`,
as the source sets it. -/
def exec (sim : AAPSimulator) (Inst : MCInst) (pc_w : Nat) (newpc_w : Nat) :
    Option ExecResult :=
  let State := sim.State
  match Inst.getOpcode with
  -- Unknown instruction
  | .other => some ⟨.SIM_TRAP, sim, pc_w⟩
  -- NOP Handling
  | .NOP | .NOP_short => do
    let Reg ← regOperand Inst 0
    let Command := toUInt16 (← immOperand Inst 1)
    -- Load register value and char for NOPs that require it
    let RegVal := State.getReg Reg
    let c := RegVal % 256
    if Command = 0 then some ⟨.SIM_BREAKPOINT, sim, newpc_w⟩
    else if Command = 1 then execOk sim State newpc_w
    else if Command = 2 then
      some ⟨.SIM_QUIT, { sim with State := State.setExitCode RegVal }, newpc_w⟩
    else if Command = 3 then
      execOk { sim with outs := sim.outs ++ [c] } State newpc_w
    else if Command = 4 then
      execOk { sim with errs := sim.errs ++ [c] } State newpc_w
    else execOk sim State newpc_w
  -- Move Instructions
  | .MOV_r | .MOV_r_short => do
    let RegDst ← regOperand Inst 0
    let RegSrc ← regOperand Inst 1
    execOk sim (State.setReg RegDst (State.getReg RegSrc)) newpc_w
  | .MOVI_i16 | .MOVI_i6_short => do
    let Reg ← regOperand Inst 0
    let Val := toUInt16 ((← immOperand Inst 1) % 65536)
    execOk sim (State.setReg Reg Val) newpc_w
  -- ADD
  | .ADD_r | .ADD_r_short => do
    let RegDst ← regOperand Inst 0
    let RegSrcA ← regOperand Inst 1
    let RegSrcB ← regOperand Inst 2
    let ValA := signExtend16 (State.getReg RegSrcA)
    let ValB := signExtend16 (State.getReg RegSrcB)
    let Res := toUInt32 ((ValA : Int) + ValB)
    let State := State.setReg RegDst (Res % 65536)
    -- Test for overflow
    execOk sim (State.setOverflow (overflowOf Res)) newpc_w
  -- ADDC
  | .ADDC_r => do
    let RegDst ← regOperand Inst 0
    let RegSrcA ← regOperand Inst 1
    let RegSrcB ← regOperand Inst 2
    let ValA := signExtend16 (State.getReg RegSrcA)
    let ValB := signExtend16 (State.getReg RegSrcB)
    let Res := toUInt32 ((ValA : Int) + ValB + State.getOverflow)
    let State := State.setReg RegDst (Res % 65536)
    -- Test for overflow
    execOk sim (State.setOverflow (overflowOf Res)) newpc_w
  -- ADDI
  | .ADDI_i10 | .ADDI_i3_short => do
    let RegDst ← regOperand Inst 0
    let RegSrcA ← regOperand Inst 1
    let ValA := signExtend16 (State.getReg RegSrcA)
    let ValB := toUInt32 (← immOperand Inst 2)
    let Res := toUInt32 ((ValA : Int) + ValB)
    let State := State.setReg RegDst (Res % 65536)
    -- Test for overflow
    execOk sim (State.setOverflow (overflowOf Res)) newpc_w
  -- SUB
  | .SUB_r | .SUB_r_short => do
    let RegDst ← regOperand Inst 0
    let RegSrcA ← regOperand Inst 1
    let RegSrcB ← regOperand Inst 2
    let ValA := signExtend16 (State.getReg RegSrcA)
    let ValB := signExtend16 (State.getReg RegSrcB)
    let Res := toUInt32 ((ValA : Int) - ValB)
    let State := State.setReg RegDst (Res % 65536)
    -- Test for overflow
    execOk sim (State.setOverflow (overflowOf Res)) newpc_w
  -- SUBC
  | .SUBC_r => do
    let RegDst ← regOperand Inst 0
    let RegSrcA ← regOperand Inst 1
    let RegSrcB ← regOperand Inst 2
    let ValA := signExtend16 (State.getReg RegSrcA)
    let ValB := signExtend16 (State.getReg RegSrcB)
    let Res := toUInt32 ((ValA : Int) - ValB - State.getOverflow)
    let State := State.setReg RegDst (Res % 65536)
    -- Test for overflow
    execOk sim (State.setOverflow (overflowOf Res)) newpc_w
  -- SUBI
  | .SUBI_i10 | .SUBI_i3_short => do
    let RegDst ← regOperand Inst 0
    let RegSrcA ← regOperand Inst 1
    let ValA := signExtend16 (State.getReg RegSrcA)
    let ValB := toUInt32 (← immOperand Inst 2)
    let Res := toUInt32 ((ValA : Int) - ValB)
    let State := State.setReg RegDst (Res % 65536)
    -- Test for overflow
    execOk sim (State.setOverflow (overflowOf Res)) newpc_w
  -- AND
  | .AND_r | .AND_r_short => do
    let RegDst ← regOperand Inst 0
    let RegSrcA ← regOperand Inst 1
    let RegSrcB ← regOperand Inst 2
    let ValA := State.getReg RegSrcA
    let ValB := State.getReg RegSrcB
    execOk sim (State.setReg RegDst (ValA &&& ValB)) newpc_w
  -- ANDI
  | .ANDI_i9 => do
    let RegDst ← regOperand Inst 0
    let RegSrcA ← regOperand Inst 1
    let ValA := State.getReg RegSrcA
    let ValB := toUInt16 (← immOperand Inst 2)
    execOk sim (State.setReg RegDst (ValA &&& ValB)) newpc_w
  -- OR
  | .OR_r | .OR_r_short => do
    let RegDst ← regOperand Inst 0
    let RegSrcA ← regOperand Inst 1
    let RegSrcB ← regOperand Inst 2
    let ValA := State.getReg RegSrcA
    let ValB := State.getReg RegSrcB
    execOk sim (State.setReg RegDst (ValA ||| ValB)) newpc_w
  -- ORI
  | .ORI_i9 => do
    let RegDst ← regOperand Inst 0
    let RegSrcA ← regOperand Inst 1
    let ValA := State.getReg RegSrcA
    let ValB := toUInt16 (← immOperand Inst 2)
    execOk sim (State.setReg RegDst (ValA ||| ValB)) newpc_w
  -- XOR
  | .XOR_r | .XOR_r_short => do
    let RegDst ← regOperand Inst 0
    let RegSrcA ← regOperand Inst 1
    let RegSrcB ← regOperand Inst 2
    let ValA := State.getReg RegSrcA
    let ValB := State.getReg RegSrcB
    execOk sim (State.setReg RegDst (ValA ^^^ ValB)) newpc_w
  -- XORI
  | .XORI_i9 => do
    let RegDst ← regOperand Inst 0
    let RegSrcA ← regOperand Inst 1
    let ValA := State.getReg RegSrcA
    let ValB := toUInt16 (← immOperand Inst 2)
    execOk sim (State.setReg RegDst (ValA ^^^ ValB)) newpc_w
  -- ASR
  | .ASR_r | .ASR_r_short => do
    let RegDst ← regOperand Inst 0
    let RegSrcA ← regOperand Inst 1
    let RegSrcB ← regOperand Inst 2
    let ValA := toInt16 (State.getReg RegSrcA)
    let ValB := State.getReg RegSrcB &&& 0xf
    execOk sim (State.setReg RegDst (toUInt16 (ValA >>> ValB))) newpc_w
  -- ASRI
  | .ASRI_i6 | .ASRI_i3_short => do
    let RegDst ← regOperand Inst 0
    let RegSrcA ← regOperand Inst 1
    let ValA := toInt16 (State.getReg RegSrcA)
    let ValB := ((← immOperand Inst 2) % 16).toNat
    execOk sim (State.setReg RegDst (toUInt16 (ValA >>> ValB))) newpc_w
  -- LSL
  | .LSL_r | .LSL_r_short => do
    let RegDst ← regOperand Inst 0
    let RegSrcA ← regOperand Inst 1
    let RegSrcB ← regOperand Inst 2
    let ValA := State.getReg RegSrcA
    let ValB := State.getReg RegSrcB &&& 0xf
    execOk sim (State.setReg RegDst ((ValA <<< ValB) % 65536)) newpc_w
  -- LSLI
  | .LSLI_i6 | .LSLI_i3_short => do
    let RegDst ← regOperand Inst 0
    let RegSrcA ← regOperand Inst 1
    let ValA := State.getReg RegSrcA
    let ValB := ((← immOperand Inst 2) % 16).toNat
    execOk sim (State.setReg RegDst ((ValA <<< ValB) % 65536)) newpc_w
  -- LSR
  | .LSR_r | .LSR_r_short => do
    let RegDst ← regOperand Inst 0
    let RegSrcA ← regOperand Inst 1
    let RegSrcB ← regOperand Inst 2
    let ValA := State.getReg RegSrcA
    let ValB := State.getReg RegSrcB &&& 0xf
    execOk sim (State.setReg RegDst (ValA >>> ValB)) newpc_w
  -- LSRI
  | .LSRI_i6 | .LSRI_i3_short => do
    let RegDst ← regOperand Inst 0
    let RegSrcA ← regOperand Inst 1
    let ValA := State.getReg RegSrcA
    let ValB := ((← immOperand Inst 2) % 16).toNat
    execOk sim (State.setReg RegDst (ValA >>> ValB)) newpc_w
  -- Load
  | .LDB | .LDB_short | .LDW | .LDW_short
  | .LDB_postinc | .LDB_postinc_short | .LDW_postinc | .LDW_postinc_short
  | .LDB_predec | .LDB_predec_short | .LDW_predec | .LDW_predec_short =>
    execLoad sim Inst newpc_w
  -- Store
  | .STB | .STB_short | .STW | .STW_short
  | .STB_postinc | .STB_postinc_short | .STW_postinc | .STW_postinc_short
  | .STB_predec | .STB_predec_short | .STW_predec | .STW_predec_short =>
    execStore sim Inst newpc_w
  -- Branch and Link, Jump and Link
  | .BAL | .BAL_short | .JAL | .JAL_short => execLink sim Inst pc_w newpc_w
  -- Conditional branches
  | .BEQ_ | .BEQ_short | .BNE_ | .BNE_short
  | .BLTS_ | .BLTS_short | .BGTS_ | .BGTS_short
  | .BLTU_ | .BLTU_short | .BGTU_ | .BGTU_short => execBranchCC sim Inst pc_w newpc_w
  -- Branch
  | .BRA | .BRA_short => do
    let Offset := toInt32 (← immOperand Inst 0)
    execOk sim State (toUInt32 ((pc_w : Int) + Offset))
  -- Jump
  | .JMP | .JMP_short => do
    let Reg ← regOperand Inst 0
    execOk sim State (State.getReg Reg)

/-! ## Decoder -/

/-- Result of a decode (`MCDisassembler::DecodeStatus`); in a condition
`Fail` is false and the other two are true. -/
inductive DecodeStatus where
  | Fail
  | SoftFail
  | Success
  deriving DecidableEq, Repr

/-- The two generated decoder tables, by name. -/
inductive DecoderTable where
  | DecoderTable16
  | DecoderTable32
  deriving DecidableEq, Repr

/-- Modelled from the spec: the generated table-driven matcher
`decodeInstruction(Table, MI, Insn, Address, ...)` together with its
tables (AAPGenDisassemblerTables.inc is not among the sources).  It is
taken as a parameter: given a table, the instruction being built, the
instruction word and the address, it returns a status and the
instruction as it leaves it. -/
abbrev DecodeInstructionFn := DecoderTable → MCInst → Nat → Nat → DecodeStatus × MCInst

/-- What `getInstruction` hands back: the status, the instruction `MI`
and the value left in the reference parameter `Size`. -/
structure DecodeResult where
  status : DecodeStatus
  MI : MCInst
  Size : Nat

/-- Byte `i` of a byte buffer (`ArrayRef<uint8_t>`). -/
def byteAt (Bytes : List Nat) (i : Nat) : Nat := Bytes.getD i 0 % 256

/-- The decoder entry point `AAPDisassembler::getInstruction`. -/
def getInstruction (decodeInstruction : DecodeInstructionFn) (MI : MCInst)
    (Bytes : List Nat) (Address : Nat) : DecodeResult :=
  -- First try a 16-bit instruction
  if Bytes.length < 2 then ⟨.Fail, MI, 0⟩
  else
    let Insn := ((byteAt Bytes 1 <<< 8) ||| (byteAt Bytes 0 <<< 0)) % 4294967296
    -- Next try generic 16-bit instructions
    let r16 := decodeInstruction .DecoderTable16 MI Insn Address
    if r16.1 ≠ .Fail then ⟨r16.1, r16.2, 2⟩
    -- Finally try a 32-bit instruction
    else if Bytes.length < 4 then ⟨.Fail, r16.2, 0⟩
    else
      let Insn := ((byteAt Bytes 3 <<< 24) ||| (byteAt Bytes 2 <<< 16) |||
                   (byteAt Bytes 1 <<< 8) ||| (byteAt Bytes 0 <<< 0)) % 4294967296
      -- Call auto-generated decoder function
      let r32 := decodeInstruction .DecoderTable32 r16.2 Insn Address
      if r32.1 ≠ .Fail then ⟨r32.1, r32.2, 4⟩
      -- In case of invalid decode, assume it was a short instruction
      else ⟨.Fail, r32.2, 2⟩

/-- The narrow register class table. -/
def AAPRegs8 : List AAP.Reg := [.R0, .R1, .R2, .R3, .R4, .R5, .R6, .R7]

/-- The full register class table. -/
def AAPRegs64 : List AAP.Reg :=
  [.R0, .R1, .R2, .R3, .R4, .R5, .R6,
   .R7, .R8, .R9, .R10, .R11, .R12, .R13,
   .R14, .R15, .R16, .R17, .R18, .R19, .R20,
   .R21, .R22, .R23, .R24, .R25, .R26, .R27,
   .R28, .R29, .R30, .R31, .R32, .R33, .R34,
   .R35, .R36, .R37, .R38, .R39, .R40, .R41,
   .R42, .R43, .R44, .R45, .R46, .R47, .R48,
   .R49, .R50, .R51, .R52, .R53, .R54, .R55,
   .R56, .R57, .R58, .R59, .R60, .R61, .R62,
   .R63]

/-- The template `decodeRegisterClass<N>(Inst, RegNo, Regs)`; `N` is the
length of the table. -/
def decodeRegisterClass (Inst : MCInst) (RegNo : Nat) (Regs : List AAP.Reg) :
    DecodeStatus × MCInst :=
  if h : RegNo ≥ Regs.length then (.Fail, Inst)
  else (.Success, Inst.addOperand (.createReg (Regs.get ⟨RegNo, Nat.lt_of_not_le h⟩)))

/-- Decodes a register field of the narrow class. -/
def DecodeGR8RegisterClass (Inst : MCInst) (RegNo : Nat) : DecodeStatus × MCInst :=
  decodeRegisterClass Inst RegNo AAPRegs8

/-- Decodes a register field of the full class. -/
def DecodeGR64RegisterClass (Inst : MCInst) (RegNo : Nat) : DecodeStatus × MCInst :=
  decodeRegisterClass Inst RegNo AAPRegs64

/-- Modelled from the spec: `SignExtend32<B>(X)` of llvm/Support/MathExtras.h
(not among the sources), two's-complement sign extension of the low `B`
bits of the 32-bit value `X`: `int32_t(X << (32 - B)) >> (32 - B)`. -/
def SignExtend32 (B : Nat) (X : Nat) : Int :=
  toInt32 (((X % 4294967296) <<< (32 - B)) % 4294967296) >>> (32 - B)

/-- Decodes a memory-source field with a 3-bit offset. -/
def decodeMemSrc3Operand (Inst : MCInst) (Operand : Nat) : DecodeStatus × MCInst :=
  let Reg := (Operand >>> 16) &&& 0x7
  let Offset := SignExtend32 3 (Operand &&& 0xffff)
  let r := decodeRegisterClass Inst Reg AAPRegs8
  if r.1 = .Fail then (.Fail, r.2)
  else (.Success, r.2.addOperand (.createImm Offset))

/-- Decodes a memory-source field with a 10-bit offset. -/
def decodeMemSrc10Operand (Inst : MCInst) (Operand : Nat) : DecodeStatus × MCInst :=
  let Reg := (Operand >>> 16) &&& 0x3f
  let Offset := SignExtend32 10 (Operand &&& 0xffff)
  let r := decodeRegisterClass Inst Reg AAPRegs64
  if r.1 = .Fail then (.Fail, r.2)
  else (.Success, r.2.addOperand (.createImm Offset))

/-- Decodes a 3-bit signed immediate field. -/
def decodeOff3Operand (Inst : MCInst) (Operand : Nat) : DecodeStatus × MCInst :=
  (.Success, Inst.addOperand (.createImm (SignExtend32 3 Operand)))

/-- Decodes a 10-bit signed immediate field. -/
def decodeOff10Operand (Inst : MCInst) (Operand : Nat) : DecodeStatus × MCInst :=
  (.Success, Inst.addOperand (.createImm (SignExtend32 10 Operand)))

/-- Decodes a shift-amount field (`unsigned` arithmetic). -/
def decodeShiftOperand (Inst : MCInst) (Operand : Nat) : DecodeStatus × MCInst :=
  (.Success, Inst.addOperand (.createImm (((Operand + 1) % 4294967296 : Nat) : Int)))

/-! ## Step driver -/

/-- The step driver `AAPSimulator::step`: fetch at byte address
`pc_w << 1`, decode, execute, commit the program counter.  `none` models
a failed assertion (a slice past the end of the code array, or one inside
`exec`). -/
def step (decodeInstruction : DecodeInstructionFn) (sim : AAPSimulator) :
    Option (SimStatus × AAPSimulator) :=
  let Inst := MCInst.fresh
  let pc_w := sim.State.getPC
  let Bytes := sim.State.getCodeArray
  let Address := (pc_w <<< 1) % 4294967296
  if Address > Bytes.length then none
  else
    let d := getInstruction decodeInstruction Inst (Bytes.drop Address) Address
    if d.status ≠ .Fail then
      -- Instruction decoded, execute it and write back our PC
      let newpc_w := (pc_w + (d.Size >>> 1)) % 4294967296
      match exec sim d.MI pc_w newpc_w with
      | none => none
      | some r => some (r.status, { r.sim with State := r.sim.State.setPC r.newpc_w })
    else some (.SIM_INVALID_INSN, sim)

/-! ## Specification-side notions -/

/-- Two's-complement reading of a 16-bit value (the spec's `sext16`). -/
def sext16 (a : Nat) : Int := if a < 32768 then (a : Int) else (a : Int) - 65536

/-- An integer lies in the signed 16-bit range [-32768, 32767]. -/
def fitsInt16 (x : Int) : Prop := -32768 ≤ x ∧ x ≤ 32767

instance (x : Int) : Decidable (fitsInt16 x) := by unfold fitsInt16; infer_instance

/-- Effective address of a memory access: pointer value plus signed
offset, as a 16-bit address. -/
def effAddr (p : Int) (k : Int) : Nat := ((p + k) % 65536).toNat

/-- The relation named by a conditional branch, on the unsigned 16-bit
register values `a` and `b` (signed relations read them through `sext16`). -/
def ccHolds : AAP.Opcode → Nat → Nat → Bool
  | .BEQ_, a, b | .BEQ_short, a, b => decide (a = b)
  | .BNE_, a, b | .BNE_short, a, b => decide (a ≠ b)
  | .BLTS_, a, b | .BLTS_short, a, b => decide (sext16 a < sext16 b)
  | .BGTS_, a, b | .BGTS_short, a, b => decide (sext16 a > sext16 b)
  | .BLTU_, a, b | .BLTU_short, a, b => decide (a < b)
  | .BGTU_, a, b | .BGTU_short, a, b => decide (a > b)
  | _, _, _ => false

/-- The add/sub family: ADD, ADDC, ADDI, SUB, SUBC, SUBI and their short
forms. -/
def addSubFamily : AAP.Opcode → Bool
  | .ADD_r | .ADD_r_short | .ADDC_r | .ADDI_i10 | .ADDI_i3_short
  | .SUB_r | .SUB_r_short | .SUBC_r | .SUBI_i10 | .SUBI_i3_short => true
  | _ => false

/-- The conditional branches, long and short forms. -/
def condBranchOpcode : AAP.Opcode → Bool
  | .BEQ_ | .BEQ_short | .BNE_ | .BNE_short
  | .BLTS_ | .BLTS_short | .BGTS_ | .BGTS_short
  | .BLTU_ | .BLTU_short | .BGTU_ | .BGTU_short => true
  | _ => false

/-- The long-form conditional branches. -/
def longBranchOpcode : AAP.Opcode → Bool
  | .BEQ_ | .BNE_ | .BLTS_ | .BGTS_ | .BLTU_ | .BGTU_ => true
  | _ => false

/-- The loads. -/
def loadOpcode : AAP.Opcode → Bool
  | .LDB | .LDB_short | .LDW | .LDW_short
  | .LDB_postinc | .LDB_postinc_short | .LDW_postinc | .LDW_postinc_short
  | .LDB_predec | .LDB_predec_short | .LDW_predec | .LDW_predec_short => true
  | _ => false

/-- The word loads (the other loads are byte loads). -/
def wordLoadOpcode : AAP.Opcode → Bool
  | .LDW | .LDW_short | .LDW_postinc | .LDW_postinc_short
  | .LDW_predec | .LDW_predec_short => true
  | _ => false

/-- The pre-decrement loads. -/
def predecLoadOpcode : AAP.Opcode → Bool
  | .LDB_predec | .LDB_predec_short | .LDW_predec | .LDW_predec_short => true
  | _ => false

/-- The pointer value a load uses: the register value `p`, less the access
size (2 for a word, 1 for a byte) modulo 65536 when the load is a
pre-decrement form. -/
def loadPointer (op : AAP.Opcode) (p : Nat) : Nat :=
  if predecLoadOpcode op then
    (((p : Int) - (if wordLoadOpcode op then 2 else 1)) % 65536).toNat
  else p

/-- The opcodes that are neither a control transfer nor unhandled nor a
conditional branch: moves, arithmetic, logical, shifts, loads, stores, NOP. -/
def straightLineOpcode : AAP.Opcode → Bool
  | .other => false
  | .BAL | .BAL_short | .JAL | .JAL_short => false
  | .BRA | .BRA_short | .JMP | .JMP_short => false
  | .BEQ_ | .BEQ_short | .BNE_ | .BNE_short
  | .BLTS_ | .BLTS_short | .BGTS_ | .BGTS_short
  | .BLTU_ | .BLTU_short | .BGTU_ | .BGTU_short => false
  | _ => true

/-- The instruction does not transfer control in state `sim`: it is a
straight-line instruction, or a conditional branch whose relation is false
on the registers its operands 1 and 2 name. -/
def fallsThrough (sim : AAPSimulator) (Inst : MCInst) : Prop :=
  straightLineOpcode Inst.Opcode = true ∨
  (condBranchOpcode Inst.Opcode = true ∧
    ∀ ia ib, regOperand Inst 1 = some ia → regOperand Inst 2 = some ib →
      ccHolds Inst.Opcode (sim.State.getReg ia) (sim.State.getReg ib) = false)

/-- The NOP opcodes. -/
def nopOpcode : AAP.Opcode → Bool
  | .NOP | .NOP_short => true
  | _ => false

/-- The instruction is the quit NOP: NOP or NOP_short whose command code
(operand 1, as a `uint16_t`) is 2. -/
def isQuitNop (Inst : MCInst) : Prop :=
  nopOpcode Inst.Opcode = true ∧ ∃ c, immOperand Inst 1 = some c ∧ toUInt16 c = 2

/-- The stores. -/
def storeOpcode : AAP.Opcode → Bool
  | .STB | .STB_short | .STW | .STW_short
  | .STB_postinc | .STB_postinc_short | .STW_postinc | .STW_postinc_short
  | .STB_predec | .STB_predec_short | .STW_predec | .STW_predec_short => true
  | _ => false

/-- Two's-complement reading of a 3-bit value (the spec's `sext3`). -/
def sext3 (v : Nat) : Int := if v < 4 then (v : Int) else (v : Int) - 8

/-- Two's-complement reading of a 10-bit value (the spec's `sext10`). -/
def sext10 (v : Nat) : Int := if v < 512 then (v : Int) else (v : Int) - 1024

/-- The post-increment loads. -/
def postincLoadOpcode : AAP.Opcode → Bool
  | .LDB_postinc | .LDB_postinc_short | .LDW_postinc | .LDW_postinc_short => true
  | _ => false

/-- The move, arithmetic, logical and shift instructions. -/
def computeOpcode : AAP.Opcode → Bool
  | .MOV_r | .MOV_r_short | .MOVI_i16 | .MOVI_i6_short
  | .ADD_r | .ADD_r_short | .ADDC_r | .ADDI_i10 | .ADDI_i3_short
  | .SUB_r | .SUB_r_short | .SUBC_r | .SUBI_i10 | .SUBI_i3_short
  | .AND_r | .AND_r_short | .ANDI_i9
  | .OR_r | .OR_r_short | .ORI_i9
  | .XOR_r | .XOR_r_short | .XORI_i9
  | .ASR_r | .ASR_r_short | .ASRI_i6 | .ASRI_i3_short
  | .LSL_r | .LSL_r_short | .LSLI_i6 | .LSLI_i3_short
  | .LSR_r | .LSR_r_short | .LSRI_i6 | .LSRI_i3_short => true
  | _ => false

/-- Bit 15 (the sign bit) of a 16-bit value. -/
def bit15 (n : Nat) : Bool := n.testBit 15

/-- The classical sign rule for overflow of an addition, in the spec's
words: `a` and `b` have the same bit 15 and bit 15 of (a + b) mod 65536
differs from it. -/
def signRuleAdd (a b : Nat) : Bool :=
  (bit15 a == bit15 b) && (bit15 ((a + b) % 65536) != bit15 a)

/-- The classical sign rule for overflow of a subtraction, in the spec's
words: `a` and `b` have different bit 15 and bit 15 of (a - b) mod 65536
differs from bit 15 of `a`. -/
def signRuleSub (a b : Nat) : Bool :=
  (bit15 a != bit15 b) && (bit15 ((((a : Int) - b) % 65536).toNat) != bit15 a)

/-! ## Concrete data on which the statements are instantiated -/

/-- A concrete state: R1 = 0xFFFF, R2 = 1, R3 = 0x7FFF, R4 = 0x0100,
R5 = 0x1234, R7 = 0x0200, every other register 0; overflow flag 1; data
memory holds 0x34, 0x12 at 0x0200, 0x0201 and 0 elsewhere. -/
def demoState : AAPSimState :=
  { base_regs := fun i =>
      if i = 1 then 0xFFFF else if i = 2 then 1 else if i = 3 then 0x7FFF
      else if i = 4 then 0x0100 else if i = 5 then 0x1234
      else if i = 7 then 0x0200 else 0
    pc_w := 0
    exitcode := 0
    overflow := 1
    code_memory := []
    data_memory := fun a => if a = 0x0200 then 0x34 else if a = 0x0201 then 0x12 else 0 }

/-- A simulator in the state `demoState` that has written nothing yet. -/
def demoSim : AAPSimulator := { State := demoState, outs := [], errs := [] }

/-- A small decoder standing in for the generated tables: the 16-bit
table knows the single word 0x0000 and the 32-bit table the single word
0x80008000. -/
def exampleDecode : DecodeInstructionFn := fun T MI Insn _ =>
  match T with
  | .DecoderTable16 =>
    if Insn = 0x0000 then (.Success, ⟨.NOP_short, [.createReg .R0, .createImm 0]⟩)
    else (.Fail, MI)
  | .DecoderTable32 =>
    if Insn = 0x80008000 then (.Success, ⟨.NOP, [.createReg .R0, .createImm 0]⟩)
    else (.Fail, MI)

/-- A second small decoder standing in for the generated tables: the
16-bit table knows 0x0000 (NOP_short R0, 0), 0x0001 (an opcode the executor
has no case for) and 0x0002 (MOV_r_short R0, R5); the 32-bit table knows
0x80008000 (ADD_r R0, R3, R2). -/
def demoDecode : DecodeInstructionFn := fun T MI Insn _ =>
  match T with
  | .DecoderTable16 =>
    if Insn = 0x0000 then (.Success, ⟨.NOP_short, [.createReg .R0, .createImm 0]⟩)
    else if Insn = 0x0001 then (.Success, ⟨.other, []⟩)
    else if Insn = 0x0002 then (.Success, ⟨.MOV_r_short, [.createReg .R0, .createReg .R5]⟩)
    else (.Fail, MI)
  | .DecoderTable32 =>
    if Insn = 0x80008000 then
      (.Success, ⟨.ADD_r, [.createReg .R0, .createReg .R3, .createReg .R2]⟩)
    else (.Fail, MI)

/-- The simulator `demoSim` with twelve bytes of code loaded (the words
0x0001, 0x0002, 0x8000 0x8000, 0xFFFF 0xFFFF at word addresses 0, 1, 2, 4)
and the program counter at `pc`. -/
def demoCodeSim (pc : Nat) : AAPSimulator :=
  { State := { demoState with
      pc_w := pc
      code_memory := [0x01, 0x00, 0x02, 0x00, 0x00, 0x80, 0x00, 0x80, 0xFF, 0xFF, 0xFF, 0xFF] }
    outs := []
    errs := [] }

/-- A decoder with terminal NOPs: the 16-bit table knows 0x0000
(NOP_short R0, 0: breakpoint) and 0x0002 (MOV_r_short R0, R5); the 32-bit
table knows 0x00028000 (NOP R5, 2: quit with the value of R5). -/
def haltDecode : DecodeInstructionFn := fun T MI Insn _ =>
  match T with
  | .DecoderTable16 =>
    if Insn = 0x0000 then (.Success, ⟨.NOP_short, [.createReg .R0, .createImm 0]⟩)
    else if Insn = 0x0002 then (.Success, ⟨.MOV_r_short, [.createReg .R0, .createReg .R5]⟩)
    else (.Fail, MI)
  | .DecoderTable32 =>
    if Insn = 0x00028000 then (.Success, ⟨.NOP, [.createReg .R5, .createImm 2]⟩)
    else (.Fail, MI)

/-- The simulator `demoSim` with eight bytes of code loaded (the words
0x0000, 0x0002, 0x8000 0x0002 at word addresses 0, 1, 2) and the program
counter at `pc`. -/
def haltCodeSim (pc : Nat) : AAPSimulator :=
  { State := { demoState with
      pc_w := pc
      code_memory := [0x00, 0x00, 0x02, 0x00, 0x00, 0x80, 0x02, 0x00] }
    outs := []
    errs := [] }

/-! ## Accessor lemmas -/

namespace AAPSimState

theorem getReg_lt (s : AAPSimState) (r : Nat) : s.getReg r < 65536 :=
  Nat.mod_lt _ (by decide)

theorem getOverflow_lt (s : AAPSimState) : s.getOverflow < 2 :=
  Nat.mod_lt _ (by decide)

theorem getDataMem_lt (s : AAPSimState) (a : Nat) : s.getDataMem a < 256 :=
  Nat.mod_lt _ (by decide)

@[simp] theorem getReg_setReg_same (s : AAPSimState) (r v : Nat) :
    (s.setReg r v).getReg r = v % 65536 := by
  simp [getReg, setReg]

theorem getReg_setReg_of_ne (s : AAPSimState) {r r' : Nat} (v : Nat) (h : r' ≠ r) :
    (s.setReg r v).getReg r' = s.getReg r' := by
  simp [getReg, setReg, Function.update_noteq h]

theorem getReg_setReg (s : AAPSimState) (r r' v : Nat) :
    (s.setReg r v).getReg r' = if r' = r then v % 65536 else s.getReg r' := by
  by_cases h : r' = r
  · subst h; simp
  · simp [h, getReg_setReg_of_ne]

@[simp] theorem getReg_setOverflow (s : AAPSimState) (o r : Nat) :
    (s.setOverflow o).getReg r = s.getReg r := rfl

@[simp] theorem getReg_setExitCode (s : AAPSimState) (v r : Nat) :
    (s.setExitCode v).getReg r = s.getReg r := rfl

@[simp] theorem getReg_setDataMem (s : AAPSimState) (a v r : Nat) :
    (s.setDataMem a v).getReg r = s.getReg r := rfl

@[simp] theorem getOverflow_setOverflow (s : AAPSimState) (o : Nat) :
    (s.setOverflow o).getOverflow = o % 2 := by
  simp [getOverflow, setOverflow]

@[simp] theorem getOverflow_setReg (s : AAPSimState) (r v : Nat) :
    (s.setReg r v).getOverflow = s.getOverflow := rfl

@[simp] theorem getOverflow_setExitCode (s : AAPSimState) (v : Nat) :
    (s.setExitCode v).getOverflow = s.getOverflow := rfl

@[simp] theorem getOverflow_setDataMem (s : AAPSimState) (a v : Nat) :
    (s.setDataMem a v).getOverflow = s.getOverflow := rfl

@[simp] theorem getExitCode_setExitCode (s : AAPSimState) (v : Nat) :
    (s.setExitCode v).getExitCode = v % 65536 := by
  simp [getExitCode, setExitCode]

@[simp] theorem getDataMem_setReg (s : AAPSimState) (r v a : Nat) :
    (s.setReg r v).getDataMem a = s.getDataMem a := rfl

@[simp] theorem getDataMem_setExitCode (s : AAPSimState) (v a : Nat) :
    (s.setExitCode v).getDataMem a = s.getDataMem a := rfl

@[simp] theorem getDataMem_setOverflow (s : AAPSimState) (o a : Nat) :
    (s.setOverflow o).getDataMem a = s.getDataMem a := rfl

@[simp] theorem getDataMem_setDataMem_same (s : AAPSimState) (a v : Nat) :
    (s.setDataMem a v).getDataMem a = v % 256 := by
  simp [getDataMem, setDataMem]

theorem getDataMem_setDataMem_of_ne (s : AAPSimState) {a a' : Nat} (v : Nat)
    (h : a' % 65536 ≠ a % 65536) :
    (s.setDataMem a v).getDataMem a' = s.getDataMem a' := by
  simp [getDataMem, setDataMem, Function.update_noteq h]

theorem getDataMem_setDataMem (s : AAPSimState) (a a' v : Nat) :
    (s.setDataMem a v).getDataMem a' =
      if a' % 65536 = a % 65536 then v % 256 else s.getDataMem a' := by
  by_cases h : a' % 65536 = a % 65536
  · simp [getDataMem, setDataMem, h]
  · simp [h, getDataMem_setDataMem_of_ne]

theorem getDataMem_mod (s : AAPSimState) (a : Nat) :
    s.getDataMem (a % 65536) = s.getDataMem a := by
  simp [getDataMem]

end AAPSimState

/-! ## Bit-level lemmas -/

theorem and_two_pow_eq (n i : Nat) : n &&& 2 ^ i = if n.testBit i then 2 ^ i else 0 := by
  apply Nat.eq_of_testBit_eq
  intro j
  by_cases h : n.testBit i
  · simp only [Nat.testBit_and, h, if_true, Nat.testBit_two_pow]
    by_cases hj : i = j
    · subst hj; simp [h]
    · simp [hj]
  · simp only [Nat.testBit_and, h, Nat.testBit_two_pow]
    by_cases hj : i = j
    · subst hj; simp [h]
    · simp [hj]

theorem signExtend16_eq (val : Nat) :
    signExtend16 val =
      if val % 65536 < 32768 then val % 65536 else val % 65536 + 0xffff0000 := by
  have hlt : val % 65536 < 65536 := Nat.mod_lt _ (by decide)
  have hand : val % 65536 &&& 0x8000 = if (val % 65536).testBit 15 then 2 ^ 15 else 0 :=
    and_two_pow_eq (val % 65536) 15
  have htb : (val % 65536).testBit 15 = decide (32768 ≤ val % 65536) := by
    rw [Nat.testBit_to_div_mod]
    congr 1
    apply propext
    constructor <;> intro h <;> omega
  have hor : val % 65536 ||| 0xffff0000 = val % 65536 + 0xffff0000 := by
    have := Nat.mul_add_lt_is_or (i := 16) (b := val % 65536) (by simpa using hlt) 0xffff
    rw [Nat.or_comm]
    simpa [Nat.add_comm] using this.symm
  unfold signExtend16
  simp only [hand, htb, hor]
  by_cases h : 32768 ≤ val % 65536
  · simp [h, Nat.not_lt.mpr h]
  · simp [h, Nat.lt_of_not_le h]

/-- The 32-bit value `signExtend16 a`, read as `int32_t`, is `sext16 a`. -/
theorem signExtend16_cast (a : Nat) (ha : a < 65536) :
    ((signExtend16 a : Nat) : Int) = if a < 32768 then (a : Int) else (a : Int) + 4294901760 := by
  rw [signExtend16_eq, Nat.mod_eq_of_lt ha]
  split <;> simp

/-- Core of the add/sub family: with `x` the exact signed result, the
32-bit wrapped value has `x mod 65536` as low half and the overflow test
is the range test on `x`. -/
theorem overflow_core (x : Int) (hlo : -2147483648 ≤ x) (hhi : x ≤ 2147483647) :
    toUInt32 x % 65536 = (x % 65536).toNat ∧
    overflowOf (toUInt32 x) = if fitsInt16 x then 0 else 1 := by
  unfold toUInt32 overflowOf toInt32 toInt16 fitsInt16
  constructor
  · omega
  · simp only []
    split_ifs <;> omega

/-! ## Arithmetic lemmas -/

theorem toUInt32_signExtend16_add (a b : Nat) (c : Int) (ha : a < 65536) (hb : b < 65536) :
    toUInt32 ((signExtend16 a : Int) + signExtend16 b + c) =
      toUInt32 (sext16 a + sext16 b + c) := by
  rw [signExtend16_cast a ha, signExtend16_cast b hb]
  unfold toUInt32 sext16
  split_ifs <;> omega

theorem toUInt32_signExtend16_sub (a b : Nat) (c : Int) (ha : a < 65536) (hb : b < 65536) :
    toUInt32 ((signExtend16 a : Int) - signExtend16 b - c) =
      toUInt32 (sext16 a - sext16 b - c) := by
  rw [signExtend16_cast a ha, signExtend16_cast b hb]
  unfold toUInt32 sext16
  split_ifs <;> omega

theorem sext16_bounds (a : Nat) (ha : a < 65536) : -32768 ≤ sext16 a ∧ sext16 a ≤ 32767 := by
  unfold sext16; split_ifs <;> omega

theorem sext16_emod (a : Nat) : sext16 a % 65536 = (a : Int) % 65536 := by
  unfold sext16; split_ifs <;> omega

theorem toInt16_natCast (a : Nat) (ha : a < 65536) : toInt16 (a : Int) = sext16 a := by
  unfold toInt16 sext16
  simp only []
  split_ifs <;> omega

/-- Effect of the common tail of the add/sub cases, for an exact signed
result `x` within the `int32_t` range. -/
theorem addsub_effect (s : AAPSimState) (d : Nat) (x : Int)
    (hlo : -2147483648 ≤ x) (hhi : x ≤ 2147483647) :
    (((s.setReg d (toUInt32 x % 65536)).setOverflow (overflowOf (toUInt32 x))).getReg d : Int)
        = x % 65536 ∧
    (((s.setReg d (toUInt32 x % 65536)).setOverflow (overflowOf (toUInt32 x))).getOverflow = 1
        ↔ ¬ fitsInt16 x) ∧
    (((s.setReg d (toUInt32 x % 65536)).setOverflow (overflowOf (toUInt32 x))).getOverflow = 0
        ↔ fitsInt16 x) := by
  obtain ⟨h1, h2⟩ := overflow_core x hlo hhi
  simp only [AAPSimState.getOverflow_setOverflow, AAPSimState.getReg_setOverflow,
    AAPSimState.getReg_setReg_same, h1, h2, Nat.mod_mod]
  refine ⟨?_, ?_, ?_⟩
  · omega
  · split_ifs with hf <;> simp [hf]
  · split_ifs with hf <;> simp [hf]

theorem toUInt16_add_toInt32 (p : Nat) (k : Int) :
    toUInt16 ((p : Int) + toInt32 k) = effAddr p k := by
  unfold toUInt16 toInt32 effAddr
  simp only []
  split_ifs <;> omega

theorem toUInt16_toUInt16_add_toInt32 (x : Int) (k : Int) :
    toUInt16 ((toUInt16 x : Int) + toInt32 k) = ((x + k) % 65536).toNat := by
  unfold toUInt16 toInt32
  simp only []
  split_ifs <;> omega

theorem or_shiftLeft_8 (lo hi : Nat) (hlo : lo < 256) :
    lo ||| (hi <<< 8) = lo + 256 * hi := by
  have := Nat.mul_add_lt_is_or (i := 8) (b := lo) (by simpa using hlo) hi
  rw [Nat.shiftLeft_eq, Nat.or_comm, Nat.mul_comm hi, ← this]
  omega

theorem and_255 (n : Nat) : n &&& 255 = n % 256 :=
  Nat.and_pow_two_sub_one_eq_mod n 8

theorem shiftRight_8 (n : Nat) : n >>> 8 = n / 256 := by
  rw [Nat.shiftRight_eq_div_pow]

theorem signExtendBranchCC_eq (v : Nat) (hv : v ≤ 1023) :
    signExtendBranchCC v = if v < 512 then (v : Int) else (v : Int) - 1024 := by
  have hmod : v % 65536 = v := Nat.mod_eq_of_lt (by omega)
  have hand : v &&& 0x0200 = if v.testBit 9 then 2 ^ 9 else 0 := and_two_pow_eq v 9
  have htb : v.testBit 9 = decide (512 ≤ v) := by
    rw [Nat.testBit_to_div_mod]
    congr 1
    apply propext
    constructor <;> intro h <;> omega
  have hor : 512 ≤ v → v ||| 0xfe00 = v + 0xfc00 := by
    intro h
    have e1 := Nat.mul_add_lt_is_or (i := 9) (b := v - 512) (by norm_num; omega) 1
    have e2 := Nat.mul_add_lt_is_or (i := 9) (b := v - 512) (by norm_num; omega) 127
    have hv' : v = 2 ^ 9 * 1 + (v - 512) := by norm_num; omega
    have h512 : 2 ^ 9 * 1 ||| 0xfe00 = 2 ^ 9 * 127 := by decide
    calc v ||| 0xfe00 = (2 ^ 9 * 1 ||| (v - 512)) ||| 0xfe00 := by rw [← e1, ← hv']
      _ = (2 ^ 9 * 1 ||| 0xfe00) ||| (v - 512) := by
          rw [Nat.or_assoc, Nat.or_comm (v - 512), ← Nat.or_assoc]
      _ = 2 ^ 9 * 127 + (v - 512) := by rw [h512, ← e2]
      _ = v + 0xfc00 := by norm_num; omega
  unfold signExtendBranchCC
  simp only [hmod, hand, htb]
  by_cases h : 512 ≤ v
  · have h' : ¬ v < 512 := by omega
    simp only [h, h', decide_True, if_true, if_false, hor h]
    unfold toInt16
    simp
    omega
  · have h' : v < 512 := by omega
    simp only [h, h', decide_False, if_true, if_false]
    unfold toInt16
    simp
    omega

theorem byteAt_lt (Bytes : List Nat) (i : Nat) : byteAt Bytes i < 256 :=
  Nat.mod_lt _ (by decide)

/-- The 16-bit instruction word is the little-endian value of the first
two bytes. -/
theorem insn16_eq (b0 b1 : Nat) (h0 : b0 < 256) (h1 : b1 < 256) :
    ((b1 <<< 8) ||| (b0 <<< 0)) % 4294967296 = b0 + 256 * b1 := by
  have e := Nat.mul_add_lt_is_or (i := 8) (b := b0) (by simpa using h0) b1
  rw [Nat.shiftLeft_eq, Nat.shiftLeft_eq, Nat.pow_zero, Nat.mul_one, Nat.mul_comm b1, ← e]
  omega

/-- The 32-bit instruction word is the little-endian value of the first
four bytes. -/
theorem insn32_eq (b0 b1 b2 b3 : Nat) (h0 : b0 < 256) (h1 : b1 < 256) (h2 : b2 < 256)
    (h3 : b3 < 256) :
    ((b3 <<< 24) ||| (b2 <<< 16) ||| (b1 <<< 8) ||| (b0 <<< 0)) % 4294967296 =
      b0 + 256 * b1 + 65536 * b2 + 16777216 * b3 := by
  have e1 := Nat.mul_add_lt_is_or (i := 24) (b := 2 ^ 16 * b2)
    (by have : (2:Nat) ^ 16 = 65536 := by norm_num
        have : (2:Nat) ^ 24 = 16777216 := by norm_num
        omega) b3
  have e2 := Nat.mul_add_lt_is_or (i := 16) (b := 2 ^ 8 * b1)
    (by have : (2:Nat) ^ 16 = 65536 := by norm_num
        have : (2:Nat) ^ 8 = 256 := by norm_num
        omega) (2 ^ 8 * b3 + b2)
  have e3 := Nat.mul_add_lt_is_or (i := 8) (b := b0) (by simpa using h0)
    (2 ^ 8 * (2 ^ 8 * b3 + b2) + b1)
  have a1 : b3 <<< 24 ||| b2 <<< 16 = 2 ^ 16 * (2 ^ 8 * b3 + b2) := by
    rw [Nat.shiftLeft_eq, Nat.shiftLeft_eq, Nat.mul_comm b3, Nat.mul_comm b2, ← e1]
    ring
  have a2 : 2 ^ 16 * (2 ^ 8 * b3 + b2) ||| b1 <<< 8 =
      2 ^ 8 * (2 ^ 8 * (2 ^ 8 * b3 + b2) + b1) := by
    rw [Nat.shiftLeft_eq, Nat.mul_comm b1, ← e2]
    ring
  rw [a1, a2, Nat.shiftLeft_eq, Nat.pow_zero, Nat.mul_one, ← e3]
  have : (2:Nat) ^ 8 = 256 := by norm_num
  rw [this]
  omega

/-! ## Operand access on the instruction shapes used below -/

theorem regOperand_three (op : AAP.Opcode) (r0 r1 r2 : AAP.Reg) :
    regOperand ⟨op, [.createReg r0, .createReg r1, .createReg r2]⟩ 0 = getLLVMReg r0 ∧
    regOperand ⟨op, [.createReg r0, .createReg r1, .createReg r2]⟩ 1 = getLLVMReg r1 ∧
    regOperand ⟨op, [.createReg r0, .createReg r1, .createReg r2]⟩ 2 = getLLVMReg r2 := by
  simp [regOperand, MCInst.getOperand, MCOperand.getReg]

theorem regOperand_load (op : AAP.Opcode) (r0 r1 : AAP.Reg) (k : Int) :
    regOperand ⟨op, [.createReg r0, .createReg r1, .createImm k]⟩ 0 = getLLVMReg r0 ∧
    regOperand ⟨op, [.createReg r0, .createReg r1, .createImm k]⟩ 1 = getLLVMReg r1 ∧
    immOperand ⟨op, [.createReg r0, .createReg r1, .createImm k]⟩ 2 = some k := by
  simp [regOperand, immOperand, MCInst.getOperand, MCOperand.getReg, MCOperand.getImm]

theorem regOperand_store (op : AAP.Opcode) (r0 r2 : AAP.Reg) (k : Int) :
    regOperand ⟨op, [.createReg r0, .createImm k, .createReg r2]⟩ 0 = getLLVMReg r0 ∧
    immOperand ⟨op, [.createReg r0, .createImm k, .createReg r2]⟩ 1 = some k := by
  simp [regOperand, immOperand, MCInst.getOperand, MCOperand.getReg, MCOperand.getImm]

theorem regOperand_nop (op : AAP.Opcode) (r0 : AAP.Reg) (c : Int) :
    regOperand ⟨op, [.createReg r0, .createImm c]⟩ 0 = getLLVMReg r0 ∧
    immOperand ⟨op, [.createReg r0, .createImm c]⟩ 1 = some c := by
  simp [regOperand, immOperand, MCInst.getOperand, MCOperand.getReg, MCOperand.getImm]

theorem operands_branchCC (op : AAP.Opcode) (v : Int) (r1 r2 : AAP.Reg) :
    immOperand ⟨op, [.createImm v, .createReg r1, .createReg r2]⟩ 0 = some v ∧
    regOperand ⟨op, [.createImm v, .createReg r1, .createReg r2]⟩ 1 = getLLVMReg r1 ∧
    regOperand ⟨op, [.createImm v, .createReg r1, .createReg r2]⟩ 2 = getLLVMReg r2 := by
  simp [regOperand, immOperand, MCInst.getOperand, MCOperand.getReg, MCOperand.getImm]

/-! ## The add/sub cases of `exec`, unfolded -/

theorem exec_ADD_eq (sim : AAPSimulator) (op : AAP.Opcode)
    (hop : op = .ADD_r ∨ op = .ADD_r_short)
    (dst ra rb : AAP.Reg) (d ia ib : Nat)
    (hd : getLLVMReg dst = some d) (ha : getLLVMReg ra = some ia) (hb : getLLVMReg rb = some ib)
    (pc_w newpc_w : Nat) :
    exec sim ⟨op, [.createReg dst, .createReg ra, .createReg rb]⟩ pc_w newpc_w =
      some ⟨.SIM_OK,
        ⟨((sim.State.setReg d
            (toUInt32 ((signExtend16 (sim.State.getReg ia) : Int) +
              signExtend16 (sim.State.getReg ib)) % 65536)).setOverflow
            (overflowOf (toUInt32 ((signExtend16 (sim.State.getReg ia) : Int) +
              signExtend16 (sim.State.getReg ib))))), sim.outs, sim.errs⟩, newpc_w⟩ := by
  obtain ⟨h0, h1, h2⟩ := regOperand_three op dst ra rb
  rcases hop with rfl | rfl <;>
    simp [exec, MCInst.getOpcode, h0, h1, h2, hd, ha, hb, execOk]

theorem exec_ADDC_eq (sim : AAPSimulator)
    (dst ra rb : AAP.Reg) (d ia ib : Nat)
    (hd : getLLVMReg dst = some d) (ha : getLLVMReg ra = some ia) (hb : getLLVMReg rb = some ib)
    (pc_w newpc_w : Nat) :
    exec sim ⟨.ADDC_r, [.createReg dst, .createReg ra, .createReg rb]⟩ pc_w newpc_w =
      some ⟨.SIM_OK,
        ⟨((sim.State.setReg d
            (toUInt32 ((signExtend16 (sim.State.getReg ia) : Int) +
              signExtend16 (sim.State.getReg ib) + sim.State.getOverflow) % 65536)).setOverflow
            (overflowOf (toUInt32 ((signExtend16 (sim.State.getReg ia) : Int) +
              signExtend16 (sim.State.getReg ib) + sim.State.getOverflow)))),
          sim.outs, sim.errs⟩, newpc_w⟩ := by
  obtain ⟨h0, h1, h2⟩ := regOperand_three .ADDC_r dst ra rb
  simp [exec, MCInst.getOpcode, h0, h1, h2, hd, ha, hb, execOk]

theorem exec_SUB_eq (sim : AAPSimulator) (op : AAP.Opcode)
    (hop : op = .SUB_r ∨ op = .SUB_r_short)
    (dst ra rb : AAP.Reg) (d ia ib : Nat)
    (hd : getLLVMReg dst = some d) (ha : getLLVMReg ra = some ia) (hb : getLLVMReg rb = some ib)
    (pc_w newpc_w : Nat) :
    exec sim ⟨op, [.createReg dst, .createReg ra, .createReg rb]⟩ pc_w newpc_w =
      some ⟨.SIM_OK,
        ⟨((sim.State.setReg d
            (toUInt32 ((signExtend16 (sim.State.getReg ia) : Int) -
              signExtend16 (sim.State.getReg ib)) % 65536)).setOverflow
            (overflowOf (toUInt32 ((signExtend16 (sim.State.getReg ia) : Int) -
              signExtend16 (sim.State.getReg ib))))), sim.outs, sim.errs⟩, newpc_w⟩ := by
  obtain ⟨h0, h1, h2⟩ := regOperand_three op dst ra rb
  rcases hop with rfl | rfl <;>
    simp [exec, MCInst.getOpcode, h0, h1, h2, hd, ha, hb, execOk]

theorem exec_SUBC_eq (sim : AAPSimulator)
    (dst ra rb : AAP.Reg) (d ia ib : Nat)
    (hd : getLLVMReg dst = some d) (ha : getLLVMReg ra = some ia) (hb : getLLVMReg rb = some ib)
    (pc_w newpc_w : Nat) :
    exec sim ⟨.SUBC_r, [.createReg dst, .createReg ra, .createReg rb]⟩ pc_w newpc_w =
      some ⟨.SIM_OK,
        ⟨((sim.State.setReg d
            (toUInt32 ((signExtend16 (sim.State.getReg ia) : Int) -
              signExtend16 (sim.State.getReg ib) - sim.State.getOverflow) % 65536)).setOverflow
            (overflowOf (toUInt32 ((signExtend16 (sim.State.getReg ia) : Int) -
              signExtend16 (sim.State.getReg ib) - sim.State.getOverflow)))),
          sim.outs, sim.errs⟩, newpc_w⟩ := by
  obtain ⟨h0, h1, h2⟩ := regOperand_three .SUBC_r dst ra rb
  simp [exec, MCInst.getOpcode, h0, h1, h2, hd, ha, hb, execOk]

/-! ## Add and subtract (C1, C2, C3) -/

/-- Claim C1: for every state and every choice of registers dst, ra, rb
(which may coincide), with a = R[ra] and b = R[rb] before the instruction,
executing ADD_r or ADD_r_short returns Ok, sets R[dst] = (a + b) mod 65536,
and sets the overflow flag to 1 if and only if sext16(a) + sext16(b) lies
outside [-32768, 32767], otherwise to 0. -/
theorem C1_exec_ADD_r (sim : AAPSimulator) (op : AAP.Opcode)
    (hop : op = .ADD_r ∨ op = .ADD_r_short)
    (dst ra rb : AAP.Reg) (d ia ib : Nat)
    (hd : getLLVMReg dst = some d) (ha : getLLVMReg ra = some ia) (hb : getLLVMReg rb = some ib)
    (pc_w newpc_w : Nat) :
    ∃ r, exec sim ⟨op, [.createReg dst, .createReg ra, .createReg rb]⟩ pc_w newpc_w = some r ∧
      r.status = .SIM_OK ∧
      r.sim.State.getReg d = (sim.State.getReg ia + sim.State.getReg ib) % 65536 ∧
      (r.sim.State.getOverflow = 1 ↔
        ¬ fitsInt16 (sext16 (sim.State.getReg ia) + sext16 (sim.State.getReg ib))) ∧
      (r.sim.State.getOverflow = 0 ↔
        fitsInt16 (sext16 (sim.State.getReg ia) + sext16 (sim.State.getReg ib))) := by
  have hA := sim.State.getReg_lt ia
  have hB := sim.State.getReg_lt ib
  have hsa := sext16_bounds _ hA
  have hsb := sext16_bounds _ hB
  have hconv := toUInt32_signExtend16_add _ _ 0 hA hB
  simp only [add_zero] at hconv
  obtain ⟨e1, e2, e3⟩ := addsub_effect sim.State d
    (sext16 (sim.State.getReg ia) + sext16 (sim.State.getReg ib)) (by omega) (by omega)
  have hexec := exec_ADD_eq sim op hop dst ra rb d ia ib hd ha hb pc_w newpc_w
  rw [hconv] at hexec
  have h1 := sext16_emod (sim.State.getReg ia)
  have h2 := sext16_emod (sim.State.getReg ib)
  refine ⟨_, hexec, rfl, ?_, e2, e3⟩
  simp only [] at e1 ⊢
  omega

/-- Claim C1 on a concrete input: ADD_r R0, R3, R2 with R3 = 0x7FFF and
R2 = 1 leaves 0x8000 in R0 and sets the overflow flag. -/
theorem C1_exec_ADD_r_witness :
    getLLVMReg .R0 = some 0 ∧ getLLVMReg .R3 = some 3 ∧ getLLVMReg .R2 = some 2 ∧
    ∃ r, exec demoSim ⟨.ADD_r, [.createReg .R0, .createReg .R3, .createReg .R2]⟩ 10 11 = some r ∧
      r.status = .SIM_OK ∧ r.sim.State.getReg 0 = 0x8000 ∧ r.sim.State.getOverflow = 1 := by
  obtain ⟨r, he, hs, hreg, hov, _⟩ :=
    C1_exec_ADD_r demoSim .ADD_r (Or.inl rfl) .R0 .R3 .R2 0 3 2 rfl rfl rfl 10 11
  exact ⟨rfl, rfl, rfl, r, he, hs, by rw [hreg]; rfl, hov.mpr (by decide)⟩

/-- Claim C2: for every state with overflow flag c in {0,1} and register
values a, b, executing ADDC_r sets R[dst] = (a + b + c) mod 65536 and sets
the overflow flag to 1 iff sext16(a) + sext16(b) + c lies outside
[-32768, 32767]; in particular with c = 1, a = 0xFFFF, b = 0x0000 the
destination becomes 0x0000 and the overflow flag becomes 0. -/
theorem C2_exec_ADDC_r (sim : AAPSimulator)
    (dst ra rb : AAP.Reg) (d ia ib : Nat)
    (hd : getLLVMReg dst = some d) (ha : getLLVMReg ra = some ia) (hb : getLLVMReg rb = some ib)
    (pc_w newpc_w : Nat) :
    ∃ r, exec sim ⟨.ADDC_r, [.createReg dst, .createReg ra, .createReg rb]⟩ pc_w newpc_w
          = some r ∧
      r.status = .SIM_OK ∧
      r.sim.State.getReg d =
        (sim.State.getReg ia + sim.State.getReg ib + sim.State.getOverflow) % 65536 ∧
      (r.sim.State.getOverflow = 1 ↔
        ¬ fitsInt16 (sext16 (sim.State.getReg ia) + sext16 (sim.State.getReg ib)
            + sim.State.getOverflow)) ∧
      (r.sim.State.getOverflow = 0 ↔
        fitsInt16 (sext16 (sim.State.getReg ia) + sext16 (sim.State.getReg ib)
            + sim.State.getOverflow)) ∧
      (sim.State.getOverflow = 1 → sim.State.getReg ia = 0xFFFF → sim.State.getReg ib = 0x0000 →
        r.sim.State.getReg d = 0x0000 ∧ r.sim.State.getOverflow = 0) := by
  have hA := sim.State.getReg_lt ia
  have hB := sim.State.getReg_lt ib
  have hC := sim.State.getOverflow_lt
  have hsa := sext16_bounds _ hA
  have hsb := sext16_bounds _ hB
  have hconv := toUInt32_signExtend16_add _ _ (sim.State.getOverflow : Int) hA hB
  obtain ⟨e1, e2, e3⟩ := addsub_effect sim.State d
    (sext16 (sim.State.getReg ia) + sext16 (sim.State.getReg ib) + sim.State.getOverflow)
    (by omega) (by omega)
  have hexec := exec_ADDC_eq sim dst ra rb d ia ib hd ha hb pc_w newpc_w
  rw [hconv] at hexec
  have h1 := sext16_emod (sim.State.getReg ia)
  have h2 := sext16_emod (sim.State.getReg ib)
  have hval : ((sim.State.setReg d (toUInt32 (sext16 (sim.State.getReg ia) +
      sext16 (sim.State.getReg ib) + sim.State.getOverflow) % 65536)).setOverflow
      (overflowOf (toUInt32 (sext16 (sim.State.getReg ia) +
      sext16 (sim.State.getReg ib) + sim.State.getOverflow)))).getReg d =
      (sim.State.getReg ia + sim.State.getReg ib + sim.State.getOverflow) % 65536 := by
    omega
  refine ⟨_, hexec, rfl, hval, e2, e3, ?_⟩
  intro hc hav hbv
  refine ⟨?_, e3.mpr ?_⟩
  · rw [hval, hc, hav, hbv]
  · rw [hc, hav, hbv]
    simp [sext16, fitsInt16]

/-- Claim C2 on the input of the spec: overflow flag 1, a = 0xFFFF (R1),
b = 0x0000 (R6); ADDC_r R0, R1, R6 leaves 0x0000 in R0 and clears the flag. -/
theorem C2_exec_ADDC_r_witness :
    getLLVMReg .R0 = some 0 ∧ getLLVMReg .R1 = some 1 ∧ getLLVMReg .R6 = some 6 ∧
    demoSim.State.getOverflow = 1 ∧ demoSim.State.getReg 1 = 0xFFFF ∧
    demoSim.State.getReg 6 = 0x0000 ∧
    ∃ r, exec demoSim ⟨.ADDC_r, [.createReg .R0, .createReg .R1, .createReg .R6]⟩ 10 11
          = some r ∧
      r.status = .SIM_OK ∧ r.sim.State.getReg 0 = 0x0000 ∧ r.sim.State.getOverflow = 0 := by
  obtain ⟨r, he, hs, _, _, _, hpart⟩ :=
    C2_exec_ADDC_r demoSim .R0 .R1 .R6 0 1 6 rfl rfl rfl 10 11
  exact ⟨rfl, rfl, rfl, rfl, rfl, rfl, r, he, hs, hpart rfl rfl rfl⟩

/-- Claim C3: for every state with overflow flag c in {0,1} and register
values a, b: SUB_r / SUB_r_short set R[dst] = (a - b) mod 65536 and overflow
= 1 iff sext16(a) - sext16(b) lies outside [-32768, 32767]; SUBC_r sets
R[dst] = (a - b - c) mod 65536 and overflow = 1 iff sext16(a) - sext16(b) - c
lies outside [-32768, 32767]. -/
theorem C3_exec_SUB_r_SUBC_r (sim : AAPSimulator)
    (dst ra rb : AAP.Reg) (d ia ib : Nat)
    (hd : getLLVMReg dst = some d) (ha : getLLVMReg ra = some ia) (hb : getLLVMReg rb = some ib)
    (pc_w newpc_w : Nat) :
    (∀ op : AAP.Opcode, op = .SUB_r ∨ op = .SUB_r_short →
      ∃ r, exec sim ⟨op, [.createReg dst, .createReg ra, .createReg rb]⟩ pc_w newpc_w = some r ∧
        r.status = .SIM_OK ∧
        (r.sim.State.getReg d : Int) =
          ((sim.State.getReg ia : Int) - sim.State.getReg ib) % 65536 ∧
        (r.sim.State.getOverflow = 1 ↔
          ¬ fitsInt16 (sext16 (sim.State.getReg ia) - sext16 (sim.State.getReg ib))) ∧
        (r.sim.State.getOverflow = 0 ↔
          fitsInt16 (sext16 (sim.State.getReg ia) - sext16 (sim.State.getReg ib)))) ∧
    (∃ r, exec sim ⟨.SUBC_r, [.createReg dst, .createReg ra, .createReg rb]⟩ pc_w newpc_w
          = some r ∧
        r.status = .SIM_OK ∧
        (r.sim.State.getReg d : Int) =
          ((sim.State.getReg ia : Int) - sim.State.getReg ib - sim.State.getOverflow) % 65536 ∧
        (r.sim.State.getOverflow = 1 ↔
          ¬ fitsInt16 (sext16 (sim.State.getReg ia) - sext16 (sim.State.getReg ib)
              - sim.State.getOverflow)) ∧
        (r.sim.State.getOverflow = 0 ↔
          fitsInt16 (sext16 (sim.State.getReg ia) - sext16 (sim.State.getReg ib)
              - sim.State.getOverflow))) := by
  have hA := sim.State.getReg_lt ia
  have hB := sim.State.getReg_lt ib
  have hC := sim.State.getOverflow_lt
  have hsa := sext16_bounds _ hA
  have hsb := sext16_bounds _ hB
  have h1 := sext16_emod (sim.State.getReg ia)
  have h2 := sext16_emod (sim.State.getReg ib)
  constructor
  · intro op hop
    have hconv := toUInt32_signExtend16_sub _ _ 0 hA hB
    simp only [sub_zero] at hconv
    obtain ⟨e1, e2, e3⟩ := addsub_effect sim.State d
      (sext16 (sim.State.getReg ia) - sext16 (sim.State.getReg ib)) (by omega) (by omega)
    have hexec := exec_SUB_eq sim op hop dst ra rb d ia ib hd ha hb pc_w newpc_w
    rw [hconv] at hexec
    refine ⟨_, hexec, rfl, ?_, e2, e3⟩
    simp only [] at e1 ⊢
    omega
  · have hconv := toUInt32_signExtend16_sub _ _ (sim.State.getOverflow : Int) hA hB
    obtain ⟨e1, e2, e3⟩ := addsub_effect sim.State d
      (sext16 (sim.State.getReg ia) - sext16 (sim.State.getReg ib) - sim.State.getOverflow)
      (by omega) (by omega)
    have hexec := exec_SUBC_eq sim dst ra rb d ia ib hd ha hb pc_w newpc_w
    rw [hconv] at hexec
    refine ⟨_, hexec, rfl, ?_, e2, e3⟩
    simp only [] at e1 ⊢
    omega

/-- Claim C3 on a concrete input with a = 0 (R6), b = 1 (R2), c = 1:
SUB_r leaves 0xFFFF in R0 and SUBC_r leaves 0xFFFE, both without overflow. -/
theorem C3_exec_SUB_r_SUBC_r_witness :
    getLLVMReg .R0 = some 0 ∧ getLLVMReg .R6 = some 6 ∧ getLLVMReg .R2 = some 2 ∧
    (∃ r, exec demoSim ⟨.SUB_r, [.createReg .R0, .createReg .R6, .createReg .R2]⟩ 10 11
          = some r ∧
      r.status = .SIM_OK ∧ (r.sim.State.getReg 0 : Int) = 0xFFFF ∧
      r.sim.State.getOverflow = 0) ∧
    (∃ r, exec demoSim ⟨.SUBC_r, [.createReg .R0, .createReg .R6, .createReg .R2]⟩ 10 11
          = some r ∧
      r.status = .SIM_OK ∧ (r.sim.State.getReg 0 : Int) = 0xFFFE ∧
      r.sim.State.getOverflow = 0) := by
  obtain ⟨hsub, r', he', hs', hreg', _, hov'⟩ :=
    C3_exec_SUB_r_SUBC_r demoSim .R0 .R6 .R2 0 6 2 rfl rfl rfl 10 11
  obtain ⟨r, he, hs, hreg, _, hov⟩ := hsub .SUB_r (Or.inl rfl)
  exact ⟨rfl, rfl, rfl, ⟨r, he, hs, by rw [hreg]; decide, hov.mpr (by decide)⟩,
    ⟨r', he', hs', by rw [hreg']; decide, hov'.mpr (by decide)⟩⟩

/-! ## Memory accesses (C4, C5, C6) -/

/-- Claim C4, evaluated where it fails: the claim says a word store (base
Rm, offset k, value Rs) followed by a word load from the same address leaves
the stored value v in Rd, with v & 0xFF at the effective address and v >> 8
one above.  With Rm = R4 holding 0x0100, Rs = R5 holding v = 0x1234 and
k = 0, the executor stores the pointer value instead: the load returns 0x0100
and data memory holds 0x00 at 0x0100 and 0x01 at 0x0101. -/
theorem C4_store_load_at_failing_input :
    demoSim.State.getReg 4 = 0x0100 ∧ demoSim.State.getReg 5 = 0x1234 ∧
    ((exec demoSim ⟨.STW, [.createReg .R4, .createImm 0, .createReg .R5]⟩ 10 11).bind
        fun r1 => exec r1.sim ⟨.LDW, [.createReg .R6, .createReg .R4, .createImm 0]⟩ 11 12).map
      (fun r2 => (r2.status, r2.sim.State.getReg 6,
        r2.sim.State.getDataMem 0x0100, r2.sim.State.getDataMem 0x0101))
      = some (.SIM_OK, 0x0100, 0x00, 0x01) := by
  decide

/-- Claim C5: for every state and every post-increment load whose pointer
register Rm holds p before the instruction, the effective address is
computed from the un-incremented p (a destination other than Rm receives the
data at (p + k) mod 65536) and after the instruction R[Rm] = (p + 2) mod 65536
for the word forms (LDW_postinc, LDW_postinc_short) and (p + 1) mod 65536 for
the byte forms. -/
theorem C5_postinc_load (sim : AAPSimulator) (Rd Rm : AAP.Reg) (d m : Nat)
    (hd : getLLVMReg Rd = some d) (hm : getLLVMReg Rm = some m) (k : Int) (pc_w newpc_w : Nat) :
    (∀ op : AAP.Opcode, op = .LDW_postinc ∨ op = .LDW_postinc_short →
      ∃ r, exec sim ⟨op, [.createReg Rd, .createReg Rm, .createImm k]⟩ pc_w newpc_w = some r ∧
        r.status = .SIM_OK ∧
        r.sim.State.getReg m = (sim.State.getReg m + 2) % 65536 ∧
        (d ≠ m → r.sim.State.getReg d =
          sim.State.getDataMem (effAddr (sim.State.getReg m) k) +
            256 * sim.State.getDataMem (effAddr (sim.State.getReg m) k + 1))) ∧
    (∀ op : AAP.Opcode, op = .LDB_postinc ∨ op = .LDB_postinc_short →
      ∃ r, exec sim ⟨op, [.createReg Rd, .createReg Rm, .createImm k]⟩ pc_w newpc_w = some r ∧
        r.status = .SIM_OK ∧
        r.sim.State.getReg m = (sim.State.getReg m + 1) % 65536 ∧
        (d ≠ m → r.sim.State.getReg d =
          sim.State.getDataMem (effAddr (sim.State.getReg m) k))) := by
  have hp := sim.State.getReg_lt m
  have hlo := sim.State.getDataMem_lt (effAddr (sim.State.getReg m) k)
  have hhi := sim.State.getDataMem_lt (effAddr (sim.State.getReg m) k + 1)
  have hw : (sim.State.getDataMem (effAddr (sim.State.getReg m) k) |||
      sim.State.getDataMem (effAddr (sim.State.getReg m) k + 1) <<< 8) =
      sim.State.getDataMem (effAddr (sim.State.getReg m) k) +
        256 * sim.State.getDataMem (effAddr (sim.State.getReg m) k + 1) :=
    or_shiftLeft_8 _ _ hlo
  constructor
  · intro op hop
    obtain ⟨h0, h1, h2⟩ := regOperand_load op Rd Rm k
    rcases hop with rfl | rfl <;>
    · simp [exec, execLoad, MCInst.getOpcode, h0, h1, h2, hd, hm, execOk, toUInt16_add_toInt32,
        AAPSimState.getReg_setReg, hw, Nat.mod_eq_of_lt hp]
      refine ⟨?_, ?_⟩
      · unfold toUInt16; omega
      · intro hdm
        simp [hdm]
        omega
  · intro op hop
    obtain ⟨h0, h1, h2⟩ := regOperand_load op Rd Rm k
    rcases hop with rfl | rfl <;>
    · simp [exec, execLoad, MCInst.getOpcode, h0, h1, h2, hd, hm, execOk, toUInt16_add_toInt32,
        AAPSimState.getReg_setReg, Nat.mod_eq_of_lt hp]
      refine ⟨?_, ?_⟩
      · unfold toUInt16; omega
      · intro hdm
        simp [hdm]
        omega

/-- Claim C5 on a concrete input: with R7 = 0x0200 and bytes 0x34, 0x12 at
0x0200, 0x0201, LDW_postinc R6, [R7, 0] loads 0x1234 and leaves 0x0202 in
R7; LDB_postinc loads 0x34 and leaves 0x0201. -/
theorem C5_postinc_load_witness :
    getLLVMReg .R6 = some 6 ∧ getLLVMReg .R7 = some 7 ∧
    (∃ r, exec demoSim ⟨.LDW_postinc, [.createReg .R6, .createReg .R7, .createImm 0]⟩ 10 11
          = some r ∧
      r.status = .SIM_OK ∧ r.sim.State.getReg 7 = 0x0202 ∧ r.sim.State.getReg 6 = 0x1234) ∧
    (∃ r, exec demoSim ⟨.LDB_postinc, [.createReg .R6, .createReg .R7, .createImm 0]⟩ 10 11
          = some r ∧
      r.status = .SIM_OK ∧ r.sim.State.getReg 7 = 0x0201 ∧ r.sim.State.getReg 6 = 0x34) := by
  obtain ⟨hword, hbyte⟩ := C5_postinc_load demoSim .R6 .R7 6 7 rfl rfl 0 10 11
  obtain ⟨r, he, hs, hptr, hval⟩ := hword .LDW_postinc (Or.inl rfl)
  obtain ⟨r', he', hs', hptr', hval'⟩ := hbyte .LDB_postinc (Or.inl rfl)
  exact ⟨rfl, rfl, ⟨r, he, hs, by rw [hptr]; rfl, by rw [hval (by decide)]; rfl⟩,
    ⟨r', he', hs', by rw [hptr']; rfl, by rw [hval' (by decide)]; rfl⟩⟩

/-- Claim C6: for every state and every byte pre-decrement store
(STB_predec, STB_predec_short) whose pointer register Rm holds p and whose
signed offset is k, after the instruction R[Rm] = (p - 1) mod 65536 and the
single byte written to data memory is at address ((p - 1) + k) mod 65536;
for the word pre-decrement forms the pointer becomes (p - 2) mod 65536 and
the write starts at ((p - 2) + k) mod 65536.  The bytes found there are the
low and high byte of the value the executor stores, which it reads from
operand slot 0 before the decrement; every byte at another address of the
16-bit data address space is unchanged. -/
theorem C6_predec_store (sim : AAPSimulator) (Rm Rs : AAP.Reg) (m : Nat)
    (hm : getLLVMReg Rm = some m) (k : Int) (pc_w newpc_w : Nat) :
    (∀ op : AAP.Opcode, op = .STB_predec ∨ op = .STB_predec_short →
      ∃ r, exec sim ⟨op, [.createReg Rm, .createImm k, .createReg Rs]⟩ pc_w newpc_w = some r ∧
        r.status = .SIM_OK ∧
        (r.sim.State.getReg m : Int) = ((sim.State.getReg m : Int) - 1) % 65536 ∧
        r.sim.State.getDataMem ((((sim.State.getReg m : Int) - 1 + k) % 65536).toNat) =
          sim.State.getReg m % 256 ∧
        (∀ x, x % 65536 ≠ (((sim.State.getReg m : Int) - 1 + k) % 65536).toNat →
          r.sim.State.getDataMem x = sim.State.getDataMem x)) ∧
    (∀ op : AAP.Opcode, op = .STW_predec ∨ op = .STW_predec_short →
      ∃ r, exec sim ⟨op, [.createReg Rm, .createImm k, .createReg Rs]⟩ pc_w newpc_w = some r ∧
        r.status = .SIM_OK ∧
        (r.sim.State.getReg m : Int) = ((sim.State.getReg m : Int) - 2) % 65536 ∧
        r.sim.State.getDataMem ((((sim.State.getReg m : Int) - 2 + k) % 65536).toNat) =
          sim.State.getReg m % 256 ∧
        r.sim.State.getDataMem ((((sim.State.getReg m : Int) - 2 + k) % 65536).toNat + 1) =
          sim.State.getReg m / 256 ∧
        (∀ x, x % 65536 ≠ (((sim.State.getReg m : Int) - 2 + k) % 65536).toNat →
          x % 65536 ≠ ((((sim.State.getReg m : Int) - 2 + k) % 65536).toNat + 1) % 65536 →
          r.sim.State.getDataMem x = sim.State.getDataMem x)) := by
  have hp := sim.State.getReg_lt m
  have hb : (((sim.State.getReg m : Int) - 1 + k) % 65536).toNat % 65536 =
      (((sim.State.getReg m : Int) - 1 + k) % 65536).toNat := by omega
  have hw : (((sim.State.getReg m : Int) - 2 + k) % 65536).toNat % 65536 =
      (((sim.State.getReg m : Int) - 2 + k) % 65536).toNat := by omega
  have hw1 : ¬ (((sim.State.getReg m : Int) - 2 + k) % 65536).toNat =
      ((((sim.State.getReg m : Int) - 2 + k) % 65536).toNat + 1) % 65536 := by omega
  constructor
  · intro op hop
    obtain ⟨h0, h1⟩ := regOperand_store op Rm Rs k
    rcases hop with rfl | rfl <;>
    · simp [exec, execStore, MCInst.getOpcode, h0, h1, hm, execOk, toUInt16_toUInt16_add_toInt32,
        AAPSimState.getReg_setReg, AAPSimState.getDataMem_setDataMem, Nat.mod_eq_of_lt hp,
        and_255, shiftRight_8, hb]
      exact ⟨by unfold toUInt16; omega, fun x h1 h2 => absurd h2 h1⟩
  · intro op hop
    obtain ⟨h0, h1⟩ := regOperand_store op Rm Rs k
    rcases hop with rfl | rfl <;>
    · simp [exec, execStore, MCInst.getOpcode, h0, h1, hm, execOk, toUInt16_toUInt16_add_toInt32,
        AAPSimState.getReg_setReg, AAPSimState.getDataMem_setDataMem, Nat.mod_eq_of_lt hp,
        and_255, shiftRight_8, hw, hw1]
      exact ⟨by unfold toUInt16; omega, by omega, fun x h1 h2 => by simp [h1, h2]⟩

/-- Claim C6 on a concrete input: with R5 = 0x1234 and offset 0,
STB_predec leaves 0x1233 in R5 and writes at 0x1233; STW_predec leaves
0x1232 in R5 and writes at 0x1232 and 0x1233. -/
theorem C6_predec_store_witness :
    getLLVMReg .R5 = some 5 ∧
    (∃ r, exec demoSim ⟨.STB_predec, [.createReg .R5, .createImm 0, .createReg .R1]⟩ 10 11
          = some r ∧
      r.status = .SIM_OK ∧ (r.sim.State.getReg 5 : Int) = 0x1233 ∧
      r.sim.State.getDataMem 0x1233 = 0x34 ∧
      r.sim.State.getDataMem 0x1232 = demoSim.State.getDataMem 0x1232) ∧
    (∃ r, exec demoSim ⟨.STW_predec, [.createReg .R5, .createImm 0, .createReg .R1]⟩ 10 11
          = some r ∧
      r.status = .SIM_OK ∧ (r.sim.State.getReg 5 : Int) = 0x1232 ∧
      r.sim.State.getDataMem 0x1232 = 0x34 ∧ r.sim.State.getDataMem 0x1233 = 0x12 ∧
      r.sim.State.getDataMem 0x1231 = demoSim.State.getDataMem 0x1231) := by
  obtain ⟨hbyte, hword⟩ := C6_predec_store demoSim .R5 .R1 5 rfl 0 10 11
  obtain ⟨r, he, hs, hptr, hat, hframe⟩ := hbyte .STB_predec (Or.inl rfl)
  obtain ⟨r', he', hs', hptr', hlo, hhi, hframe'⟩ := hword .STW_predec (Or.inl rfl)
  exact ⟨rfl, ⟨r, he, hs, by rw [hptr]; decide, hat, hframe 0x1232 (by decide)⟩,
    ⟨r', he', hs', by rw [hptr']; decide, hlo, hhi, hframe' 0x1231 (by decide) (by decide)⟩⟩

/-! ## The quit NOP (C7) -/

/-- Claim C7: for every state and register r holding V, executing NOP or
NOP_short with operand register r and command code 2 returns the Quit status
and sets the exit code to V, leaving registers, data memory and the overflow
flag unchanged (the state is the old one with the exit code captured, the
output streams and the next PC are untouched). -/
theorem C7_nop_quit (sim : AAPSimulator) (op : AAP.Opcode)
    (hop : op = .NOP ∨ op = .NOP_short) (reg : AAP.Reg) (i : Nat)
    (hreg : getLLVMReg reg = some i) (pc_w newpc_w : Nat) :
    ∃ r, exec sim ⟨op, [.createReg reg, .createImm 2]⟩ pc_w newpc_w = some r ∧
      r.status = .SIM_QUIT ∧
      r.sim.State.getExitCode = sim.State.getReg i ∧
      (∀ j, r.sim.State.getReg j = sim.State.getReg j) ∧
      (∀ a, r.sim.State.getDataMem a = sim.State.getDataMem a) ∧
      r.sim.State.getOverflow = sim.State.getOverflow ∧
      r.sim.State = sim.State.setExitCode (sim.State.getReg i) ∧
      r.sim.outs = sim.outs ∧ r.sim.errs = sim.errs ∧ r.newpc_w = newpc_w := by
  have hp := sim.State.getReg_lt i
  obtain ⟨h0, h1⟩ := regOperand_nop op reg 2
  rcases hop with rfl | rfl <;>
    simp [exec, MCInst.getOpcode, h0, h1, hreg, toUInt16, Nat.mod_eq_of_lt hp]

/-- Claim C7 on a concrete input: NOP R5, 2 with R5 = 0x1234 quits with
exit code 0x1234. -/
theorem C7_nop_quit_witness :
    getLLVMReg .R5 = some 5 ∧
    ∃ r, exec demoSim ⟨.NOP, [.createReg .R5, .createImm 2]⟩ 10 11 = some r ∧
      r.status = .SIM_QUIT ∧ r.sim.State.getExitCode = 0x1234 ∧
      r.sim.State.getOverflow = 1 := by
  obtain ⟨r, he, hs, hexit, _, _, hov, _⟩ :=
    C7_nop_quit demoSim .NOP (Or.inl rfl) .R5 5 rfl 10 11
  exact ⟨rfl, r, he, hs, by rw [hexit]; rfl, by rw [hov]; rfl⟩

/-! ## Decoder entry point (C8, C9) -/

/-- Claim C8: for every byte buffer too short to complete a decode,
getInstruction fails with reported size 0: this holds for every buffer of
fewer than 2 bytes, and for every buffer of 2 or 3 bytes whose first two
bytes (the word b0 + 256*b1) match no 16-bit encoding. -/
theorem C8_getInstruction_short (D : DecodeInstructionFn) (MI : MCInst)
    (Bytes : List Nat) (Address : Nat) :
    (Bytes.length < 2 →
      (getInstruction D MI Bytes Address).status = .Fail ∧
      (getInstruction D MI Bytes Address).Size = 0) ∧
    (Bytes.length = 2 ∨ Bytes.length = 3 →
      (D .DecoderTable16 MI (byteAt Bytes 0 + 256 * byteAt Bytes 1) Address).1 = .Fail →
      (getInstruction D MI Bytes Address).status = .Fail ∧
      (getInstruction D MI Bytes Address).Size = 0) := by
  have e16 := insn16_eq _ _ (byteAt_lt Bytes 0) (byteAt_lt Bytes 1)
  rw [Nat.shiftLeft_zero] at e16
  constructor
  · intro h
    simp [getInstruction, h]
  · intro h hf
    have h2 : ¬ Bytes.length < 2 := by omega
    have h4 : Bytes.length < 4 := by omega
    simp [getInstruction, h2, h4, e16, hf]

/-- Claim C8 on concrete inputs: the 1-byte buffer [0x12], and the 3-byte
buffer [0x12, 0x34, 0x56] whose first word 0x3412 the example decoder does
not know, both fail with size 0. -/
theorem C8_getInstruction_short_witness :
    ([0x12] : List Nat).length < 2 ∧
    (getInstruction exampleDecode MCInst.fresh [0x12] 0).status = .Fail ∧
    (getInstruction exampleDecode MCInst.fresh [0x12] 0).Size = 0 ∧
    ([0x12, 0x34, 0x56] : List Nat).length = 3 ∧
    (exampleDecode .DecoderTable16 MCInst.fresh 0x3412 0).1 = .Fail ∧
    (getInstruction exampleDecode MCInst.fresh [0x12, 0x34, 0x56] 0).status = .Fail ∧
    (getInstruction exampleDecode MCInst.fresh [0x12, 0x34, 0x56] 0).Size = 0 :=
  have h1 := (C8_getInstruction_short exampleDecode MCInst.fresh [0x12] 0).1 (by decide)
  have h3 := (C8_getInstruction_short exampleDecode MCInst.fresh [0x12, 0x34, 0x56] 0).2
    (Or.inr rfl) (by decide)
  ⟨by decide, h1.1, h1.2, rfl, by decide, h3.1, h3.2⟩

/-- Claim C9: for every buffer of at least 4 bytes whose first two bytes
(as the little-endian 16-bit word b0 + 256*b1) match no 16-bit encoding and
whose first four bytes (as the little-endian 32-bit word
b0 + 2^8*b1 + 2^16*b2 + 2^24*b3) match no 32-bit encoding, getInstruction
fails and reports size 2. -/
theorem C9_getInstruction_no_match (D : DecodeInstructionFn) (MI : MCInst)
    (Bytes : List Nat) (Address : Nat) (hlen : 4 ≤ Bytes.length)
    (h16 : (D .DecoderTable16 MI (byteAt Bytes 0 + 256 * byteAt Bytes 1) Address).1 = .Fail)
    (h32 : (D .DecoderTable32
              (D .DecoderTable16 MI (byteAt Bytes 0 + 256 * byteAt Bytes 1) Address).2
              (byteAt Bytes 0 + 256 * byteAt Bytes 1 + 65536 * byteAt Bytes 2
                + 16777216 * byteAt Bytes 3) Address).1 = .Fail) :
    (getInstruction D MI Bytes Address).status = .Fail ∧
    (getInstruction D MI Bytes Address).Size = 2 := by
  have e16 := insn16_eq _ _ (byteAt_lt Bytes 0) (byteAt_lt Bytes 1)
  rw [Nat.shiftLeft_zero] at e16
  have e32 := insn32_eq _ _ _ _ (byteAt_lt Bytes 0) (byteAt_lt Bytes 1) (byteAt_lt Bytes 2)
    (byteAt_lt Bytes 3)
  rw [Nat.shiftLeft_zero] at e32
  have h2 : ¬ Bytes.length < 2 := by omega
  have h4 : ¬ Bytes.length < 4 := by omega
  simp [getInstruction, h2, h4, e16, e32, h16, h32]

/-- Claim C9 on a concrete input: the buffer [0xFF, 0xFF, 0xFF, 0xFF, 0x00]
matches neither table of the example decoder and fails with size 2. -/
theorem C9_getInstruction_no_match_witness :
    4 ≤ ([0xFF, 0xFF, 0xFF, 0xFF, 0x00] : List Nat).length ∧
    (getInstruction exampleDecode MCInst.fresh [0xFF, 0xFF, 0xFF, 0xFF, 0x00] 0).status
      = .Fail ∧
    (getInstruction exampleDecode MCInst.fresh [0xFF, 0xFF, 0xFF, 0xFF, 0x00] 0).Size = 2 :=
  ⟨by decide,
    C9_getInstruction_no_match exampleDecode MCInst.fresh [0xFF, 0xFF, 0xFF, 0xFF, 0x00] 0
      (by decide) (by decide) (by decide)⟩

/-! ## Long conditional branches (C10) -/

/-- Claim C10 as stated fails: a taken BEQ_ at word address pc = 0 whose
10-bit offset field is v = 512 does not leave pc + v - 1024 = -512 as next
PC; the executor computes in `uint32_t` and leaves 4294966784. -/
theorem C10_long_branch_counterexample :
    ccHolds .BEQ_ (demoSim.State.getReg 0) (demoSim.State.getReg 0) = true ∧
    (512 : Nat) ≤ 1023 ∧
    (exec demoSim ⟨.BEQ_, [.createImm 512, .createReg .R0, .createReg .R0]⟩ 0 1).map
      (fun r => (r.status, r.newpc_w)) = some (.SIM_OK, 4294966784) ∧
    ((4294966784 : Nat) : Int) ≠ (0 : Int) + 512 - 1024 := by
  decide

/-- Claim C10, amended: for every long-form conditional branch (BEQ_, BNE_,
BLTS_, BGTS_, BLTU_, BGTU_) at word address pc that is taken and whose offset
operand is a 10-bit field value v in [0, 1023], the next PC is
(pc + v) mod 2^32 when v < 512 and (pc + v - 1024) mod 2^32 when v >= 512;
it is pc + v - 1024 itself whenever 1024 <= pc + v < 2^32 + 1024, and pc + v
itself whenever v < 512 and pc + v < 2^32; in particular the all-ones field
v = 0x3FF transfers control to pc - 1 for 1 <= pc < 2^32. -/
theorem C10_long_branch_taken (sim : AAPSimulator) (op : AAP.Opcode)
    (hop : op = .BEQ_ ∨ op = .BNE_ ∨ op = .BLTS_ ∨ op = .BGTS_ ∨ op = .BLTU_ ∨ op = .BGTU_)
    (v : Nat) (hv : v ≤ 1023) (ra rb : AAP.Reg) (ia ib : Nat)
    (ha : getLLVMReg ra = some ia) (hb : getLLVMReg rb = some ib)
    (htaken : ccHolds op (sim.State.getReg ia) (sim.State.getReg ib) = true)
    (pc_w newpc_w : Nat) :
    ∃ r, exec sim ⟨op, [.createImm v, .createReg ra, .createReg rb]⟩ pc_w newpc_w = some r ∧
      r.status = .SIM_OK ∧
      (v < 512 → (r.newpc_w : Int) = ((pc_w : Int) + v) % 4294967296) ∧
      (512 ≤ v → (r.newpc_w : Int) = ((pc_w : Int) + v - 1024) % 4294967296) ∧
      (512 ≤ v → 1024 ≤ pc_w + v → pc_w + v < 4294967296 + 1024 →
        (r.newpc_w : Int) = (pc_w : Int) + v - 1024) ∧
      (v < 512 → pc_w + v < 4294967296 → r.newpc_w = pc_w + v) ∧
      (v = 0x3FF → 1 ≤ pc_w → pc_w < 4294967296 → r.newpc_w = pc_w - 1) := by
  have hA := sim.State.getReg_lt ia
  have hB := sim.State.getReg_lt ib
  have hva : toUInt16 (v : Int) = v := by unfold toUInt16; omega
  obtain ⟨h0, h1, h2⟩ := operands_branchCC op v ra rb
  have hse := signExtendBranchCC_eq v hv
  rcases hop with rfl | rfl | rfl | rfl | rfl | rfl <;>
  · simp only [ccHolds, decide_eq_true_eq] at htaken
    simp [exec, execBranchCC, MCInst.getOpcode, h0, h1, h2, ha, hb, execOk, hva, hse,
      toInt16_natCast _ hA, toInt16_natCast _ hB, htaken]
    unfold toUInt32
    split_ifs <;> refine ⟨?_, ?_, ?_, ?_, ?_⟩ <;> intros <;> omega

/-- Claim C10 (amended) on a concrete input: a taken BEQ_ at pc = 7 with the
all-ones field 0x3FF continues at pc - 1 = 6. -/
theorem C10_long_branch_taken_witness :
    (0x3FF : Nat) ≤ 1023 ∧ getLLVMReg .R0 = some 0 ∧
    ccHolds .BEQ_ (demoSim.State.getReg 0) (demoSim.State.getReg 0) = true ∧
    ∃ r, exec demoSim ⟨.BEQ_, [.createImm (0x3FF : Nat), .createReg .R0, .createReg .R0]⟩ 7 8
          = some r ∧
      r.status = .SIM_OK ∧ r.newpc_w = 6 := by
  obtain ⟨r, he, hs, _, _, _, _, hm1⟩ :=
    C10_long_branch_taken demoSim .BEQ_ (Or.inl rfl) 0x3FF (by decide) .R0 .R0 0 0 rfl rfl
      (by decide) 7 8
  exact ⟨by decide, rfl, by decide, r, he, hs, hm1 rfl (by decide) (by decide)⟩

set_option maxHeartbeats 4000000

/-! ## Frame lemmas over all opcodes -/

/-- Two frame facts of `exec`, by inspection of every case: outside the
add/sub family the overflow flag is not written, and a straight-line
instruction hands the reference parameter `newpc_w` back as it was passed. -/
theorem exec_frame (sim : AAPSimulator) (op : AAP.Opcode) (ops : List MCOperand)
    (pc_w newpc_w : Nat) (r : ExecResult)
    (h : exec sim ⟨op, ops⟩ pc_w newpc_w = some r) :
    (addSubFamily op = false → r.sim.State.getOverflow = sim.State.getOverflow) ∧
    (straightLineOpcode op = true → r.newpc_w = newpc_w) := by
  cases op <;>
  · simp [exec, execLoad, execStore, execLink, execBranchCC, MCInst.getOpcode, execOk,
      Option.bind_eq_some] at h
    repeat (obtain ⟨_, _, h⟩ := h)
    first
    | (constructor <;> intro hf <;>
        first | (simp [addSubFamily, straightLineOpcode] at hf; done) | rfl)
    | (split_ifs at h <;> simp only [Option.some.injEq] at h <;> subst h <;>
        constructor <;> intro hf <;> rfl)

/-- A conditional branch whose relation is false leaves the reference
parameter `newpc_w` as it was passed. -/
theorem exec_newpc_of_not_taken (sim : AAPSimulator) (Inst : MCInst)
    (hop : condBranchOpcode Inst.Opcode = true)
    (hrel : ∀ ia ib, regOperand Inst 1 = some ia → regOperand Inst 2 = some ib →
      ccHolds Inst.Opcode (sim.State.getReg ia) (sim.State.getReg ib) = false)
    (pc_w newpc_w : Nat) (r : ExecResult)
    (h : exec sim Inst pc_w newpc_w = some r) :
    r.newpc_w = newpc_w := by
  obtain ⟨op, ops⟩ := Inst
  cases op <;>
    first
    | (simp [condBranchOpcode] at hop; done)
    | (simp [exec, execBranchCC, MCInst.getOpcode, execOk, Option.bind_eq_some] at h
       obtain ⟨v, _, a, ha, b, hb, h⟩ := h
       have hr := hrel a b ha hb
       simp only [ccHolds, decide_eq_false_iff_not] at hr
       try simp only [toInt16_natCast _ (sim.State.getReg_lt a),
         toInt16_natCast _ (sim.State.getReg_lt b)] at h
       subst h
       simp [hr])

/-- Non-control-transfer instructions hand `newpc_w` back unchanged. -/
theorem exec_newpc_of_fallsThrough (sim : AAPSimulator) (Inst : MCInst)
    (hft : fallsThrough sim Inst) (pc_w newpc_w : Nat) (r : ExecResult)
    (h : exec sim Inst pc_w newpc_w = some r) :
    r.newpc_w = newpc_w := by
  rcases hft with hs | ⟨hc, hrel⟩
  · exact (exec_frame sim Inst.Opcode Inst.Operands pc_w newpc_w r h).2 hs
  · exact exec_newpc_of_not_taken sim Inst hc hrel pc_w newpc_w r h

/-! ## Short conditional branches (C11) -/

/-- Claim C11, evaluated where it fails: the claim says a taken short-form
conditional branch sign-extends its offset from 6 bits, so that the all-ones
field v = 0x3F transfers control to pc - 1.  `signExtendBranchS`, documented
as "short, 6 bits", tests bit 9 and sets bits 10 to 15, which leaves every
v in [0, 63] as it is: a taken BEQ_short at pc = 7 with v = 0x3F continues at
pc + 63 = 70, not at 6; with v = 32 it continues at 39, not at pc - 32. -/
theorem C11_short_branch_at_failing_input :
    ccHolds .BEQ_short (demoSim.State.getReg 0) (demoSim.State.getReg 0) = true ∧
    signExtendBranchS 0x3F = 63 ∧
    (exec demoSim ⟨.BEQ_short, [.createImm 0x3F, .createReg .R0, .createReg .R0]⟩ 7 8).map
      (fun r => (r.status, r.newpc_w)) = some (.SIM_OK, 70) ∧
    (70 : Int) ≠ 7 - 1 ∧
    (exec demoSim ⟨.BEQ_short, [.createImm 32, .createReg .R0, .createReg .R0]⟩ 40 41).map
      (fun r => (r.status, r.newpc_w)) = some (.SIM_OK, 72) ∧
    (72 : Int) ≠ 40 + 32 - 64 := by
  decide

/-! ## Unknown opcodes and decode failures in the step driver (C12, C13) -/

/-- Claim C12: for every state and every decoded instruction whose opcode
is not one the executor handles, exec returns Trap, sets the next PC to the
current pc, and leaves every register, data and code memory, the overflow
flag and the exit code unchanged (the simulator is returned as it was);
consequently a step that decodes such an instruction at its fetch address
(the byte address 2*PC, computed in 32 bits) returns Trap with the PC equal
to its value before the step, and every other part of the state unchanged. -/
theorem C12_unknown_opcode_trap (D : DecodeInstructionFn) (sim : AAPSimulator)
    (Inst : MCInst) (hop : Inst.Opcode = .other) (pc_w newpc_w : Nat) :
    exec sim Inst pc_w newpc_w = some ⟨.SIM_TRAP, sim, pc_w⟩ ∧
    ((sim.State.getPC <<< 1) % 4294967296 ≤ sim.State.getCodeArray.length →
      (getInstruction D MCInst.fresh
          (sim.State.getCodeArray.drop ((sim.State.getPC <<< 1) % 4294967296))
          ((sim.State.getPC <<< 1) % 4294967296)).status ≠ .Fail →
      (getInstruction D MCInst.fresh
          (sim.State.getCodeArray.drop ((sim.State.getPC <<< 1) % 4294967296))
          ((sim.State.getPC <<< 1) % 4294967296)).MI.Opcode = .other →
      ∃ sim', step D sim = some (.SIM_TRAP, sim') ∧
        sim'.State.getPC = sim.State.getPC ∧
        (∀ j, sim'.State.getReg j = sim.State.getReg j) ∧
        (∀ a, sim'.State.getDataMem a = sim.State.getDataMem a) ∧
        sim'.State.getCodeArray = sim.State.getCodeArray ∧
        sim'.State.getOverflow = sim.State.getOverflow ∧
        sim'.State.getExitCode = sim.State.getExitCode ∧
        sim'.outs = sim.outs ∧ sim'.errs = sim.errs) := by
  have hexec : ∀ (I : MCInst) (p n : Nat), I.Opcode = .other →
      exec sim I p n = some ⟨.SIM_TRAP, sim, p⟩ := by
    intro I p n hI
    obtain ⟨op, ops⟩ := I
    simp only at hI
    subst hI
    simp [exec, MCInst.getOpcode]
  refine ⟨hexec Inst pc_w newpc_w hop, ?_⟩
  intro hin hdec hother
  have hnot : ¬ (sim.State.getPC <<< 1) % 4294967296 > sim.State.getCodeArray.length := by
    omega
  refine ⟨{ sim with State := sim.State.setPC sim.State.getPC }, ?_, ?_⟩
  · simp only [step, hnot, if_false, hdec, ne_eq, not_false_eq_true, if_true,
      hexec _ _ _ hother]
  · simp [AAPSimState.getPC, AAPSimState.setPC, AAPSimState.getReg, AAPSimState.getDataMem,
      AAPSimState.getCodeArray, AAPSimState.getOverflow, AAPSimState.getExitCode]

/-- Claim C12 on a concrete input: at PC = 0 the code word 0x0001 decodes to
an opcode the executor has no case for; the step returns Trap and the PC is
still 0. -/
theorem C12_unknown_opcode_trap_witness :
    (⟨.other, []⟩ : MCInst).Opcode = .other ∧
    exec demoSim ⟨.other, []⟩ 10 11 = some ⟨.SIM_TRAP, demoSim, 10⟩ ∧
    ∃ sim', step demoDecode (demoCodeSim 0) = some (.SIM_TRAP, sim') ∧
      sim'.State.getPC = 0 ∧ sim'.State.getOverflow = 1 := by
  obtain ⟨hexec, hstep⟩ :=
    C12_unknown_opcode_trap demoDecode (demoCodeSim 0) ⟨.other, []⟩ rfl 10 11
  obtain ⟨sim', hs, hpc, _, _, _, hov, _⟩ := hstep (by decide) (by decide) (by decide)
  exact ⟨rfl, (C12_unknown_opcode_trap demoDecode demoSim ⟨.other, []⟩ rfl 10 11).1,
    sim', hs, by rw [hpc]; rfl, by rw [hov]; rfl⟩

/-- Claim C13: for every state in which decoding the code-memory bytes
starting at the fetch address (the byte address 2*PC, computed in 32 bits and
lying within the code array) fails, step returns InvalidInstruction and leaves
the whole architectural state unchanged: PC, all registers, data memory, code
memory, overflow flag and exit code (the simulator is returned as it was). -/
theorem C13_step_decode_failure (D : DecodeInstructionFn) (sim : AAPSimulator)
    (hin : (sim.State.getPC <<< 1) % 4294967296 ≤ sim.State.getCodeArray.length)
    (hfail : (getInstruction D MCInst.fresh
          (sim.State.getCodeArray.drop ((sim.State.getPC <<< 1) % 4294967296))
          ((sim.State.getPC <<< 1) % 4294967296)).status = .Fail) :
    step D sim = some (.SIM_INVALID_INSN, sim) := by
  have hnot : ¬ (sim.State.getPC <<< 1) % 4294967296 > sim.State.getCodeArray.length := by
    omega
  simp [step, hnot, hfail]

/-- Claim C13 on a concrete input: at PC = 4 the code bytes 0xFF 0xFF 0xFF
0xFF match neither table; the step returns InvalidInstruction and the
simulator is unchanged. -/
theorem C13_step_decode_failure_witness :
    (((demoCodeSim 4).State.getPC <<< 1) % 4294967296
      ≤ (demoCodeSim 4).State.getCodeArray.length) ∧
    step demoDecode (demoCodeSim 4) = some (.SIM_INVALID_INSN, demoCodeSim 4) :=
  ⟨by decide, C13_step_decode_failure demoDecode (demoCodeSim 4) (by decide) (by decide)⟩

/-! ## The step driver on straight-line instructions (C14) -/

/-- A successful decode reports size 2 or 4. -/
theorem getInstruction_size (D : DecodeInstructionFn) (MI : MCInst) (Bytes : List Nat)
    (Address : Nat) (h : (getInstruction D MI Bytes Address).status ≠ .Fail) :
    (getInstruction D MI Bytes Address).Size = 2 ∨ (getInstruction D MI Bytes Address).Size = 4 := by
  simp only [getInstruction] at h ⊢
  split_ifs at h ⊢ <;> first | exact absurd rfl h | exact Or.inl rfl | exact Or.inr rfl

/-- Claim C14: for every state in which decoding the bytes at byte address
2*PC (a 32-bit byte address within the code array) succeeds with size s and
yields an instruction that is not a control transfer and not an unhandled
opcode (a move, arithmetic, logical, shift, load, store, a NOP, or a
conditional branch whose relation is false), step executes that instruction
(its status and its effects are those of exec on it) and commits
PC := PC + s/2 (word units); s is 2 or 4. -/
theorem C14_step_commits_next_pc (D : DecodeInstructionFn) (sim : AAPSimulator) (s : Nat)
    (r : ExecResult)
    (hpc : 2 * sim.State.getPC < 4294967296)
    (hin : 2 * sim.State.getPC ≤ sim.State.getCodeArray.length)
    (hdec : (getInstruction D MCInst.fresh
        (sim.State.getCodeArray.drop (2 * sim.State.getPC)) (2 * sim.State.getPC)).status ≠ .Fail)
    (hsize : (getInstruction D MCInst.fresh
        (sim.State.getCodeArray.drop (2 * sim.State.getPC)) (2 * sim.State.getPC)).Size = s)
    (hft : fallsThrough sim (getInstruction D MCInst.fresh
        (sim.State.getCodeArray.drop (2 * sim.State.getPC)) (2 * sim.State.getPC)).MI)
    (hexec : exec sim (getInstruction D MCInst.fresh
        (sim.State.getCodeArray.drop (2 * sim.State.getPC)) (2 * sim.State.getPC)).MI
        sim.State.getPC (sim.State.getPC + s / 2) = some r) :
    (s = 2 ∨ s = 4) ∧
    ∃ sim', step D sim = some (r.status, sim') ∧
      sim'.State.getPC = sim.State.getPC + s / 2 ∧
      sim'.State = r.sim.State.setPC (sim.State.getPC + s / 2) ∧
      (∀ j, sim'.State.getReg j = r.sim.State.getReg j) ∧
      (∀ a, sim'.State.getDataMem a = r.sim.State.getDataMem a) ∧
      sim'.State.getOverflow = r.sim.State.getOverflow ∧
      sim'.State.getExitCode = r.sim.State.getExitCode ∧
      sim'.outs = r.sim.outs ∧ sim'.errs = r.sim.errs := by
  have hs : s = 2 ∨ s = 4 := hsize ▸ getInstruction_size D _ _ _ hdec
  have haddr : (sim.State.getPC <<< 1) % 4294967296 = 2 * sim.State.getPC := by
    rw [Nat.shiftLeft_eq]; omega
  have hnot : ¬ 2 * sim.State.getPC > sim.State.getCodeArray.length := by omega
  have hnew : (sim.State.getPC + s >>> 1) % 4294967296 = sim.State.getPC + s / 2 := by
    rw [Nat.shiftRight_eq_div_pow]
    rcases hs with rfl | rfl <;> omega
  have hr := exec_newpc_of_fallsThrough sim _ hft _ _ r hexec
  refine ⟨hs, { r.sim with State := r.sim.State.setPC (sim.State.getPC + s / 2) }, ?_, ?_,
    rfl, fun j => rfl, fun a => rfl, rfl, rfl, rfl, rfl⟩
  · simp only [step, haddr, hnot, if_false, hdec, ne_eq, not_false_eq_true, if_true, hsize,
      hnew, hexec, hr]
  · simp only [AAPSimState.getPC, AAPSimState.setPC]
    have := hpc
    simp only [AAPSimState.getPC] at this
    rcases hs with rfl | rfl <;> omega

/-- Claim C14 on concrete inputs: at PC = 1 the word 0x0002 decodes with size
2 to MOV_r_short R0, R5 and the step leaves PC = 2 and R0 = 0x1234; at
PC = 2 the words 0x8000 0x8000 decode with size 4 to ADD_r R0, R3, R2 and the
step leaves PC = 4 and R0 = 0x8000. -/
theorem C14_step_commits_next_pc_witness :
    (∃ sim', step demoDecode (demoCodeSim 1) = some (.SIM_OK, sim') ∧
      sim'.State.getPC = 2 ∧ sim'.State.getReg 0 = 0x1234) ∧
    (∃ sim', step demoDecode (demoCodeSim 2) = some (.SIM_OK, sim') ∧
      sim'.State.getPC = 4 ∧ sim'.State.getReg 0 = 0x8000) := by
  obtain ⟨_, sim1, h1, hpc1, _, hreg1, _⟩ :=
    C14_step_commits_next_pc demoDecode (demoCodeSim 1) 2
      ⟨.SIM_OK, ⟨(demoCodeSim 1).State.setReg 0 ((demoCodeSim 1).State.getReg 5), [], []⟩, 2⟩
      (by decide) (by decide) (by decide) (by decide) (Or.inl (by decide)) rfl
  obtain ⟨_, sim2, h2, hpc2, _, hreg2, _⟩ :=
    C14_step_commits_next_pc demoDecode (demoCodeSim 2) 4
      ⟨.SIM_OK, ⟨((demoCodeSim 2).State.setReg 0 0x8000).setOverflow 1, [], []⟩, 4⟩
      (by decide) (by decide) (by decide) (by decide) (Or.inl (by decide)) rfl
  exact ⟨⟨sim1, h1, by rw [hpc1]; rfl, by rw [hreg1 0]; rfl⟩,
    ⟨sim2, h2, by rw [hpc2]; rfl, by rw [hreg2 0]; rfl⟩⟩

/-! ## Overflow flag frame (C15) -/

/-- Claim C15: for every state, every instruction outside the add/sub
family (ADD, ADDC, ADDI, SUB, SUBC, SUBI and their short forms) leaves the
overflow flag equal to its value before the instruction: this covers AND, OR,
XOR (register and immediate), ASR, LSL, LSR (register and immediate), every
load and store, every conditional and unconditional branch, jump,
branch-and-link and jump-and-link, and also moves, NOP and unhandled
opcodes. -/
theorem C15_overflow_frame (sim : AAPSimulator) (Inst : MCInst)
    (hop : addSubFamily Inst.Opcode = false) (pc_w newpc_w : Nat) (r : ExecResult)
    (h : exec sim Inst pc_w newpc_w = some r) :
    r.sim.State.getOverflow = sim.State.getOverflow :=
  (exec_frame sim Inst.Opcode Inst.Operands pc_w newpc_w r h).1 hop

/-- Claim C15 on concrete inputs: AND_r R0, R1, R2 and the word store
STW [R4, 0], R5 both execute and leave the overflow flag at 1. -/
theorem C15_overflow_frame_witness :
    (∃ r, exec demoSim ⟨.AND_r, [.createReg .R0, .createReg .R1, .createReg .R2]⟩ 10 11
          = some r ∧
      r.sim.State.getReg 0 = 1 ∧ r.sim.State.getOverflow = 1) ∧
    (∃ r, exec demoSim ⟨.STW, [.createReg .R4, .createImm 0, .createReg .R5]⟩ 10 11 = some r ∧
      r.sim.State.getOverflow = 1) :=
  ⟨⟨⟨.SIM_OK, ⟨demoSim.State.setReg 0 1, [], []⟩, 11⟩, rfl, by decide,
      C15_overflow_frame demoSim
        ⟨.AND_r, [.createReg .R0, .createReg .R1, .createReg .R2]⟩ rfl 10 11
        ⟨.SIM_OK, ⟨demoSim.State.setReg 0 1, [], []⟩, 11⟩ rfl⟩,
    ⟨⟨.SIM_OK, ⟨((demoSim.State.setReg 4 0x0100).setDataMem 0x0100 0x00).setDataMem 0x0101 0x01,
        [], []⟩, 11⟩, rfl,
      C15_overflow_frame demoSim
        ⟨.STW, [.createReg .R4, .createImm 0, .createReg .R5]⟩ rfl 10 11
        ⟨.SIM_OK, ⟨((demoSim.State.setReg 4 0x0100).setDataMem 0x0100 0x00).setDataMem 0x0101 0x01,
          [], []⟩, 11⟩ rfl⟩⟩

/-! ## Conditional branches and links (C16, C17, C18) -/

theorem operands_link (op : AAP.Opcode) (v : Int) (r1 : AAP.Reg) :
    immOperand ⟨op, [.createImm v, .createReg r1]⟩ 0 = some v ∧
    regOperand ⟨op, [.createImm v, .createReg r1]⟩ 1 = getLLVMReg r1 := by
  simp [regOperand, immOperand, MCInst.getOperand, MCOperand.getReg, MCOperand.getImm]

/-- Claim C16, evaluated where it fails: the claim says that every
conditional branch whose relation holds continues at pc + signed offset.  For
the short forms the executor extends the offset with `signExtendBranchS`,
documented as "short, 6 bits" but testing bit 9, which leaves the all-ones
6-bit field 0x3F (signed offset -1) as 63.  With R1 = 0xFFFF and R2 = 1 the
relations of BNE_short (a != b), BLTS_short (-1 < 1 as signed values) and
BGTU_short (0xFFFF > 1 as unsigned values) hold, each branch is taken, and at
pc = 7 each continues at 7 + 63 = 70, not at 7 - 1 = 6.  This is the defect
of claim C11. -/
theorem C16_cond_branch_at_failing_input :
    demoSim.State.getReg 1 = 0xFFFF ∧ demoSim.State.getReg 2 = 1 ∧
    ccHolds .BNE_short (demoSim.State.getReg 1) (demoSim.State.getReg 2) = true ∧
    ccHolds .BLTS_short (demoSim.State.getReg 1) (demoSim.State.getReg 2) = true ∧
    ccHolds .BGTU_short (demoSim.State.getReg 1) (demoSim.State.getReg 2) = true ∧
    (exec demoSim ⟨.BNE_short, [.createImm 0x3F, .createReg .R1, .createReg .R2]⟩ 7 8).map
      (fun r => (r.status, r.newpc_w)) = some (.SIM_OK, 70) ∧
    (exec demoSim ⟨.BLTS_short, [.createImm 0x3F, .createReg .R1, .createReg .R2]⟩ 7 8).map
      (fun r => (r.status, r.newpc_w)) = some (.SIM_OK, 70) ∧
    (exec demoSim ⟨.BGTU_short, [.createImm 0x3F, .createReg .R1, .createReg .R2]⟩ 7 8).map
      (fun r => (r.status, r.newpc_w)) = some (.SIM_OK, 70) ∧
    (70 : Int) ≠ 7 + (0x3F - 64) := by
  decide

/-- Claim C17 as stated fails: a long-form BAL at word address pc = 0 with
16-bit offset field o = 0xFFFF does not leave pc + o - 65536 = -1 as next PC;
the executor computes in `uint32_t` and leaves 4294967295 (the link register
R0 receives the passed next PC 2). -/
theorem C17_branch_and_link_counterexample :
    (0xFFFF : Nat) ≤ 65535 ∧ ¬ ((0xFFFF : Nat) < 32768) ∧
    (exec demoSim ⟨.BAL, [.createImm 0xFFFF, .createReg .R0]⟩ 0 ((0 + 4 / 2) % 4294967296)).map
      (fun r => (r.status, r.newpc_w, r.sim.State.getReg 0)) = some (.SIM_OK, 4294967295, 2) ∧
    ((4294967295 : Nat) : Int) ≠ (0 : Int) + 0xFFFF - 65536 := by
  decide

/-- Claim C17, amended: for every state and every branch-and-link (BAL,
BAL_short) at word address pc with encoded size s, executed with the next PC
(pc + s/2) mod 2^32 that the step driver passes: the link register receives
(pc + s/2) mod 65536, the address following the current instruction, and for
the long form BAL with 16-bit offset field o the next PC is (pc + o) mod 2^32
when o < 32768 and (pc + o - 65536) mod 2^32 otherwise (pc + o - 65536 itself
whenever 65536 <= pc + o < 2^32 + 65536, and pc + o itself whenever
o < 32768 and pc + o < 2^32); no other register, no memory byte and no flag
changes. -/
theorem C17_branch_and_link (sim : AAPSimulator) (op : AAP.Opcode)
    (hop : op = .BAL ∨ op = .BAL_short) (o : Nat) (ho : o ≤ 65535)
    (rl : AAP.Reg) (l : Nat) (hl : getLLVMReg rl = some l) (pc_w s : Nat) :
    ∃ r, exec sim ⟨op, [.createImm o, .createReg rl]⟩ pc_w ((pc_w + s / 2) % 4294967296)
          = some r ∧
      r.status = .SIM_OK ∧
      r.sim.State.getReg l = (pc_w + s / 2) % 65536 ∧
      (∀ j, j ≠ l → r.sim.State.getReg j = sim.State.getReg j) ∧
      (∀ a, r.sim.State.getDataMem a = sim.State.getDataMem a) ∧
      r.sim.State.getCodeArray = sim.State.getCodeArray ∧
      r.sim.State.getOverflow = sim.State.getOverflow ∧
      r.sim.State.getExitCode = sim.State.getExitCode ∧
      r.sim.outs = sim.outs ∧ r.sim.errs = sim.errs ∧
      (op = .BAL → o < 32768 → (r.newpc_w : Int) = ((pc_w : Int) + o) % 4294967296) ∧
      (op = .BAL → 32768 ≤ o →
        (r.newpc_w : Int) = ((pc_w : Int) + o - 65536) % 4294967296) ∧
      (op = .BAL → 32768 ≤ o → 65536 ≤ pc_w + o → pc_w + o < 4294967296 + 65536 →
        (r.newpc_w : Int) = (pc_w : Int) + o - 65536) ∧
      (op = .BAL → o < 32768 → pc_w + o < 4294967296 → r.newpc_w = pc_w + o) := by
  have hva : toUInt16 (o : Int) = o := by unfold toUInt16; omega
  obtain ⟨h0, h1⟩ := operands_link op o rl
  have hsext : toInt16 (o : Int) = if o < 32768 then (o : Int) else (o : Int) - 65536 := by
    rw [toInt16_natCast o (by omega)]; rfl
  have hlink : (pc_w + s / 2) % 4294967296 % 65536 = (pc_w + s / 2) % 65536 := by omega
  have hexec : exec sim ⟨op, [.createImm o, .createReg rl]⟩ pc_w ((pc_w + s / 2) % 4294967296) =
      some ⟨.SIM_OK, ⟨sim.State.setReg l ((pc_w + s / 2) % 4294967296), sim.outs, sim.errs⟩,
        if op = .BAL then toUInt32 ((pc_w : Int) + toInt16 (o : Int))
        else toUInt32 ((pc_w : Int) + signExtendBranchS o)⟩ := by
    rcases hop with rfl | rfl <;>
      simp [exec, execLink, MCInst.getOpcode, h0, h1, hl, execOk, hva]
  refine ⟨_, hexec, rfl, ?_, ?_, fun a => rfl, rfl, rfl, rfl, rfl, rfl, ?_, ?_, ?_, ?_⟩
  · simp only [AAPSimState.getReg_setReg_same, hlink]
  · intro j hj
    exact AAPSimState.getReg_setReg_of_ne _ _ hj
  · intro hb hlt
    simp only [hb, if_true, hsext, hlt, toUInt32]
    omega
  · intro hb hge
    have hnlt : ¬ o < 32768 := by omega
    simp only [hb, if_true, hsext, hnlt, if_false, toUInt32]
    omega
  · intro hb hge h1 h2
    have hnlt : ¬ o < 32768 := by omega
    simp only [hb, if_true, hsext, hnlt, if_false, toUInt32]
    omega
  · intro hb hlt h1
    simp only [hb, if_true, hsext, hlt, toUInt32]
    omega

/-- Claim C17 (amended) on a concrete input: BAL with offset field 0xFFFF and
link register R0 at pc = 7 with size 4 leaves 9 in R0 and continues at
pc - 1 = 6. -/
theorem C17_branch_and_link_witness :
    (0xFFFF : Nat) ≤ 65535 ∧ getLLVMReg .R0 = some 0 ∧
    ∃ r, exec demoSim ⟨.BAL, [.createImm (0xFFFF : Nat), .createReg .R0]⟩ 7
          ((7 + 4 / 2) % 4294967296) = some r ∧
      r.status = .SIM_OK ∧ r.sim.State.getReg 0 = 9 ∧ (r.newpc_w : Int) = 6 ∧
      r.sim.State.getReg 5 = 0x1234 := by
  obtain ⟨r, he, hs, hlink, hregs, _, _, _, _, _, _, _, _, hexact, _⟩ :=
    C17_branch_and_link demoSim .BAL (Or.inl rfl) 0xFFFF (by decide) .R0 0 rfl 7 4
  exact ⟨by decide, rfl, r, he, hs, by rw [hlink],
    by rw [hexact rfl (by decide) (by decide) (by decide)]; decide,
    by rw [hregs 5 (by decide)]; rfl⟩

/-- Claim C18, evaluated where it fails: the claim says a jump-and-link
whose target operand names register rt holding t leaves the following address
in the link register and continues at t.  The executor takes the target from
`getOperand(0).getImm()`: with a register in slot 0 (R5 holding 0x1234, link
register R0) the access is not an immediate access and exec produces no
result, for JAL and JAL_short alike; the value of R5 is never read.  Only an
immediate in slot 0 is accepted, and it is then the next PC. -/
theorem C18_jump_and_link_at_failing_input :
    demoSim.State.getReg 5 = 0x1234 ∧
    exec demoSim ⟨.JAL, [.createReg .R5, .createReg .R0]⟩ 10 12 = none ∧
    exec demoSim ⟨.JAL_short, [.createReg .R5, .createReg .R0]⟩ 10 11 = none ∧
    (exec demoSim ⟨.JAL, [.createImm 7, .createReg .R0]⟩ 10 12).map
      (fun r => (r.status, r.newpc_w, r.sim.State.getReg 0)) = some (.SIM_OK, 7, 12) := by
  refine ⟨by decide, rfl, rfl, by decide⟩

/-! ## Loads (C19) -/

/-- Claim C19: for every state and every load with destination Rd distinct
from the pointer register Rm, where p is the pointer value after any
pre-decrement and k the signed offset: the effective address is
EA = (p + k) mod 65536; a byte load sets R[Rd] to the data-memory byte at EA
zero-extended to 16 bits, and a word load sets R[Rd] = mem[EA] + 256 *
mem[EA + 1] (little-endian); data memory is unchanged. -/
theorem C19_load_value (sim : AAPSimulator) (op : AAP.Opcode) (hop : loadOpcode op = true)
    (Rd Rm : AAP.Reg) (d m : Nat)
    (hd : getLLVMReg Rd = some d) (hm : getLLVMReg Rm = some m) (hne : d ≠ m)
    (k : Int) (pc_w newpc_w : Nat) :
    ∃ r, exec sim ⟨op, [.createReg Rd, .createReg Rm, .createImm k]⟩ pc_w newpc_w = some r ∧
      r.status = .SIM_OK ∧
      (wordLoadOpcode op = false →
        r.sim.State.getReg d =
          sim.State.getDataMem (effAddr (loadPointer op (sim.State.getReg m)) k) ∧
        r.sim.State.getReg d < 256) ∧
      (wordLoadOpcode op = true →
        r.sim.State.getReg d =
          sim.State.getDataMem (effAddr (loadPointer op (sim.State.getReg m)) k) +
            256 * sim.State.getDataMem (effAddr (loadPointer op (sim.State.getReg m)) k + 1)) ∧
      (∀ a, r.sim.State.getDataMem a = sim.State.getDataMem a) := by
  have hp := sim.State.getReg_lt m
  have hmem : ∀ a, sim.State.getDataMem a < 256 := sim.State.getDataMem_lt
  have hw : ∀ a b, (sim.State.getDataMem a ||| sim.State.getDataMem b <<< 8) =
      sim.State.getDataMem a + 256 * sim.State.getDataMem b :=
    fun a b => or_shiftLeft_8 _ _ (hmem a)
  obtain ⟨h0, h1, h2⟩ := regOperand_load op Rd Rm k
  have hne' : m ≠ d := fun h => hne h.symm
  have hpt : ∀ x : Int, (x % 65536).toNat = toUInt16 x := fun _ => rfl
  cases op <;> simp [loadOpcode] at hop <;>
  · simp [exec, execLoad, MCInst.getOpcode, h0, h1, h2, hd, hm, execOk, toUInt16_add_toInt32,
      AAPSimState.getReg_setReg, hw, Nat.mod_eq_of_lt hp, hne, hne', wordLoadOpcode,
      predecLoadOpcode, loadPointer, hpt]
    have hm0 := hmem (effAddr (sim.State.getReg m) k)
    have hm1 := hmem (effAddr (sim.State.getReg m) k + 1)
    have hb0 := hmem (effAddr (toUInt16 ((sim.State.getReg m : Int) - 1)) k)
    have hw0 := hmem (effAddr (toUInt16 ((sim.State.getReg m : Int) - 2)) k)
    have hw1 := hmem (effAddr (toUInt16 ((sim.State.getReg m : Int) - 2)) k + 1)
    omega

/-- Claim C19 on concrete inputs: with R7 = 0x0200 and bytes 0x34, 0x12 at
0x0200, 0x0201, LDW R6, [R7, 0] loads 0x1234, and LDB_predec R6, [R7, 1]
(pointer 0x01FF after the decrement, effective address 0x0200) loads 0x34. -/
theorem C19_load_value_witness :
    loadOpcode .LDW = true ∧ getLLVMReg .R6 = some 6 ∧ getLLVMReg .R7 = some 7 ∧
    (∃ r, exec demoSim ⟨.LDW, [.createReg .R6, .createReg .R7, .createImm 0]⟩ 10 11 = some r ∧
      r.status = .SIM_OK ∧ r.sim.State.getReg 6 = 0x1234 ∧
      r.sim.State.getDataMem 0x0200 = 0x34) ∧
    (∃ r, exec demoSim ⟨.LDB_predec, [.createReg .R6, .createReg .R7, .createImm 1]⟩ 10 11
          = some r ∧
      r.status = .SIM_OK ∧ r.sim.State.getReg 6 = 0x34) := by
  obtain ⟨r, he, hs, _, hword, hmem⟩ :=
    C19_load_value demoSim .LDW rfl .R6 .R7 6 7 rfl rfl (by decide) 0 10 11
  obtain ⟨r', he', hs', hbyte, _, _⟩ :=
    C19_load_value demoSim .LDB_predec rfl .R6 .R7 6 7 rfl rfl (by decide) 1 10 11
  exact ⟨rfl, rfl, rfl, ⟨r, he, hs, by rw [hword rfl]; rfl, by rw [hmem]; rfl⟩,
    ⟨r', he', hs', by rw [(hbyte rfl).1]; rfl⟩⟩

/-! ## The breakpoint NOP (C20) -/

/-- Claim C20: for every state and register operand, executing NOP or
NOP_short with command code 0 returns the Breakpoint status and leaves
registers, data memory, code memory, overflow flag and exit code unchanged
(the simulator is returned as it was), and leaves the next-PC value passed to
exec unmodified. -/
theorem C20_nop_breakpoint (sim : AAPSimulator) (op : AAP.Opcode)
    (hop : op = .NOP ∨ op = .NOP_short) (reg : AAP.Reg) (i : Nat)
    (hreg : getLLVMReg reg = some i) (pc_w newpc_w : Nat) :
    exec sim ⟨op, [.createReg reg, .createImm 0]⟩ pc_w newpc_w =
      some ⟨.SIM_BREAKPOINT, sim, newpc_w⟩ := by
  obtain ⟨h0, h1⟩ := regOperand_nop op reg 0
  rcases hop with rfl | rfl <;>
    simp [exec, MCInst.getOpcode, h0, h1, hreg, toUInt16]

/-- Claim C20 on a concrete input: NOP_short R5, 0 returns Breakpoint with
the simulator and the passed next PC 11 unchanged. -/
theorem C20_nop_breakpoint_witness :
    getLLVMReg .R5 = some 5 ∧
    exec demoSim ⟨.NOP_short, [.createReg .R5, .createImm 0]⟩ 10 11 =
      some ⟨.SIM_BREAKPOINT, demoSim, 11⟩ :=
  ⟨rfl, C20_nop_breakpoint demoSim .NOP_short (Or.inr rfl) .R5 5 rfl 10 11⟩

/-! ## The inert NOP (C21) -/

/-- Claim C21: for every state, register operand and command operand whose
16-bit command code c is 1 or at least 5, executing NOP or NOP_short returns
Ok and leaves registers, data memory, overflow flag, exit code and the next
PC unchanged; no output is emitted and the exit code is not captured (the
simulator, output streams included, is returned as it was). -/
theorem C21_nop_inert (sim : AAPSimulator) (op : AAP.Opcode)
    (hop : op = .NOP ∨ op = .NOP_short) (reg : AAP.Reg) (i : Nat)
    (hreg : getLLVMReg reg = some i) (v : Int)
    (hc : toUInt16 v = 1 ∨ 5 ≤ toUInt16 v) (pc_w newpc_w : Nat) :
    exec sim ⟨op, [.createReg reg, .createImm v]⟩ pc_w newpc_w =
      some ⟨.SIM_OK, sim, newpc_w⟩ := by
  obtain ⟨h0, h1⟩ := regOperand_nop op reg v
  have h0' : ¬ toUInt16 v = 0 := by omega
  have h2' : ¬ toUInt16 v = 2 := by omega
  have h3' : ¬ toUInt16 v = 3 := by omega
  have h4' : ¬ toUInt16 v = 4 := by omega
  rcases hop with rfl | rfl <;>
    simp [exec, MCInst.getOpcode, h0, h1, hreg, h0', h2', h3', h4', execOk]

/-- Claim C21 on concrete inputs: NOP R5, 1 and NOP_short R5, 0xFFFF both
return Ok with the simulator and the passed next PC 11 unchanged. -/
theorem C21_nop_inert_witness :
    getLLVMReg .R5 = some 5 ∧
    exec demoSim ⟨.NOP, [.createReg .R5, .createImm 1]⟩ 10 11 =
      some ⟨.SIM_OK, demoSim, 11⟩ ∧
    exec demoSim ⟨.NOP_short, [.createReg .R5, .createImm 0xFFFF]⟩ 10 11 =
      some ⟨.SIM_OK, demoSim, 11⟩ :=
  ⟨rfl, C21_nop_inert demoSim .NOP (Or.inl rfl) .R5 5 rfl 1 (Or.inl (by decide)) 10 11,
    C21_nop_inert demoSim .NOP_short (Or.inr rfl) .R5 5 rfl 0xFFFF
      (Or.inr (by decide)) 10 11⟩

/-! ## Decode outcomes (C22) -/

/-- Claim C22: for every byte buffer, getInstruction succeeds with size 2
exactly when the buffer has at least 2 bytes and the word b0 + 256*b1 matches
a 16-bit encoding (whatever the 32-bit table would say); it succeeds with size
4 exactly when there is no 16-bit match, the buffer has at least 4 bytes, and
the word b0 + 2^8*b1 + 2^16*b2 + 2^24*b3 matches a 32-bit encoding; the
reported size is always one of 0, 2, 4 and a successful decode never reports
0. -/
theorem C22_getInstruction_outcomes (D : DecodeInstructionFn) (MI : MCInst)
    (Bytes : List Nat) (Address : Nat) :
    (((getInstruction D MI Bytes Address).status ≠ .Fail ∧
        (getInstruction D MI Bytes Address).Size = 2) ↔
      (2 ≤ Bytes.length ∧
        (D .DecoderTable16 MI (byteAt Bytes 0 + 256 * byteAt Bytes 1) Address).1 ≠ .Fail)) ∧
    (((getInstruction D MI Bytes Address).status ≠ .Fail ∧
        (getInstruction D MI Bytes Address).Size = 4) ↔
      ((D .DecoderTable16 MI (byteAt Bytes 0 + 256 * byteAt Bytes 1) Address).1 = .Fail ∧
        4 ≤ Bytes.length ∧
        (D .DecoderTable32
          (D .DecoderTable16 MI (byteAt Bytes 0 + 256 * byteAt Bytes 1) Address).2
          (byteAt Bytes 0 + 256 * byteAt Bytes 1 + 65536 * byteAt Bytes 2
            + 16777216 * byteAt Bytes 3) Address).1 ≠ .Fail)) ∧
    ((getInstruction D MI Bytes Address).Size = 0 ∨
      (getInstruction D MI Bytes Address).Size = 2 ∨
      (getInstruction D MI Bytes Address).Size = 4) ∧
    ((getInstruction D MI Bytes Address).status ≠ .Fail →
      (getInstruction D MI Bytes Address).Size ≠ 0) := by
  have e16 := insn16_eq _ _ (byteAt_lt Bytes 0) (byteAt_lt Bytes 1)
  have e32 := insn32_eq _ _ _ _ (byteAt_lt Bytes 0) (byteAt_lt Bytes 1) (byteAt_lt Bytes 2)
    (byteAt_lt Bytes 3)
  simp only [getInstruction, e16, e32]
  by_cases h2 : Bytes.length < 2
  · have h4 : ¬ 4 ≤ Bytes.length := by omega
    have h2' : ¬ 2 ≤ Bytes.length := by omega
    simp [h2, h4, h2']
  · have h2' : 2 ≤ Bytes.length := by omega
    by_cases h16 : (D .DecoderTable16 MI (byteAt Bytes 0 + 256 * byteAt Bytes 1) Address).1
        = .Fail
    · by_cases h4 : Bytes.length < 4
      · have h4' : ¬ 4 ≤ Bytes.length := by omega
        simp [h2, h2', h16, h4, h4']
      · have h4' : 4 ≤ Bytes.length := by omega
        by_cases h32 : (D .DecoderTable32
            (D .DecoderTable16 MI (byteAt Bytes 0 + 256 * byteAt Bytes 1) Address).2
            (byteAt Bytes 0 + 256 * byteAt Bytes 1 + 65536 * byteAt Bytes 2
              + 16777216 * byteAt Bytes 3) Address).1 = .Fail
        · simp [h2, h2', h16, h4, h4', h32]
        · simp [h2, h2', h16, h4, h4', h32]
    · simp [h2, h2', h16]

/-- Claim C22 on concrete inputs: with the sample tables, the buffer
[0x02, 0x00] decodes with size 2 and the buffer [0x00, 0x80, 0x00, 0x80]
decodes with size 4. -/
theorem C22_getInstruction_outcomes_witness :
    ((getInstruction demoDecode MCInst.fresh [0x02, 0x00] 0).status ≠ .Fail ∧
      (getInstruction demoDecode MCInst.fresh [0x02, 0x00] 0).Size = 2) ∧
    ((getInstruction demoDecode MCInst.fresh [0x00, 0x80, 0x00, 0x80] 0).status ≠ .Fail ∧
      (getInstruction demoDecode MCInst.fresh [0x00, 0x80, 0x00, 0x80] 0).Size = 4) :=
  ⟨(C22_getInstruction_outcomes demoDecode MCInst.fresh [0x02, 0x00] 0).1.mpr
      ⟨by decide, by decide⟩,
    (C22_getInstruction_outcomes demoDecode MCInst.fresh [0x00, 0x80, 0x00, 0x80] 0).2.1.mpr
      ⟨by decide, by decide, by decide⟩⟩

/-! ## Operand decoders (C29, C30) -/

theorem getLLVMReg_AAPRegs64 (n : Nat) (h : n < AAPRegs64.length) :
    getLLVMReg (AAPRegs64.get ⟨n, h⟩) = some n := by
  have h64 : n < 64 := h
  interval_cases n <;> rfl

theorem getLLVMReg_AAPRegs8 (n : Nat) (h : n < AAPRegs8.length) :
    getLLVMReg (AAPRegs8.get ⟨n, h⟩) = some n := by
  have h8 : n < 8 := h
  interval_cases n <;> rfl

theorem getLLVMReg_injective (r r2 : AAP.Reg) (n : Nat) (h : getLLVMReg r = some n)
    (h2 : getLLVMReg r2 = some n) : r = r2 := by
  cases r <;> simp [getLLVMReg] at h <;> subst h <;> cases r2 <;> simp [getLLVMReg] at h2 <;> rfl

theorem decodeRegisterClass_lt (Inst : MCInst) (n : Nat) (Regs : List AAP.Reg)
    (h : n < Regs.length) :
    decodeRegisterClass Inst n Regs =
      (.Success, ⟨Inst.Opcode, Inst.Operands ++ [.createReg (Regs.get ⟨n, h⟩)]⟩) := by
  have h2 : ¬ n ≥ Regs.length := by omega
  simp [decodeRegisterClass, h2, MCInst.addOperand]

theorem decodeRegisterClass_ge (Inst : MCInst) (n : Nat) (Regs : List AAP.Reg)
    (h : ¬ n < Regs.length) : decodeRegisterClass Inst n Regs = (.Fail, Inst) := by
  have h2 : n ≥ Regs.length := by omega
  simp [decodeRegisterClass, h2]

theorem SignExtend32_3 (X : Nat) : SignExtend32 3 X = sext3 (X % 8) := by
  unfold SignExtend32 sext3 toInt32
  simp only [Nat.shiftLeft_eq, Int.shiftRight_eq_div_pow]
  norm_num
  split_ifs <;> omega

theorem SignExtend32_10 (X : Nat) : SignExtend32 10 X = sext10 (X % 1024) := by
  unfold SignExtend32 sext10 toInt32
  simp only [Nat.shiftLeft_eq, Int.shiftRight_eq_div_pow]
  norm_num
  split_ifs <;> omega

/-- Claim C29: for every field value n, DecodeGR8RegisterClass succeeds iff
n < 8 and DecodeGR64RegisterClass succeeds iff n < 64; on success exactly one
register operand is appended and it is the physical register whose index is
n; on failure the instruction is returned with no operand appended; distinct
field values in range give distinct results (the mapping is injective). -/
theorem C29_register_class_decode (Inst : MCInst) (n : Nat) :
    (((DecodeGR8RegisterClass Inst n).1 = .Success ↔ n < 8) ∧
      (n < 8 → ∃ r, getLLVMReg r = some n ∧
        DecodeGR8RegisterClass Inst n =
          (.Success, ⟨Inst.Opcode, Inst.Operands ++ [.createReg r]⟩)) ∧
      (¬ n < 8 → DecodeGR8RegisterClass Inst n = (.Fail, Inst)) ∧
      (∀ m, m < 8 → n < 8 →
        DecodeGR8RegisterClass Inst m = DecodeGR8RegisterClass Inst n → m = n)) ∧
    (((DecodeGR64RegisterClass Inst n).1 = .Success ↔ n < 64) ∧
      (n < 64 → ∃ r, getLLVMReg r = some n ∧
        DecodeGR64RegisterClass Inst n =
          (.Success, ⟨Inst.Opcode, Inst.Operands ++ [.createReg r]⟩)) ∧
      (¬ n < 64 → DecodeGR64RegisterClass Inst n = (.Fail, Inst)) ∧
      (∀ m, m < 64 → n < 64 →
        DecodeGR64RegisterClass Inst m = DecodeGR64RegisterClass Inst n → m = n)) := by
  have key : ∀ (Regs : List AAP.Reg),
      (∀ k (h : k < Regs.length), getLLVMReg (Regs.get ⟨k, h⟩) = some k) →
      (((decodeRegisterClass Inst n Regs).1 = .Success ↔ n < Regs.length) ∧
      (n < Regs.length → ∃ r, getLLVMReg r = some n ∧
        decodeRegisterClass Inst n Regs =
          (.Success, ⟨Inst.Opcode, Inst.Operands ++ [.createReg r]⟩)) ∧
      (¬ n < Regs.length → decodeRegisterClass Inst n Regs = (.Fail, Inst)) ∧
      (∀ m, m < Regs.length → n < Regs.length →
        decodeRegisterClass Inst m Regs = decodeRegisterClass Inst n Regs → m = n)) := by
    intro Regs hidx
    refine ⟨?_, ?_, ?_, ?_⟩
    · by_cases h : n < Regs.length
      · simp [decodeRegisterClass_lt Inst n Regs h, h]
      · simp [decodeRegisterClass_ge Inst n Regs h, h]
    · intro h
      exact ⟨_, hidx n h, decodeRegisterClass_lt Inst n Regs h⟩
    · intro h
      exact decodeRegisterClass_ge Inst n Regs h
    · intro m hm hn heq
      rw [decodeRegisterClass_lt Inst m Regs hm, decodeRegisterClass_lt Inst n Regs hn] at heq
      simp at heq
      have e1 := hidx m hm
      have e2 := hidx n hn
      simp only [List.get_eq_getElem] at e1 e2
      rw [heq] at e1
      rw [e1] at e2
      exact Option.some.inj e2
  exact ⟨key AAPRegs8 getLLVMReg_AAPRegs8, key AAPRegs64 getLLVMReg_AAPRegs64⟩

/-- Claim C29 on concrete inputs: field value 5 decodes in the narrow class to
one appended operand, register R5; field value 8 fails in the narrow class and
leaves the instruction as it was, and decodes in the full class to R8. -/
theorem C29_register_class_decode_witness :
    DecodeGR8RegisterClass MCInst.fresh 5 = (.Success, ⟨.other, [.createReg .R5]⟩) ∧
    DecodeGR8RegisterClass MCInst.fresh 8 = (.Fail, MCInst.fresh) ∧
    (DecodeGR64RegisterClass MCInst.fresh 8).1 = .Success ∧
    DecodeGR64RegisterClass MCInst.fresh 8 = (.Success, ⟨.other, [.createReg .R8]⟩) :=
  ⟨rfl, (C29_register_class_decode MCInst.fresh 8).1.2.2.1 (by decide),
    (C29_register_class_decode MCInst.fresh 8).2.1.mpr (by decide), rfl⟩

/-- Claim C30: for every encoded field f, decodeMemSrc3Operand succeeds and
appends the register with index (f >> 16) mod 8 followed by the immediate
sext3(f mod 8), which lies in [-4, 3]; decodeMemSrc10Operand succeeds and
appends the register with index (f >> 16) mod 64 followed by the immediate
sext10(f mod 1024), which lies in [-512, 511]; neither function returns
Fail. -/
theorem C30_mem_src_decode (Inst : MCInst) (f : Nat) :
    (∃ r, getLLVMReg r = some ((f / 65536) % 8) ∧
      decodeMemSrc3Operand Inst f =
        (.Success, ⟨Inst.Opcode,
          Inst.Operands ++ [.createReg r, .createImm (sext3 (f % 8))]⟩)) ∧
    (-4 ≤ sext3 (f % 8) ∧ sext3 (f % 8) ≤ 3) ∧
    (∃ r, getLLVMReg r = some ((f / 65536) % 64) ∧
      decodeMemSrc10Operand Inst f =
        (.Success, ⟨Inst.Opcode,
          Inst.Operands ++ [.createReg r, .createImm (sext10 (f % 1024))]⟩)) ∧
    (-512 ≤ sext10 (f % 1024) ∧ sext10 (f % 1024) ≤ 511) ∧
    (decodeMemSrc3Operand Inst f).1 ≠ .Fail ∧ (decodeMemSrc10Operand Inst f).1 ≠ .Fail := by
  have hr8 : (f >>> 16) &&& 0x7 = (f / 65536) % 8 := by
    rw [Nat.shiftRight_eq_div_pow]
    exact Nat.and_pow_two_sub_one_eq_mod _ 3
  have hr64 : (f >>> 16) &&& 0x3f = (f / 65536) % 64 := by
    rw [Nat.shiftRight_eq_div_pow]
    exact Nat.and_pow_two_sub_one_eq_mod _ 6
  have hlo : f &&& 0xffff = f % 65536 := Nat.and_pow_two_sub_one_eq_mod _ 16
  have h8 : (f / 65536) % 8 < AAPRegs8.length := Nat.mod_lt _ (by decide)
  have h64 : (f / 65536) % 64 < AAPRegs64.length := Nat.mod_lt _ (by decide)
  have o3 : f % 65536 % 8 = f % 8 := by omega
  have o10 : f % 65536 % 1024 = f % 1024 := by omega
  have e3 : decodeMemSrc3Operand Inst f =
      (.Success, ⟨Inst.Opcode, Inst.Operands ++
        [.createReg (AAPRegs8.get ⟨(f / 65536) % 8, h8⟩), .createImm (sext3 (f % 8))]⟩) := by
    simp only [decodeMemSrc3Operand, hr8, hlo, SignExtend32_3, o3,
      decodeRegisterClass_lt Inst _ AAPRegs8 h8]
    simp [MCInst.addOperand]
  have e10 : decodeMemSrc10Operand Inst f =
      (.Success, ⟨Inst.Opcode, Inst.Operands ++
        [.createReg (AAPRegs64.get ⟨(f / 65536) % 64, h64⟩),
          .createImm (sext10 (f % 1024))]⟩) := by
    simp only [decodeMemSrc10Operand, hr64, hlo, SignExtend32_10, o10,
      decodeRegisterClass_lt Inst _ AAPRegs64 h64]
    simp [MCInst.addOperand]
  refine ⟨⟨_, getLLVMReg_AAPRegs8 _ h8, e3⟩, ?_, ⟨_, getLLVMReg_AAPRegs64 _ h64, e10⟩, ?_, ?_, ?_⟩
  · unfold sext3; split_ifs <;> omega
  · unfold sext10; split_ifs <;> omega
  · rw [e3]; simp
  · rw [e10]; simp

/-- Claim C30 on a concrete input: the field 0x0005_0007 decodes with the
3-bit decoder to register R5 and offset -1, and the field 0x0028_0200 decodes
with the 10-bit decoder to register R40 and offset -512. -/
theorem C30_mem_src_decode_witness :
    decodeMemSrc3Operand MCInst.fresh 0x00050007 =
      (.Success, ⟨.other, [.createReg .R5, .createImm (-1)]⟩) ∧
    decodeMemSrc10Operand MCInst.fresh 0x00280200 =
      (.Success, ⟨.other, [.createReg .R40, .createImm (-512)]⟩) ∧
    (decodeMemSrc3Operand MCInst.fresh 0x00050007).1 ≠ .Fail := by
  refine ⟨by decide, by decide, (C30_mem_src_decode MCInst.fresh 0x00050007).2.2.2.2.1⟩

/-! ## Shifts (C23, C24) -/

theorem and_15 (n : Nat) : n &&& 15 = n % 16 :=
  Nat.and_pow_two_sub_one_eq_mod n 4

theorem asr_value (a : Nat) (ha : a < 65536) (n : Nat) :
    toUInt16 (toInt16 (a : Int) >>> n) % 65536 = ((sext16 a / 2 ^ n) % 65536).toNat := by
  rw [toInt16_natCast a ha, Int.shiftRight_eq_div_pow]
  push_cast
  generalize sext16 a / 2 ^ n = x
  unfold toUInt16
  omega

theorem lsl_value (a n : Nat) : (a <<< n) % 65536 = (a * 2 ^ n) % 65536 := by
  rw [Nat.shiftLeft_eq]

theorem lsr_value (a : Nat) (ha : a < 65536) (n : Nat) : (a >>> n) % 65536 = a / 2 ^ n := by
  rw [Nat.shiftRight_eq_div_pow]
  exact Nat.mod_eq_of_lt (lt_of_le_of_lt (Nat.div_le_self _ _) ha)

/-- Claim C23: for every state, with a the value of the source register:
ASR_r / ASR_r_short with shift register value s, and ASRI_i6 / ASRI_i3_short
with immediate operand s, return Ok and set the destination register to
floor(sint16(a) / 2^(s mod 16)) mod 65536, and leave the overflow flag
unchanged. -/
theorem C23_arithmetic_shift_right (sim : AAPSimulator) (opr opi : AAP.Opcode)
    (hopr : opr = .ASR_r ∨ opr = .ASR_r_short)
    (hopi : opi = .ASRI_i6 ∨ opi = .ASRI_i3_short)
    (dst ra rb : AAP.Reg) (d ia ib : Nat)
    (hd : getLLVMReg dst = some d) (ha : getLLVMReg ra = some ia) (hb : getLLVMReg rb = some ib)
    (s : Int) (pc_w newpc_w : Nat) :
    (∃ r, exec sim ⟨opr, [.createReg dst, .createReg ra, .createReg rb]⟩ pc_w newpc_w = some r ∧
      r.status = .SIM_OK ∧
      r.sim.State.getReg d =
        ((sext16 (sim.State.getReg ia) / 2 ^ (sim.State.getReg ib % 16)) % 65536).toNat ∧
      r.sim.State.getOverflow = sim.State.getOverflow) ∧
    (∃ r, exec sim ⟨opi, [.createReg dst, .createReg ra, .createImm s]⟩ pc_w newpc_w = some r ∧
      r.status = .SIM_OK ∧
      r.sim.State.getReg d =
        ((sext16 (sim.State.getReg ia) / 2 ^ (s % 16).toNat) % 65536).toNat ∧
      r.sim.State.getOverflow = sim.State.getOverflow) := by
  obtain ⟨h0, h1, h2⟩ := regOperand_three opr dst ra rb
  obtain ⟨i0, i1, i2⟩ := regOperand_load opi dst ra s
  have hA := sim.State.getReg_lt ia
  constructor
  · rcases hopr with rfl | rfl <;>
      simp [exec, MCInst.getOpcode, h0, h1, h2, hd, ha, hb, execOk, and_15, asr_value _ hA]
  · rcases hopi with rfl | rfl <;>
      simp [exec, MCInst.getOpcode, i0, i1, i2, hd, ha, execOk, asr_value _ hA]

/-- Claim C23 on concrete inputs: with R1 = 0xFFFF (-1 as signed) and
R2 = 1, ASR_r R6, R1, R2 leaves 0xFFFF in R6; with R5 = 0x1234,
ASRI_i6 R6, R5, 20 shifts by 20 mod 16 = 4 and leaves 0x0123; the overflow
flag keeps its value 1. -/
theorem C23_arithmetic_shift_right_witness :
    (∃ r, exec demoSim ⟨.ASR_r, [.createReg .R6, .createReg .R1, .createReg .R2]⟩ 10 11 =
        some r ∧ r.status = .SIM_OK ∧ r.sim.State.getReg 6 = 0xFFFF ∧
        r.sim.State.getOverflow = 1) ∧
    (∃ r, exec demoSim ⟨.ASRI_i6, [.createReg .R6, .createReg .R5, .createImm 20]⟩ 10 11 =
        some r ∧ r.status = .SIM_OK ∧ r.sim.State.getReg 6 = 0x0123 ∧
        r.sim.State.getOverflow = 1) := by
  have h1 := (C23_arithmetic_shift_right demoSim .ASR_r .ASRI_i6 (Or.inl rfl) (Or.inl rfl)
    .R6 .R1 .R2 6 1 2 rfl rfl rfl 20 10 11).1
  have h2 := (C23_arithmetic_shift_right demoSim .ASR_r .ASRI_i6 (Or.inl rfl) (Or.inl rfl)
    .R6 .R5 .R2 6 5 2 rfl rfl rfl 20 10 11).2
  exact ⟨h1, h2⟩

/-- Claim C24: for every state, with a the value of the source register and s
the shift amount (a register value for LSL_r / LSR_r and their short forms, an
immediate operand for LSLI / LSRI in the 6-bit and 3-bit forms): logical shift
left returns Ok and sets the destination to (a * 2^(s mod 16)) mod 65536,
logical shift right returns Ok and sets it to floor(a / 2^(s mod 16)); the
register and immediate forms mask the amount the same way. -/
theorem C24_logical_shifts (sim : AAPSimulator) (oplr opli oprr opri : AAP.Opcode)
    (hlr : oplr = .LSL_r ∨ oplr = .LSL_r_short)
    (hli : opli = .LSLI_i6 ∨ opli = .LSLI_i3_short)
    (hrr : oprr = .LSR_r ∨ oprr = .LSR_r_short)
    (hri : opri = .LSRI_i6 ∨ opri = .LSRI_i3_short)
    (dst ra rb : AAP.Reg) (d ia ib : Nat)
    (hd : getLLVMReg dst = some d) (ha : getLLVMReg ra = some ia) (hb : getLLVMReg rb = some ib)
    (s : Int) (pc_w newpc_w : Nat) :
    (∃ r, exec sim ⟨oplr, [.createReg dst, .createReg ra, .createReg rb]⟩ pc_w newpc_w = some r ∧
      r.status = .SIM_OK ∧
      r.sim.State.getReg d =
        (sim.State.getReg ia * 2 ^ (sim.State.getReg ib % 16)) % 65536) ∧
    (∃ r, exec sim ⟨opli, [.createReg dst, .createReg ra, .createImm s]⟩ pc_w newpc_w = some r ∧
      r.status = .SIM_OK ∧
      r.sim.State.getReg d = (sim.State.getReg ia * 2 ^ (s % 16).toNat) % 65536) ∧
    (∃ r, exec sim ⟨oprr, [.createReg dst, .createReg ra, .createReg rb]⟩ pc_w newpc_w = some r ∧
      r.status = .SIM_OK ∧
      r.sim.State.getReg d = sim.State.getReg ia / 2 ^ (sim.State.getReg ib % 16)) ∧
    (∃ r, exec sim ⟨opri, [.createReg dst, .createReg ra, .createImm s]⟩ pc_w newpc_w = some r ∧
      r.status = .SIM_OK ∧
      r.sim.State.getReg d = sim.State.getReg ia / 2 ^ (s % 16).toNat) := by
  have hA := sim.State.getReg_lt ia
  refine ⟨?_, ?_, ?_, ?_⟩
  · obtain ⟨h0, h1, h2⟩ := regOperand_three oplr dst ra rb
    rcases hlr with rfl | rfl <;>
      simp [exec, MCInst.getOpcode, h0, h1, h2, hd, ha, hb, execOk, and_15, lsl_value]
  · obtain ⟨i0, i1, i2⟩ := regOperand_load opli dst ra s
    rcases hli with rfl | rfl <;>
      simp [exec, MCInst.getOpcode, i0, i1, i2, hd, ha, execOk, lsl_value]
  · obtain ⟨h0, h1, h2⟩ := regOperand_three oprr dst ra rb
    rcases hrr with rfl | rfl <;>
      simp [exec, MCInst.getOpcode, h0, h1, h2, hd, ha, hb, execOk, and_15, lsr_value _ hA]
  · obtain ⟨i0, i1, i2⟩ := regOperand_load opri dst ra s
    rcases hri with rfl | rfl <;>
      simp [exec, MCInst.getOpcode, i0, i1, i2, hd, ha, execOk, lsr_value _ hA]

/-- Claim C24 on concrete inputs: with R5 = 0x1234 and R4 = 0x0100 (shift
amount 0x0100 mod 16 = 0), LSL_r R6, R5, R4 leaves 0x1234; LSLI_i6 with
immediate 20 shifts by 4 and leaves 0x2340; LSR_r by R2 = 1 leaves 0x091A;
LSRI_i3_short with immediate 4 leaves 0x0123. -/
theorem C24_logical_shifts_witness :
    (∃ r, exec demoSim ⟨.LSL_r, [.createReg .R6, .createReg .R5, .createReg .R4]⟩ 10 11 =
        some r ∧ r.status = .SIM_OK ∧ r.sim.State.getReg 6 = 0x1234) ∧
    (∃ r, exec demoSim ⟨.LSLI_i6, [.createReg .R6, .createReg .R5, .createImm 20]⟩ 10 11 =
        some r ∧ r.status = .SIM_OK ∧ r.sim.State.getReg 6 = 0x2340) ∧
    (∃ r, exec demoSim ⟨.LSR_r, [.createReg .R6, .createReg .R5, .createReg .R2]⟩ 10 11 =
        some r ∧ r.status = .SIM_OK ∧ r.sim.State.getReg 6 = 0x091A) ∧
    (∃ r, exec demoSim ⟨.LSRI_i3_short, [.createReg .R6, .createReg .R5, .createImm 4]⟩ 10 11 =
        some r ∧ r.status = .SIM_OK ∧ r.sim.State.getReg 6 = 0x0123) := by
  have h1 := (C24_logical_shifts demoSim .LSL_r .LSLI_i6 .LSR_r .LSRI_i3_short
    (Or.inl rfl) (Or.inl rfl) (Or.inl rfl) (Or.inr rfl)
    .R6 .R5 .R4 6 5 4 rfl rfl rfl 20 10 11).1
  have h2 := (C24_logical_shifts demoSim .LSL_r .LSLI_i6 .LSR_r .LSRI_i3_short
    (Or.inl rfl) (Or.inl rfl) (Or.inl rfl) (Or.inr rfl)
    .R6 .R5 .R4 6 5 4 rfl rfl rfl 20 10 11).2.1
  have h3 := (C24_logical_shifts demoSim .LSL_r .LSLI_i6 .LSR_r .LSRI_i3_short
    (Or.inl rfl) (Or.inl rfl) (Or.inl rfl) (Or.inr rfl)
    .R6 .R5 .R2 6 5 2 rfl rfl rfl 4 10 11).2.2.1
  have h4 := (C24_logical_shifts demoSim .LSL_r .LSLI_i6 .LSR_r .LSRI_i3_short
    (Or.inl rfl) (Or.inl rfl) (Or.inl rfl) (Or.inr rfl)
    .R6 .R5 .R2 6 5 2 rfl rfl rfl 4 10 11).2.2.2
  exact ⟨h1, h2, h3, h4⟩

/-! ## Add-immediate and subtract-immediate (C25) -/

/-- Claim C26 as stated fails: BRA with signed offset operand o = -1 executed
at word address pc = 0 does not leave pc + o = -1 as next PC; the executor
computes the sum in `uint32_t` and leaves 4294967295. -/
theorem C26_relative_branch_counterexample :
    (exec demoSim ⟨.BRA, [.createImm (-1)]⟩ 0 1).map (fun r => (r.status, r.newpc_w))
      = some (.SIM_OK, 4294967295) ∧
    ((4294967295 : Nat) : Int) ≠ (0 : Int) + (-1) := by
  decide

/-- Claim C26, amended: for every state and every unconditional relative
branch (BRA, BRA_short) at word address pc with signed offset operand o, exec
returns Ok with next PC = (pc + o) mod 2^32, relative to the branch's own
address and not to the passed address of the following instruction; it is
pc + o itself whenever 0 <= pc + o < 2^32; the simulator is returned as it
was, so no register (no link register), no memory byte, no flag and no exit
code changes. -/
theorem C26_relative_branch (sim : AAPSimulator) (op : AAP.Opcode)
    (hop : op = .BRA ∨ op = .BRA_short) (o : Int) (pc_w newpc_w : Nat) :
    ∃ r, exec sim ⟨op, [.createImm o]⟩ pc_w newpc_w = some r ∧
      r.status = .SIM_OK ∧
      (r.newpc_w : Int) = ((pc_w : Int) + o) % 4294967296 ∧
      (0 ≤ (pc_w : Int) + o → (pc_w : Int) + o < 4294967296 →
        (r.newpc_w : Int) = (pc_w : Int) + o) ∧
      r.sim = sim := by
  have hi : immOperand ⟨op, [.createImm o]⟩ 0 = some o := by
    simp [immOperand, MCInst.getOperand, MCOperand.getImm]
  have hcalc : ((toUInt32 ((pc_w : Int) + toInt32 o) : Nat) : Int)
      = ((pc_w : Int) + o) % 4294967296 := by
    unfold toUInt32 toInt32
    simp only []
    split_ifs <;> omega
  have hexec : exec sim ⟨op, [.createImm o]⟩ pc_w newpc_w =
      some ⟨.SIM_OK, sim, toUInt32 ((pc_w : Int) + toInt32 o)⟩ := by
    rcases hop with rfl | rfl <;> simp [exec, MCInst.getOpcode, hi, execOk]
  refine ⟨_, hexec, rfl, hcalc, ?_, rfl⟩
  intro h0 h1
  simp only [hcalc]
  omega

/-- Claim C26 on concrete inputs: BRA with offset -3 at word address 10 and
BRA_short with offset 5 at word address 10 (passed next PC 11) return Ok with
next PC 7 and 15, and the simulator is unchanged. -/
theorem C26_relative_branch_witness :
    (∃ r, exec demoSim ⟨.BRA, [.createImm (-3)]⟩ 10 11 = some r ∧
      r.status = .SIM_OK ∧ (r.newpc_w : Int) = 7 ∧ r.sim = demoSim) ∧
    (∃ r, exec demoSim ⟨.BRA_short, [.createImm 5]⟩ 10 11 = some r ∧
      r.status = .SIM_OK ∧ (r.newpc_w : Int) = 15 ∧ r.sim = demoSim) := by
  obtain ⟨r, he, hs, _, hpc, hsim⟩ :=
    C26_relative_branch demoSim .BRA (Or.inl rfl) (-3) 10 11
  obtain ⟨r2, he2, hs2, _, hpc2, hsim2⟩ :=
    C26_relative_branch demoSim .BRA_short (Or.inr rfl) 5 10 11
  exact ⟨⟨r, he, hs, (hpc (by decide) (by decide)).trans (by decide), hsim⟩,
    ⟨r2, he2, hs2, (hpc2 (by decide) (by decide)).trans (by decide), hsim2⟩⟩

/-! ## The value a store writes (C28) -/

/-- What `exec` leaves alone, for an arbitrary opcode and operand list: the
exit code unless the instruction is the quit NOP, the data memory unless the
instruction is a store, and the code memory always. -/
theorem exec_frame_state (sim : AAPSimulator) (op : AAP.Opcode) (ops : List MCOperand)
    (pc_w newpc_w : Nat) (r : ExecResult)
    (h : exec sim ⟨op, ops⟩ pc_w newpc_w = some r) :
    (¬ isQuitNop ⟨op, ops⟩ → r.sim.State.getExitCode = sim.State.getExitCode) ∧
    (storeOpcode op = false → r.sim.State.data_memory = sim.State.data_memory) ∧
    r.sim.State.code_memory = sim.State.code_memory := by
  by_cases hn : nopOpcode op = true
  · have hop : op = .NOP ∨ op = .NOP_short := by
      cases op <;> simp [nopOpcode] at hn <;> simp
    rcases hop with rfl | rfl <;>
    · simp [exec, MCInst.getOpcode, execOk, Option.bind_eq_some] at h
      obtain ⟨reg, hreg, c, hc, h⟩ := h
      split_ifs at h <;> simp only [Option.some.injEq] at h <;> subst h <;>
        refine ⟨fun hq => ?_, fun _ => rfl, rfl⟩ <;>
        first
        | exact absurd ⟨rfl, c, hc, by assumption⟩ hq
        | rfl
  · cases op <;> simp [nopOpcode] at hn <;>
    · simp [exec, execLoad, execStore, execLink, execBranchCC, MCInst.getOpcode, execOk,
        Option.bind_eq_some] at h
      repeat (obtain ⟨_, _, h⟩ := h)
      refine ⟨fun _ => rfl, fun hf => ?_, rfl⟩
      first | (simp [storeOpcode] at hf; done) | rfl

/-- Claim C27: the exit code is written only by the quit NOP: for every state
and every instruction other than NOP / NOP_short with command code 2, a
result of exec has the exit code equal to its value before the instruction. -/
theorem C27_exit_code_frame (sim : AAPSimulator) (Inst : MCInst) (pc_w newpc_w : Nat)
    (r : ExecResult) (h : exec sim Inst pc_w newpc_w = some r) (hq : ¬ isQuitNop Inst) :
    r.sim.State.getExitCode = sim.State.getExitCode :=
  (exec_frame_state sim Inst.Opcode Inst.Operands pc_w newpc_w r h).1 hq

/-- Claim C27 on concrete inputs: in a state whose exit code is 7, the
character-output NOP (command 3, not the quit NOP) on R5 = 0x1234 and the
word store STW R5, 0, R1 both leave the exit code at 7. -/
theorem C27_exit_code_frame_witness :
    ¬ isQuitNop ⟨.NOP, [.createReg .R5, .createImm 3]⟩ ∧
    ¬ isQuitNop ⟨.STW, [.createReg .R5, .createImm 0, .createReg .R1]⟩ ∧
    (∃ r, exec ⟨demoState.setExitCode 7, [], []⟩
        ⟨.NOP, [.createReg .R5, .createImm 3]⟩ 10 11 = some r ∧
      r.status = .SIM_OK ∧ r.sim.outs = [0x34] ∧ r.sim.State.getExitCode = 7) ∧
    (∃ r, exec ⟨demoState.setExitCode 7, [], []⟩
        ⟨.STW, [.createReg .R5, .createImm 0, .createReg .R1]⟩ 10 11 = some r ∧
      r.status = .SIM_OK ∧ r.sim.State.getDataMem 0x1234 = 0x34 ∧
      r.sim.State.getExitCode = 7) := by
  have hq1 : ¬ isQuitNop ⟨.NOP, [.createReg .R5, .createImm 3]⟩ := by
    rintro ⟨_, c, hc, h2⟩
    simp [immOperand, MCInst.getOperand, MCOperand.getImm] at hc
    subst hc
    exact absurd h2 (by decide)
  have hq2 : ¬ isQuitNop ⟨.STW, [.createReg .R5, .createImm 0, .createReg .R1]⟩ := by
    rintro ⟨hn, _⟩
    exact absurd hn (by decide)
  have e1 : exec ⟨demoState.setExitCode 7, [], []⟩
      ⟨.NOP, [.createReg .R5, .createImm 3]⟩ 10 11 =
      some ⟨.SIM_OK, ⟨demoState.setExitCode 7, [0x34], []⟩, 11⟩ := rfl
  have e2 : exec ⟨demoState.setExitCode 7, [], []⟩
      ⟨.STW, [.createReg .R5, .createImm 0, .createReg .R1]⟩ 10 11 =
      some ⟨.SIM_OK, ⟨(((demoState.setExitCode 7).setReg 5 0x1234).setDataMem 0x1234
        0x34).setDataMem 0x1235 0x12, [], []⟩, 11⟩ := rfl
  exact ⟨hq1, hq2,
    ⟨_, e1, rfl, rfl, C27_exit_code_frame _ _ 10 11 _ e1 hq1⟩,
    ⟨_, e2, rfl, rfl, C27_exit_code_frame _ _ 10 11 _ e2 hq2⟩⟩

/-! ## Immediate decoders (C31, C32) -/

/-- Claim C31: for every field value v, decodeOff3Operand succeeds and
appends the immediate w with -4 <= w <= 3 and w congruent to v modulo 8, and
decodeOff10Operand succeeds and appends the immediate w with
-512 <= w <= 511 and w congruent to v modulo 1024; on values already in range
(v < 4, resp. v < 512) the appended immediate is v itself. -/
theorem C31_small_signed_immediate (Inst : MCInst) (v : Nat) :
    (∃ w : Int,
      decodeOff3Operand Inst v = (.Success, ⟨Inst.Opcode, Inst.Operands ++ [.createImm w]⟩) ∧
      -4 ≤ w ∧ w ≤ 3 ∧ w % 8 = (v : Int) % 8 ∧ (v < 4 → w = v)) ∧
    (∃ w : Int,
      decodeOff10Operand Inst v = (.Success, ⟨Inst.Opcode, Inst.Operands ++ [.createImm w]⟩) ∧
      -512 ≤ w ∧ w ≤ 511 ∧ w % 1024 = (v : Int) % 1024 ∧ (v < 512 → w = v)) := by
  constructor
  · refine ⟨SignExtend32 3 v, rfl, ?_⟩
    rw [SignExtend32_3]
    unfold sext3
    split_ifs <;> omega
  · refine ⟨SignExtend32 10 v, rfl, ?_⟩
    rw [SignExtend32_10]
    unfold sext10
    split_ifs <;> omega

/-- Claim C31 on concrete inputs: the 3-bit field 7 decodes to -1 and the
10-bit field 0x200 decodes to -512; the 3-bit field 3 decodes to 3. -/
theorem C31_small_signed_immediate_witness :
    decodeOff3Operand MCInst.fresh 7 = (.Success, ⟨.other, [.createImm (-1)]⟩) ∧
    decodeOff10Operand MCInst.fresh 0x200 = (.Success, ⟨.other, [.createImm (-512)]⟩) ∧
    (∃ w : Int, decodeOff3Operand MCInst.fresh 3 = (.Success, ⟨.other, [.createImm w]⟩) ∧
      w = 3) := by
  obtain ⟨w, hw, _, _, _, hid⟩ := (C31_small_signed_immediate MCInst.fresh 3).1
  exact ⟨by decide, by decide, w, hw, hid (by decide)⟩

/-- Claim C32: for every encoded shift field value f in [0, 63],
decodeShiftOperand succeeds and appends the immediate f + 1, so the decoded
shift amount lies in [1, 64] and is never zero. -/
theorem C32_shift_amount_decode (Inst : MCInst) (f : Nat) (hf : f ≤ 63) :
    decodeShiftOperand Inst f =
      (.Success, ⟨Inst.Opcode, Inst.Operands ++ [.createImm ((f : Int) + 1)]⟩) ∧
    1 ≤ (f : Int) + 1 ∧ (f : Int) + 1 ≤ 64 ∧ (f : Int) + 1 ≠ 0 := by
  have h : (f + 1) % 4294967296 = f + 1 := Nat.mod_eq_of_lt (by omega)
  refine ⟨?_, by omega, by omega, by omega⟩
  simp [decodeShiftOperand, MCInst.addOperand, h]

/-- Claim C32 on concrete inputs: the fields 0 and 63 decode to the shift
amounts 1 and 64. -/
theorem C32_shift_amount_decode_witness :
    (0 : Nat) ≤ 63 ∧ (63 : Nat) ≤ 63 ∧
    decodeShiftOperand MCInst.fresh 0 = (.Success, ⟨.other, [.createImm 1]⟩) ∧
    decodeShiftOperand MCInst.fresh 63 = (.Success, ⟨.other, [.createImm 64]⟩) :=
  ⟨by decide, by decide, (C32_shift_amount_decode MCInst.fresh 0 (by decide)).1,
    (C32_shift_amount_decode MCInst.fresh 63 (by decide)).1⟩

/-! ## The register tables and the simulator's register index (C39) -/

/-- Claim C39: for every i < 64, getLLVMReg applied to the i-th entry of the
full table AAPRegs64 returns i, and for every i < 8, getLLVMReg applied to the
i-th entry of the narrow table AAPRegs8 returns i; hence every register
operand a register-class decoder or a memory-source decoder appends maps to
an index below 64 (below 8 for the narrow class), so getLLVMReg never reaches
its unreachable default on it. -/
theorem C39_register_index_inverts_tables (Inst : MCInst) (n : Nat) :
    AAPRegs64.length = 64 ∧ AAPRegs8.length = 8 ∧
    (∀ i r, AAPRegs64.get? i = some r → getLLVMReg r = some i ∧ i < 64) ∧
    (∀ i r, AAPRegs8.get? i = some r → getLLVMReg r = some i ∧ i < 8) ∧
    ((DecodeGR64RegisterClass Inst n).1 = .Success →
      ∃ r i, (DecodeGR64RegisterClass Inst n).2.Operands = Inst.Operands ++ [.createReg r] ∧
        getLLVMReg r = some i ∧ i < 64) ∧
    ((DecodeGR8RegisterClass Inst n).1 = .Success →
      ∃ r i, (DecodeGR8RegisterClass Inst n).2.Operands = Inst.Operands ++ [.createReg r] ∧
        getLLVMReg r = some i ∧ i < 8) ∧
    (∃ r i k, (decodeMemSrc10Operand Inst n).2.Operands =
        Inst.Operands ++ [.createReg r, .createImm k] ∧ getLLVMReg r = some i ∧ i < 64) ∧
    (∃ r i k, (decodeMemSrc3Operand Inst n).2.Operands =
        Inst.Operands ++ [.createReg r, .createImm k] ∧ getLLVMReg r = some i ∧ i < 8) := by
  have t64 : ∀ i r, AAPRegs64.get? i = some r → getLLVMReg r = some i ∧ i < 64 := by
    intro i r h
    obtain ⟨hlt, hget⟩ := List.get?_eq_some.mp h
    exact ⟨hget ▸ getLLVMReg_AAPRegs64 i hlt, hlt⟩
  have t8 : ∀ i r, AAPRegs8.get? i = some r → getLLVMReg r = some i ∧ i < 8 := by
    intro i r h
    obtain ⟨hlt, hget⟩ := List.get?_eq_some.mp h
    exact ⟨hget ▸ getLLVMReg_AAPRegs8 i hlt, hlt⟩
  refine ⟨rfl, rfl, t64, t8, ?_, ?_, ?_, ?_⟩
  · intro hs
    by_cases h : n < AAPRegs64.length
    · refine ⟨_, n, ?_, getLLVMReg_AAPRegs64 n h, h⟩
      simp [DecodeGR64RegisterClass, decodeRegisterClass_lt Inst n AAPRegs64 h]
    · simp [DecodeGR64RegisterClass, decodeRegisterClass_ge Inst n AAPRegs64 h] at hs
  · intro hs
    by_cases h : n < AAPRegs8.length
    · refine ⟨_, n, ?_, getLLVMReg_AAPRegs8 n h, h⟩
      simp [DecodeGR8RegisterClass, decodeRegisterClass_lt Inst n AAPRegs8 h]
    · simp [DecodeGR8RegisterClass, decodeRegisterClass_ge Inst n AAPRegs8 h] at hs
  · have hr : (n >>> 16) &&& 0x3f = (n / 65536) % 64 := by
      rw [Nat.shiftRight_eq_div_pow]
      exact Nat.and_pow_two_sub_one_eq_mod _ 6
    have h : (n / 65536) % 64 < AAPRegs64.length := Nat.mod_lt _ (by decide)
    refine ⟨_, _, SignExtend32 10 (n &&& 0xffff), ?_, getLLVMReg_AAPRegs64 _ h, h⟩
    simp only [decodeMemSrc10Operand, hr, decodeRegisterClass_lt Inst _ AAPRegs64 h]
    simp [MCInst.addOperand]
  · have hr : (n >>> 16) &&& 0x7 = (n / 65536) % 8 := by
      rw [Nat.shiftRight_eq_div_pow]
      exact Nat.and_pow_two_sub_one_eq_mod _ 3
    have h : (n / 65536) % 8 < AAPRegs8.length := Nat.mod_lt _ (by decide)
    refine ⟨_, _, SignExtend32 3 (n &&& 0xffff), ?_, getLLVMReg_AAPRegs8 _ h, h⟩
    simp only [decodeMemSrc3Operand, hr, decodeRegisterClass_lt Inst _ AAPRegs8 h]
    simp [MCInst.addOperand]

/-- Claim C39 on concrete inputs: entry 63 of the full table is the register
with index 63, entry 7 of the narrow table the register with index 7, and the
operand decoded from field value 40 in the full class has index 40. -/
theorem C39_register_index_inverts_tables_witness :
    AAPRegs64.get? 63 = some .R63 ∧ getLLVMReg .R63 = some 63 ∧
    AAPRegs8.get? 7 = some .R7 ∧ getLLVMReg .R7 = some 7 ∧
    (∃ r i, (DecodeGR64RegisterClass MCInst.fresh 40).2.Operands = [.createReg r] ∧
      getLLVMReg r = some i ∧ i < 64) :=
  ⟨rfl, ((C39_register_index_inverts_tables MCInst.fresh 40).2.2.1 63 .R63 rfl).1,
    rfl, ((C39_register_index_inverts_tables MCInst.fresh 40).2.2.2.1 7 .R7 rfl).1,
    (C39_register_index_inverts_tables MCInst.fresh 40).2.2.2.2.1 (by decide)⟩

/-! ## Shift decode composed with execute (C33) -/

/-- Claim C33: for an immediate shift (LSLI_i6, LSRI_i6, ASRI_i6) whose
encoded 6-bit field is f, decoding the field with decodeShiftOperand onto the
instruction with its two register operands and executing the result performs a
shift by (f + 1) mod 16, although the decoded operand f + 1 is never zero;
hence for f in {15, 31, 47, 63} (decoded amounts 16, 32, 48, 64) the
destination receives the source value unchanged. -/
theorem C33_shift_decode_execute (sim : AAPSimulator) (f : Nat) (hf : f ≤ 63)
    (dst ra : AAP.Reg) (d ia : Nat)
    (hd : getLLVMReg dst = some d) (ha : getLLVMReg ra = some ia) (pc_w newpc_w : Nat) :
    (∃ r, exec sim (decodeShiftOperand ⟨.LSLI_i6, [.createReg dst, .createReg ra]⟩ f).2
        pc_w newpc_w = some r ∧ r.status = .SIM_OK ∧
      r.sim.State.getReg d = (sim.State.getReg ia * 2 ^ ((f + 1) % 16)) % 65536 ∧
      (f = 15 ∨ f = 31 ∨ f = 47 ∨ f = 63 → r.sim.State.getReg d = sim.State.getReg ia)) ∧
    (∃ r, exec sim (decodeShiftOperand ⟨.LSRI_i6, [.createReg dst, .createReg ra]⟩ f).2
        pc_w newpc_w = some r ∧ r.status = .SIM_OK ∧
      r.sim.State.getReg d = sim.State.getReg ia / 2 ^ ((f + 1) % 16) ∧
      (f = 15 ∨ f = 31 ∨ f = 47 ∨ f = 63 → r.sim.State.getReg d = sim.State.getReg ia)) ∧
    (∃ r, exec sim (decodeShiftOperand ⟨.ASRI_i6, [.createReg dst, .createReg ra]⟩ f).2
        pc_w newpc_w = some r ∧ r.status = .SIM_OK ∧
      r.sim.State.getReg d =
        ((sext16 (sim.State.getReg ia) / 2 ^ ((f + 1) % 16)) % 65536).toNat ∧
      (f = 15 ∨ f = 31 ∨ f = 47 ∨ f = 63 → r.sim.State.getReg d = sim.State.getReg ia)) ∧
    (∀ op, ∃ w : Int,
      (decodeShiftOperand ⟨op, [.createReg dst, .createReg ra]⟩ f).2 =
        ⟨op, [.createReg dst, .createReg ra, .createImm w]⟩ ∧ w ≠ 0) := by
  have hA := sim.State.getReg_lt ia
  have hmod : (f + 1) % 4294967296 = f + 1 := Nat.mod_eq_of_lt (by omega)
  have hdec : ∀ op, (decodeShiftOperand ⟨op, [.createReg dst, .createReg ra]⟩ f).2 =
      ⟨op, [.createReg dst, .createReg ra, .createImm ((f + 1 : Nat) : Int)]⟩ := by
    intro op
    simp [decodeShiftOperand, MCInst.addOperand, hmod]
  have hamt : ((((f + 1 : Nat) : Int)) % 16).toNat = (f + 1) % 16 := by omega
  have hse := sext16_emod (sim.State.getReg ia)
  refine ⟨?_, ?_, ?_, fun op => ⟨_, hdec op, by omega⟩⟩
  · obtain ⟨i0, i1, i2⟩ := regOperand_load .LSLI_i6 dst ra ((f + 1 : Nat) : Int)
    rw [hdec]
    simp only [exec, MCInst.getOpcode, i0, i1, i2, hd, ha, execOk, hamt, Option.bind_eq_bind,
      Option.some_bind, lsl_value]
    refine ⟨_, rfl, rfl, by simp, ?_⟩
    rintro (rfl | rfl | rfl | rfl) <;> simp <;> omega
  · obtain ⟨i0, i1, i2⟩ := regOperand_load .LSRI_i6 dst ra ((f + 1 : Nat) : Int)
    rw [hdec]
    simp only [exec, MCInst.getOpcode, i0, i1, i2, hd, ha, execOk, hamt, Option.bind_eq_bind,
      Option.some_bind]
    refine ⟨_, rfl, rfl, by simp [lsr_value _ hA], ?_⟩
    rintro (rfl | rfl | rfl | rfl) <;> simp <;> omega
  · obtain ⟨i0, i1, i2⟩ := regOperand_load .ASRI_i6 dst ra ((f + 1 : Nat) : Int)
    rw [hdec]
    simp only [exec, MCInst.getOpcode, i0, i1, i2, hd, ha, execOk, hamt, Option.bind_eq_bind,
      Option.some_bind]
    refine ⟨_, rfl, rfl, by simp [asr_value _ hA], ?_⟩
    rintro (rfl | rfl | rfl | rfl) <;> simp [asr_value _ hA] <;> omega

/-- Claim C33 on concrete inputs: with R5 = 0x1234, the encoded field 15
(decoded amount 16) leaves 0x1234 in the destination of LSLI_i6, LSRI_i6 and
ASRI_i6, and the encoded field 3 (decoded amount 4) makes LSLI_i6 leave
0x2340. -/
theorem C33_shift_decode_execute_witness :
    (15 : Nat) ≤ 63 ∧
    (∃ r, exec demoSim (decodeShiftOperand ⟨.LSLI_i6, [.createReg .R6, .createReg .R5]⟩ 15).2
        10 12 = some r ∧ r.status = .SIM_OK ∧ r.sim.State.getReg 6 = 0x1234) ∧
    (∃ r, exec demoSim (decodeShiftOperand ⟨.LSRI_i6, [.createReg .R6, .createReg .R5]⟩ 15).2
        10 12 = some r ∧ r.status = .SIM_OK ∧ r.sim.State.getReg 6 = 0x1234) ∧
    (∃ r, exec demoSim (decodeShiftOperand ⟨.ASRI_i6, [.createReg .R6, .createReg .R5]⟩ 15).2
        10 12 = some r ∧ r.status = .SIM_OK ∧ r.sim.State.getReg 6 = 0x1234) ∧
    (∃ r, exec demoSim (decodeShiftOperand ⟨.LSLI_i6, [.createReg .R6, .createReg .R5]⟩ 3).2
        10 12 = some r ∧ r.status = .SIM_OK ∧ r.sim.State.getReg 6 = 0x2340) := by
  obtain ⟨⟨r1, e1, s1, _, z1⟩, ⟨r2, e2, s2, _, z2⟩, ⟨r3, e3, s3, _, z3⟩, _⟩ :=
    C33_shift_decode_execute demoSim 15 (by decide) .R6 .R5 6 5 rfl rfl 10 12
  obtain ⟨⟨r4, e4, s4, v4, _⟩, _⟩ :=
    C33_shift_decode_execute demoSim 3 (by decide) .R6 .R5 6 5 rfl rfl 10 12
  exact ⟨by decide, ⟨r1, e1, s1, z1 (Or.inl rfl)⟩, ⟨r2, e2, s2, z2 (Or.inl rfl)⟩,
    ⟨r3, e3, s3, z3 (Or.inl rfl)⟩, ⟨r4, e4, s4, v4⟩⟩

/-! ## The overflow flag as a sign rule (C34, C35) -/

theorem bit15_eq (n : Nat) (hn : n < 65536) : bit15 n = decide (32768 ≤ n) := by
  unfold bit15
  rw [Nat.testBit_to_div_mod]
  congr 1
  apply propext
  constructor <;> intro h <;> omega

/-- Claim C35: the 32-bit comparison used for ADD is equivalent to the
classical sign rule: for all 16-bit register values a, b, the overflow flag
after ADD_r / ADD_r_short is 1 if and only if a and b have the same bit 15 and
bit 15 of (a + b) mod 65536 differs from it, and 0 otherwise; after SUB_r /
SUB_r_short it is 1 iff a and b have different bit 15 and bit 15 of
(a - b) mod 65536 differs from bit 15 of a, and 0 otherwise. -/
theorem C35_overflow_sign_rule (sim : AAPSimulator) (opa ops : AAP.Opcode)
    (hopa : opa = .ADD_r ∨ opa = .ADD_r_short) (hops : ops = .SUB_r ∨ ops = .SUB_r_short)
    (dst ra rb : AAP.Reg) (d ia ib : Nat)
    (hd : getLLVMReg dst = some d) (ha : getLLVMReg ra = some ia) (hb : getLLVMReg rb = some ib)
    (pc_w newpc_w : Nat) :
    (∃ r, exec sim ⟨opa, [.createReg dst, .createReg ra, .createReg rb]⟩ pc_w newpc_w = some r ∧
      (r.sim.State.getOverflow = 1 ↔
        signRuleAdd (sim.State.getReg ia) (sim.State.getReg ib) = true) ∧
      (r.sim.State.getOverflow = 0 ↔
        signRuleAdd (sim.State.getReg ia) (sim.State.getReg ib) = false)) ∧
    (∃ r, exec sim ⟨ops, [.createReg dst, .createReg ra, .createReg rb]⟩ pc_w newpc_w = some r ∧
      (r.sim.State.getOverflow = 1 ↔
        signRuleSub (sim.State.getReg ia) (sim.State.getReg ib) = true) ∧
      (r.sim.State.getOverflow = 0 ↔
        signRuleSub (sim.State.getReg ia) (sim.State.getReg ib) = false)) := by
  have hA := sim.State.getReg_lt ia
  have hB := sim.State.getReg_lt ib
  have hsa := sext16_bounds _ hA
  have hsb := sext16_bounds _ hB
  have bA := bit15_eq _ hA
  have bB := bit15_eq _ hB
  constructor
  · have hconv := toUInt32_signExtend16_add _ _ 0 hA hB
    simp only [add_zero] at hconv
    obtain ⟨_, e2, e3⟩ := addsub_effect sim.State d
      (sext16 (sim.State.getReg ia) + sext16 (sim.State.getReg ib)) (by omega) (by omega)
    have hexec := exec_ADD_eq sim opa hopa dst ra rb d ia ib hd ha hb pc_w newpc_w
    rw [hconv] at hexec
    have bS := bit15_eq ((sim.State.getReg ia + sim.State.getReg ib) % 65536)
      (Nat.mod_lt _ (by decide))
    have hrule : signRuleAdd (sim.State.getReg ia) (sim.State.getReg ib) = true ↔
        ¬ fitsInt16 (sext16 (sim.State.getReg ia) + sext16 (sim.State.getReg ib)) := by
      unfold signRuleAdd fitsInt16 sext16
      rw [bA, bB, bS]
      simp only [Bool.and_eq_true, beq_iff_eq, bne_iff_ne, ne_eq, decide_eq_decide]
      split_ifs <;> constructor <;> intro h <;> omega
    refine ⟨_, hexec, e2.trans hrule.symm, e3.trans ?_⟩
    rw [← Bool.not_eq_true, hrule, not_not]
  · have hconv := toUInt32_signExtend16_sub _ _ 0 hA hB
    simp only [sub_zero] at hconv
    obtain ⟨_, e2, e3⟩ := addsub_effect sim.State d
      (sext16 (sim.State.getReg ia) - sext16 (sim.State.getReg ib)) (by omega) (by omega)
    have hexec := exec_SUB_eq sim ops hops dst ra rb d ia ib hd ha hb pc_w newpc_w
    rw [hconv] at hexec
    have hlt : ((((sim.State.getReg ia : Int) - sim.State.getReg ib) % 65536).toNat) < 65536 := by
      omega
    have bS := bit15_eq _ hlt
    have hrule : signRuleSub (sim.State.getReg ia) (sim.State.getReg ib) = true ↔
        ¬ fitsInt16 (sext16 (sim.State.getReg ia) - sext16 (sim.State.getReg ib)) := by
      unfold signRuleSub fitsInt16 sext16
      rw [bA, bB, bS]
      simp only [Bool.and_eq_true, beq_iff_eq, bne_iff_ne, ne_eq, decide_eq_decide]
      split_ifs <;> constructor <;> intro h <;> omega
    refine ⟨_, hexec, e2.trans hrule.symm, e3.trans ?_⟩
    rw [← Bool.not_eq_true, hrule, not_not]

/-- Claim C35 on concrete inputs: ADD_r on R3 = 0x7FFF and R2 = 1 (same bit
15, sum 0x8000 with the other bit 15) sets the flag, and SUB_r on R1 = 0xFFFF
and R2 = 1 (different bit 15, difference 0xFFFE with the bit 15 of R1)
clears it. -/
theorem C35_overflow_sign_rule_witness :
    signRuleAdd 0x7FFF 1 = true ∧ signRuleSub 0xFFFF 1 = false ∧
    (∃ r, exec demoSim ⟨.ADD_r, [.createReg .R0, .createReg .R3, .createReg .R2]⟩ 10 12
        = some r ∧ r.sim.State.getOverflow = 1) ∧
    (∃ r, exec demoSim ⟨.SUB_r, [.createReg .R0, .createReg .R1, .createReg .R2]⟩ 10 12
        = some r ∧ r.sim.State.getOverflow = 0) := by
  obtain ⟨⟨r1, e1, h1, _⟩, _⟩ :=
    C35_overflow_sign_rule demoSim .ADD_r .SUB_r (Or.inl rfl) (Or.inl rfl)
      .R0 .R3 .R2 0 3 2 rfl rfl rfl 10 12
  obtain ⟨_, ⟨r2, e2, _, h2⟩⟩ :=
    C35_overflow_sign_rule demoSim .ADD_r .SUB_r (Or.inl rfl) (Or.inl rfl)
      .R0 .R1 .R2 0 1 2 rfl rfl rfl 10 12
  exact ⟨by decide, by decide, ⟨r1, e1, h1.mpr (by decide)⟩, ⟨r2, e2, h2.mpr (by decide)⟩⟩

/-- Claim C34: the flag written by ADD is signed overflow and not the
unsigned carry-out, so it does not chain multi-word addition.  In every state
whose registers hold the 32-bit values x = 0x0000FFFF and y = 0x00000001 as
low and high words (low words a = 0xFFFF and b = 0x0001, with
a + b >= 65536), ADD_r / ADD_r_short on the low words leaves the flag at 0,
and ADDC_r on the high words executed next yields high word 0 and low word
0, a 32-bit result different from (x + y) mod 2^32 = 0x00010000. -/
theorem C34_overflow_is_not_carry (sim : AAPSimulator) (op : AAP.Opcode)
    (hop : op = .ADD_r ∨ op = .ADD_r_short)
    (rdl rxl ryl rdh rxh ryh : AAP.Reg) (dl xl yl dh xh yh : Nat)
    (hdl : getLLVMReg rdl = some dl) (hxl : getLLVMReg rxl = some xl)
    (hyl : getLLVMReg ryl = some yl) (hdh : getLLVMReg rdh = some dh)
    (hxh : getLLVMReg rxh = some xh) (hyh : getLLVMReg ryh = some yh)
    (vxl : sim.State.getReg xl = 0xFFFF) (vyl : sim.State.getReg yl = 0x0001)
    (vxh : sim.State.getReg xh = 0) (vyh : sim.State.getReg yh = 0)
    (n1 : xh ≠ dl) (n2 : yh ≠ dl) (n3 : dl ≠ dh) (pc_w newpc_w pc2_w newpc2_w : Nat) :
    65536 ≤ sim.State.getReg xl + sim.State.getReg yl ∧
    ∃ r1, exec sim ⟨op, [.createReg rdl, .createReg rxl, .createReg ryl]⟩ pc_w newpc_w
        = some r1 ∧
      r1.status = .SIM_OK ∧ r1.sim.State.getOverflow = 0 ∧
      ∃ r2, exec r1.sim ⟨.ADDC_r, [.createReg rdh, .createReg rxh, .createReg ryh]⟩
          pc2_w newpc2_w = some r2 ∧
        r2.status = .SIM_OK ∧
        r2.sim.State.getReg dh = 0 ∧ r2.sim.State.getReg dl = 0 ∧
        65536 * r2.sim.State.getReg dh + r2.sim.State.getReg dl ≠
          ((65536 * sim.State.getReg xh + sim.State.getReg xl) +
            (65536 * sim.State.getReg yh + sim.State.getReg yl)) % 4294967296 := by
  have hv1 : toUInt32 ((signExtend16 0xFFFF : Int) + signExtend16 0x0001) = 0 := by decide
  have hv2 : toUInt32 ((signExtend16 0 : Int) + signExtend16 0 + (0 : Nat)) = 0 := by decide
  have ho : overflowOf 0 = 0 := by decide
  have hexec := exec_ADD_eq sim op hop rdl rxl ryl dl xl yl hdl hxl hyl pc_w newpc_w
  rw [vxl, vyl, hv1, ho] at hexec
  refine ⟨by omega, _, hexec, rfl, by simp, ?_⟩
  have hexec2 := exec_ADDC_eq
    ⟨(sim.State.setReg dl (0 % 65536)).setOverflow 0, sim.outs, sim.errs⟩
    rdh rxh ryh dh xh yh hdh hxh hyh pc2_w newpc2_w
  simp only [AAPSimState.getReg_setOverflow, AAPSimState.getReg_setReg_of_ne _ _ n1,
    AAPSimState.getReg_setReg_of_ne _ _ n2, AAPSimState.getOverflow_setOverflow, vxh, vyh,
    Nat.zero_mod, hv2, ho] at hexec2
  refine ⟨_, hexec2, rfl, by simp, ?_, ?_⟩
  · simp [AAPSimState.getReg_setReg_of_ne _ _ n3]
  · simp [AAPSimState.getReg_setReg_of_ne _ _ n3, vxh, vyh, vxl, vyl]

/-- Claim C34 on a concrete input: with R1 = 0xFFFF, R2 = 1 as the low words
and R8 = R9 = 0 as the high words, ADD_r R10, R1, R2 followed by
ADDC_r R11, R8, R9 leaves the flag at 0 after the ADD and 0 in both R10 and
R11, while (0x0000FFFF + 0x00000001) mod 2^32 = 0x00010000. -/
theorem C34_overflow_is_not_carry_witness :
    demoSim.State.getReg 1 = 0xFFFF ∧ demoSim.State.getReg 2 = 0x0001 ∧
    demoSim.State.getReg 8 = 0 ∧ demoSim.State.getReg 9 = 0 ∧
    ∃ r1, exec demoSim ⟨.ADD_r, [.createReg .R10, .createReg .R1, .createReg .R2]⟩ 10 12
        = some r1 ∧
      r1.sim.State.getOverflow = 0 ∧
      ∃ r2, exec r1.sim ⟨.ADDC_r, [.createReg .R11, .createReg .R8, .createReg .R9]⟩ 12 14
          = some r2 ∧
        r2.sim.State.getReg 11 = 0 ∧ r2.sim.State.getReg 10 = 0 ∧
        65536 * r2.sim.State.getReg 11 + r2.sim.State.getReg 10 ≠ 0x00010000 := by
  obtain ⟨_, r1, e1, _, o1, r2, e2, _, g1, g2, hne⟩ :=
    C34_overflow_is_not_carry demoSim .ADD_r (Or.inl rfl)
      .R10 .R1 .R2 .R11 .R8 .R9 10 1 2 11 8 9 rfl rfl rfl rfl rfl rfl rfl rfl rfl rfl
      (by decide) (by decide) (by decide) 10 12 12 14
  exact ⟨rfl, rfl, rfl, rfl, r1, e1, o1, r2, e2, g1, g2, hne⟩

/-! ## Loads whose destination is the pointer register (C36) -/

/-- Claim C36: for every load whose destination register is also its pointer
register (Rd = Rm, pointer value p, signed offset k): in a post-increment load
the register ends as (p + size) mod 65536 (size 2 for a word, 1 for a byte),
whatever the memory holds, so the loaded value is discarded; in a plain or
pre-decrement load the register ends as the value loaded from memory at the
effective address (the byte there, or mem[EA] + 256 * mem[EA + 1] for a word),
so the pointer update is overwritten. -/
theorem C36_load_into_pointer (sim : AAPSimulator) (op : AAP.Opcode)
    (hop : loadOpcode op = true) (R : AAP.Reg) (m : Nat) (hm : getLLVMReg R = some m)
    (k : Int) (pc_w newpc_w : Nat) :
    ∃ r, exec sim ⟨op, [.createReg R, .createReg R, .createImm k]⟩ pc_w newpc_w = some r ∧
      r.status = .SIM_OK ∧
      (postincLoadOpcode op = true →
        r.sim.State.getReg m =
          (sim.State.getReg m + (if wordLoadOpcode op then 2 else 1)) % 65536) ∧
      (postincLoadOpcode op = false → wordLoadOpcode op = false →
        r.sim.State.getReg m =
          sim.State.getDataMem (effAddr (loadPointer op (sim.State.getReg m)) k)) ∧
      (postincLoadOpcode op = false → wordLoadOpcode op = true →
        r.sim.State.getReg m =
          sim.State.getDataMem (effAddr (loadPointer op (sim.State.getReg m)) k) +
            256 * sim.State.getDataMem (effAddr (loadPointer op (sim.State.getReg m)) k + 1)) := by
  have hp := sim.State.getReg_lt m
  have hmem : ∀ a, sim.State.getDataMem a < 256 := sim.State.getDataMem_lt
  have hw : ∀ a b, (sim.State.getDataMem a ||| sim.State.getDataMem b <<< 8) =
      sim.State.getDataMem a + 256 * sim.State.getDataMem b :=
    fun a b => or_shiftLeft_8 _ _ (hmem a)
  obtain ⟨h0, h1, h2⟩ := regOperand_load op R R k
  have hpt : ∀ x : Int, (x % 65536).toNat = toUInt16 x := fun _ => rfl
  cases op <;> simp [loadOpcode] at hop <;>
  · simp [exec, execLoad, MCInst.getOpcode, h0, h1, h2, hm, execOk, toUInt16_add_toInt32,
      AAPSimState.getReg_setReg, hw, Nat.mod_eq_of_lt hp, wordLoadOpcode,
      predecLoadOpcode, postincLoadOpcode, loadPointer, hpt]
    have hm0 := hmem (effAddr (sim.State.getReg m) k)
    have hm1 := hmem (effAddr (sim.State.getReg m) k + 1)
    have hb0 := hmem (effAddr (toUInt16 ((sim.State.getReg m : Int) - 1)) k)
    have hw0 := hmem (effAddr (toUInt16 ((sim.State.getReg m : Int) - 2)) k)
    have hw1 := hmem (effAddr (toUInt16 ((sim.State.getReg m : Int) - 2)) k + 1)
    first | omega | (unfold toUInt16; omega)

/-- Claim C36 on concrete inputs: with R7 = 0x0200 and the bytes 0x34, 0x12
at 0x0200, 0x0201: LDW_postinc R7, [R7, 0] leaves 0x0202 in R7 (the loaded
0x1234 is lost), LDW R7, [R7, 0] leaves 0x1234, and LDB_predec R7, [R7, 1]
leaves the loaded byte 0x34 (not the decremented pointer 0x01FF). -/
theorem C36_load_into_pointer_witness :
    loadOpcode .LDW_postinc = true ∧ getLLVMReg .R7 = some 7 ∧
    (∃ r, exec demoSim ⟨.LDW_postinc, [.createReg .R7, .createReg .R7, .createImm 0]⟩ 10 12
        = some r ∧ r.status = .SIM_OK ∧ r.sim.State.getReg 7 = 0x0202) ∧
    (∃ r, exec demoSim ⟨.LDW, [.createReg .R7, .createReg .R7, .createImm 0]⟩ 10 12
        = some r ∧ r.status = .SIM_OK ∧ r.sim.State.getReg 7 = 0x1234) ∧
    (∃ r, exec demoSim ⟨.LDB_predec, [.createReg .R7, .createReg .R7, .createImm 1]⟩ 10 12
        = some r ∧ r.status = .SIM_OK ∧ r.sim.State.getReg 7 = 0x34) := by
  obtain ⟨r1, e1, s1, h1, _, _⟩ :=
    C36_load_into_pointer demoSim .LDW_postinc rfl .R7 7 rfl 0 10 12
  obtain ⟨r2, e2, s2, _, _, h2⟩ := C36_load_into_pointer demoSim .LDW rfl .R7 7 rfl 0 10 12
  obtain ⟨r3, e3, s3, _, h3, _⟩ :=
    C36_load_into_pointer demoSim .LDB_predec rfl .R7 7 rfl 1 10 12
  exact ⟨rfl, rfl, ⟨r1, e1, s1, h1 rfl⟩, ⟨r2, e2, s2, h2 rfl rfl⟩, ⟨r3, e3, s3, h3 rfl rfl⟩⟩

/-! ## Terminal NOPs under the step driver (C37) -/

/-- Claim C37: the step driver commits the PC advance even for the terminal
statuses raised by a NOP.  For every state where the bytes at byte address
2*PC (a 32-bit byte address within the code array) decode with size s to a NOP
or NOP_short with command 0, step returns Breakpoint and the state afterwards
is the state before with PC := PC + s/2 and nothing else changed (registers,
data memory, code memory, flag, exit code, output streams); with command 2,
step returns Quit, the exit code is the register value and the PC afterwards
is again PC + s/2; s is 2 or 4.  A following step therefore fetches at the
address after the NOP. -/
theorem C37_step_terminal_nop (D : DecodeInstructionFn) (sim : AAPSimulator) (s : Nat)
    (op : AAP.Opcode) (hop : op = .NOP ∨ op = .NOP_short)
    (reg : AAP.Reg) (i : Nat) (hreg : getLLVMReg reg = some i) (c : Int)
    (hpc : 2 * sim.State.getPC < 4294967296)
    (hin : 2 * sim.State.getPC ≤ sim.State.getCodeArray.length)
    (hdec : (getInstruction D MCInst.fresh
        (sim.State.getCodeArray.drop (2 * sim.State.getPC)) (2 * sim.State.getPC)).status ≠ .Fail)
    (hsize : (getInstruction D MCInst.fresh
        (sim.State.getCodeArray.drop (2 * sim.State.getPC)) (2 * sim.State.getPC)).Size = s)
    (hMI : (getInstruction D MCInst.fresh
        (sim.State.getCodeArray.drop (2 * sim.State.getPC)) (2 * sim.State.getPC)).MI =
          ⟨op, [.createReg reg, .createImm c]⟩) :
    (s = 2 ∨ s = 4) ∧
    (toUInt16 c = 0 →
      ∃ sim2, step D sim = some (.SIM_BREAKPOINT, sim2) ∧
        sim2.State.getPC = sim.State.getPC + s / 2 ∧
        sim2 = { sim with State := sim.State.setPC (sim.State.getPC + s / 2) } ∧
        (∀ j, sim2.State.getReg j = sim.State.getReg j) ∧
        (∀ a, sim2.State.getDataMem a = sim.State.getDataMem a) ∧
        sim2.State.getCodeArray = sim.State.getCodeArray ∧
        sim2.State.getOverflow = sim.State.getOverflow ∧
        sim2.State.getExitCode = sim.State.getExitCode ∧
        sim2.outs = sim.outs ∧ sim2.errs = sim.errs) ∧
    (toUInt16 c = 2 →
      ∃ sim2, step D sim = some (.SIM_QUIT, sim2) ∧
        sim2.State.getPC = sim.State.getPC + s / 2 ∧
        sim2.State.getExitCode = sim.State.getReg i ∧
        sim2.State.getCodeArray = sim.State.getCodeArray) := by
  have hs : s = 2 ∨ s = 4 := hsize ▸ getInstruction_size D _ _ _ hdec
  have haddr : (sim.State.getPC <<< 1) % 4294967296 = 2 * sim.State.getPC := by
    rw [Nat.shiftLeft_eq]; omega
  have hnot : ¬ 2 * sim.State.getPC > sim.State.getCodeArray.length := by omega
  have hnew : (sim.State.getPC + s >>> 1) % 4294967296 = sim.State.getPC + s / 2 := by
    rw [Nat.shiftRight_eq_div_pow]
    rcases hs with rfl | rfl <;> omega
  have hget : ∀ st : AAPSimState, (st.setPC (sim.State.getPC + s / 2)).getPC =
      sim.State.getPC + s / 2 := by
    intro st
    simp only [AAPSimState.getPC, AAPSimState.setPC]
    have := hpc
    simp only [AAPSimState.getPC] at this
    rcases hs with rfl | rfl <;> omega
  obtain ⟨h0, h1⟩ := regOperand_nop op reg c
  have hR := sim.State.getReg_lt i
  refine ⟨hs, ?_, ?_⟩
  · intro hc
    have hexec : exec sim ⟨op, [.createReg reg, .createImm c]⟩ sim.State.getPC
        (sim.State.getPC + s / 2) = some ⟨.SIM_BREAKPOINT, sim, sim.State.getPC + s / 2⟩ := by
      rcases hop with rfl | rfl <;> simp [exec, MCInst.getOpcode, h0, h1, hreg, hc]
    refine ⟨{ sim with State := sim.State.setPC (sim.State.getPC + s / 2) }, ?_, hget _, rfl,
      fun j => rfl, fun a => rfl, rfl, rfl, rfl, rfl, rfl⟩
    simp only [step, haddr, hnot, if_false, hdec, ne_eq, not_false_eq_true, if_true, hsize,
      hnew, hMI, hexec]
  · intro hc
    have hexec : exec sim ⟨op, [.createReg reg, .createImm c]⟩ sim.State.getPC
        (sim.State.getPC + s / 2) =
        some ⟨.SIM_QUIT, { sim with State := sim.State.setExitCode (sim.State.getReg i) },
          sim.State.getPC + s / 2⟩ := by
      rcases hop with rfl | rfl <;> simp [exec, MCInst.getOpcode, h0, h1, hreg, hc]
    refine ⟨{ sim with State :=
      (sim.State.setExitCode (sim.State.getReg i)).setPC (sim.State.getPC + s / 2) }, ?_,
      hget _, ?_, rfl⟩
    · simp only [step, haddr, hnot, if_false, hdec, ne_eq, not_false_eq_true, if_true, hsize,
        hnew, hMI, hexec]
    · show (sim.State.setExitCode (sim.State.getReg i)).getExitCode = sim.State.getReg i
      rw [AAPSimState.getExitCode_setExitCode]
      exact Nat.mod_eq_of_lt hR

/-- Claim C37 on concrete inputs: at PC = 0 the word 0x0000 decodes with size
2 to NOP_short R0, 0; the step returns Breakpoint and leaves PC = 1, and the
step after it executes the MOV at word address 1 and leaves PC = 2.  At PC = 2
the words 0x8000 0x0002 decode with size 4 to NOP R5, 2; the step returns Quit
with exit code 0x1234 and leaves PC = 4. -/
theorem C37_step_terminal_nop_witness :
    (∃ sim2, step haltDecode (haltCodeSim 0) = some (.SIM_BREAKPOINT, sim2) ∧
      sim2.State.getPC = 1 ∧ sim2 = haltCodeSim 1 ∧
      ∃ sim3, step haltDecode sim2 = some (.SIM_OK, sim3) ∧ sim3.State.getPC = 2) ∧
    (∃ sim2, step haltDecode (haltCodeSim 2) = some (.SIM_QUIT, sim2) ∧
      sim2.State.getPC = 4 ∧ sim2.State.getExitCode = 0x1234) := by
  obtain ⟨_, hb, _⟩ := C37_step_terminal_nop haltDecode (haltCodeSim 0) 2 .NOP_short
    (Or.inr rfl) .R0 0 rfl 0 (by decide) (by decide) (by decide) (by decide) (by decide)
  obtain ⟨_, _, hq⟩ := C37_step_terminal_nop haltDecode (haltCodeSim 2) 4 .NOP
    (Or.inl rfl) .R5 5 rfl 2 (by decide) (by decide) (by decide) (by decide) (by decide)
  obtain ⟨sim2, e2, p2, eq2, _⟩ := hb (by decide)
  obtain ⟨sim4, e4, p4, x4, _⟩ := hq (by decide)
  refine ⟨⟨sim2, e2, p2, eq2, ?_⟩, ⟨sim4, e4, p4, x4⟩⟩
  subst eq2
  exact ⟨⟨((haltCodeSim 1).State.setReg 0 0x1234).setPC 2, [], []⟩, rfl, rfl⟩

/-! ## Memory and register frame (C38) -/

/-- A move, arithmetic, logical or shift instruction names its destination
in operand 0 and changes no other register. -/
theorem exec_compute_reg_frame (sim : AAPSimulator) (op : AAP.Opcode) (ops : List MCOperand)
    (pc_w newpc_w : Nat) (r : ExecResult)
    (h : exec sim ⟨op, ops⟩ pc_w newpc_w = some r) (hc : computeOpcode op = true) :
    ∃ d, regOperand ⟨op, ops⟩ 0 = some d ∧
      ∀ j, j ≠ d → r.sim.State.getReg j = sim.State.getReg j := by
  cases op <;> simp [computeOpcode] at hc <;>
  · simp [exec, MCInst.getOpcode, execOk, Option.bind_eq_some] at h
    obtain ⟨d, hd, h⟩ := h
    refine ⟨d, hd, ?_⟩
    repeat (obtain ⟨_, _, h⟩ := h)
    intro j hj
    try rw [AAPSimState.getReg_setOverflow]
    exact AAPSimState.getReg_setReg_of_ne sim.State _ hj

/-- Claim C38: for every state, every instruction outside the store family
leaves every data-memory byte unchanged; no instruction at all (stores
included) changes code memory; and a move, arithmetic, logical or shift
instruction changes no register other than its destination (the register
named by operand 0). -/
theorem C38_memory_frame (sim : AAPSimulator) (Inst : MCInst) (pc_w newpc_w : Nat)
    (r : ExecResult) (h : exec sim Inst pc_w newpc_w = some r) :
    (storeOpcode Inst.Opcode = false →
      ∀ a, r.sim.State.getDataMem a = sim.State.getDataMem a) ∧
    (r.sim.State.getCodeArray = sim.State.getCodeArray ∧
      ∀ a, r.sim.State.getCodeMem a = sim.State.getCodeMem a) ∧
    (computeOpcode Inst.Opcode = true →
      ∃ d, regOperand Inst 0 = some d ∧
        ∀ j, j ≠ d → r.sim.State.getReg j = sim.State.getReg j) := by
  obtain ⟨_, hdata, hcode⟩ := exec_frame_state sim Inst.Opcode Inst.Operands pc_w newpc_w r h
  refine ⟨fun hs a => ?_, ⟨?_, fun a => ?_⟩, fun hc => ?_⟩
  · simp only [AAPSimState.getDataMem, hdata hs]
  · simp only [AAPSimState.getCodeArray, hcode]
  · simp only [AAPSimState.getCodeMem, hcode]
  · exact exec_compute_reg_frame sim Inst.Opcode Inst.Operands pc_w newpc_w r h hc

/-- Claim C38 on concrete inputs: ADD_r R0, R3, R2 leaves the data-memory
byte at 0x0200, the code array and the register R3 as they were; the word
store STW R5, 0, R1 leaves the code array as it was. -/
theorem C38_memory_frame_witness :
    (∃ r, exec (demoCodeSim 2) ⟨.ADD_r, [.createReg .R0, .createReg .R3, .createReg .R2]⟩ 2 4
        = some r ∧
      r.sim.State.getDataMem 0x0200 = 0x34 ∧
      r.sim.State.getCodeArray = (demoCodeSim 2).State.getCodeArray ∧
      r.sim.State.getReg 3 = 0x7FFF) ∧
    (∃ r, exec (demoCodeSim 2) ⟨.STW, [.createReg .R5, .createImm 0, .createReg .R1]⟩ 2 4
        = some r ∧
      r.sim.State.getCodeArray = (demoCodeSim 2).State.getCodeArray) := by
  have e1 : exec (demoCodeSim 2) ⟨.ADD_r, [.createReg .R0, .createReg .R3, .createReg .R2]⟩
      2 4 = some ⟨.SIM_OK,
        ⟨((demoCodeSim 2).State.setReg 0 0x8000).setOverflow 1, [], []⟩, 4⟩ := rfl
  have e2 : exec (demoCodeSim 2) ⟨.STW, [.createReg .R5, .createImm 0, .createReg .R1]⟩
      2 4 = some ⟨.SIM_OK,
        ⟨(((demoCodeSim 2).State.setReg 5 0x1234).setDataMem 0x1234 0x34).setDataMem
          0x1235 0x12, [], []⟩, 4⟩ := rfl
  obtain ⟨hd, ⟨hc, _⟩, hr⟩ := C38_memory_frame _ _ 2 4 _ e1
  obtain ⟨_, ⟨hc2, _⟩, _⟩ := C38_memory_frame _ _ 2 4 _ e2
  obtain ⟨d, hd0, hframe⟩ := hr rfl
  have hd5 : d = 0 := by
    have : regOperand ⟨.ADD_r, [.createReg .R0, .createReg .R3, .createReg .R2]⟩ 0 = some 0 :=
      rfl
    rw [this] at hd0
    exact (Option.some.inj hd0).symm
  exact ⟨⟨_, e1, hd rfl 0x0200, hc, hframe 3 (by rw [hd5]; decide)⟩, ⟨_, e2, hc2⟩⟩

end AAPSim
